import Mathlib

/-!
# A shallow embedding of the gomidi `midi` library

The Go packages are mirrored by namespaces below `midi`:

* `midi.lib`, `midi.vlq`, `midi.runningstatus`: low-level helpers,
* `midi.channel`, `midi.meta`, `midi.sysex`: the message codecs,
* `midi.smfreader`, `midi.smfwriter`: the Standard MIDI File reader and writer,
* `midi.midiwriter`: the live writer,
* `midi.handler`: the dispatch facade.

Conventions of the embedding:

* a byte is a `Nat` (always below 256 on the paths that are exercised), a byte
  source (`io.Reader`) is the list of the bytes it still holds, a byte sink
  (`io.Writer`, a `bytes.Buffer` in the tests) is the list of bytes written so far;
* Go methods with a pointer receiver return the updated receiver next to their result;
* Go's `(value, error)` results become `Except`, or a pair of options where both may be `nil`;
* a Go `panic` is an explicit outcome;
* unbounded Go loops take a fuel argument and return `none` when it runs out.
-/

namespace midi

/-- A byte source: the bytes that are still unread. -/
abbrev Input := List Nat

/-- The error values of the library that the embedded code returns or compares with. -/
inductive Err
  /-- The value `io.EOF`. -/
  | EOF
  /-- The value `lib.ErrUnexpectedEOF`. -/
  | ErrUnexpectedEOF
  /-- The value `smfreader.ErrExpectedMthd`. -/
  | ErrExpectedMthd
  /-- The error built by `fmt.Errorf("unknown chunk of type %#v", head.typ)`. -/
  | unknownChunk (typ : List Nat)
  /-- The value `errFinished` of `smfwriter` (declared in writer.go). -/
  | errFinished
  /-- The value `ErrFinished` of `smfwriter` (used by `writeTrackTo`). -/
  | ErrFinished
  /-- The error built by `lib.UnexpectedMessageLengthError`. -/
  | UnexpectedMessageLengthError
  /-- The VLQ decoder gave up after five bytes. -/
  | VlqTooLong
  /-- A byte that had to be a data byte was not one. -/
  | MalformedData
  /-- The error built by `fmt.Errorf("can't get tracks from SMF0 file")` (smf1.go). -/
  | cantGetTracksFromSMF0
  /-- The error built by `fmt.Errorf("can't remove from SMF0 file")` (smf1.go). -/
  | cantRemoveFromSMF0
  /-- The error built by `fmt.Errorf("could not find tracks %v (%v tracks in source)",
  notFound, rd.Header().NumTracks)` (smf1.go). -/
  | couldNotFindTracks (notFound : List Nat) (numTracks : Nat)
  /-- The value `smfreader.ErrFinished` that smf1.go compares with; its declaration is not
  among the sources. -/
  | readerErrFinished
  deriving DecidableEq, Repr

namespace lib

/-- Modelled from the spec: `lib.ReadNBytes` is not among the sources. It reads exactly `n`
bytes from the source; when the source holds fewer it is drained and the read fails with
`ErrUnexpectedEOF` (spec §7: end of input in the middle of an item is `UnexpectedEOF`;
`readChunk` compares the failure of a chunk-header read with `lib.ErrUnexpectedEOF`). -/
def ReadNBytes (n : Nat) (rd : Input) : Except Err (List Nat) × Input :=
  if n ≤ rd.length then (.ok (rd.take n), rd.drop n) else (.error .ErrUnexpectedEOF, [])

/-- Modelled from the spec: `lib.ReadByte` is not among the sources. It reads one byte, and
fails with `ErrUnexpectedEOF` on an exhausted source. -/
def ReadByte : Input → Except Err Nat × Input
  | [] => (.error .ErrUnexpectedEOF, [])
  | b :: rest => (.ok b, rest)

/-- Modelled from the spec: the loop of `lib.ReadVarLength`, which is not among the sources
(see there). `fuel` bytes may still be consumed, `acc` holds the 7-bit groups read so far. -/
def readVarLengthAux : Nat → Nat → Input → Except Err Nat × Input
  | 0, _, rd => (.error .VlqTooLong, rd)
  | _ + 1, _, [] => (.error .ErrUnexpectedEOF, [])
  | fuel + 1, acc, b :: rest =>
    if b < 128 then (.ok ((acc * 128 + b) % 2 ^ 32), rest)
    else readVarLengthAux fuel (acc * 128 + b % 128) rest

/-- Modelled from the spec: `lib.ReadVarLength` is not among the sources. Spec §4.1: each
byte carries 7 data bits, the most significant bit is a continuation flag; decoding reads
bytes until one with that bit clear; it fails with `UnexpectedEOF` in mid-sequence and with
`VlqTooLong` once five bytes are consumed without termination. The result is a `uint32`. -/
def ReadVarLength (rd : Input) : Except Err Nat × Input :=
  readVarLengthAux 5 0 rd

/-- Modelled from the spec: `lib.ReadText` is not among the sources. The data of a meta
message is framed as `length:VLQ | data` (spec §4.2); the text is the data. -/
def ReadText (rd : Input) : Except Err (List Nat) × Input :=
  match ReadVarLength rd with
  | (.error e, rd) => (.error e, rd)
  | (.ok length, rd) => ReadNBytes length rd

end lib

namespace vlq

/-- Modelled from the spec: `vlq.Encode` is not among the sources. Spec §4.1: a non-negative
integer is encoded in 1 to 4 bytes of 7 data bits each, most significant group first, with
the bit `0x80` set on all but the final byte; the largest encodable value is `2^28 - 1`. -/
def Encode (n : Nat) : List Nat :=
  if n < 2 ^ 7 then [n]
  else if n < 2 ^ 14 then [128 + n / 2 ^ 7, n % 128]
  else if n < 2 ^ 21 then [128 + n / 2 ^ 14, 128 + n / 2 ^ 7 % 128, n % 128]
  else [128 + n / 2 ^ 21 % 128, 128 + n / 2 ^ 14 % 128, 128 + n / 2 ^ 7 % 128, n % 128]

end vlq

/-- The messages of the library that the embedded code handles (Go: the implementations of
`midi.Message` in the packages `channel`, `meta` and `sysex`). -/
inductive Message
  /-- Go: `channel.NoteOn`. -/
  | NoteOn (channel key velocity : Nat)
  /-- Go: `channel.NoteOff`, a note-off without velocity. -/
  | NoteOff (channel key : Nat)
  /-- Go: `channel.NoteOffVelocity` (`NoteOffPedantic` in the older package layout). -/
  | NoteOffVelocity (channel key velocity : Nat)
  /-- Go: `channel.PolyphonicAfterTouch`. -/
  | PolyphonicAfterTouch (channel key pressure : Nat)
  /-- Go: `channel.ControlChange`. -/
  | ControlChange (channel controller value : Nat)
  /-- Go: `channel.ProgramChange`. -/
  | ProgramChange (channel program : Nat)
  /-- Go: `channel.AfterTouch`. -/
  | AfterTouch (channel pressure : Nat)
  /-- Go: `channel.PitchBend`, with a signed value. -/
  | PitchBend (channel : Nat) (value : Int)
  /-- A system exclusive message: its first byte (`0xF0` or `0xF7`) and the bytes after it. -/
  | SysEx (start : Nat) (data : List Nat)
  /-- Go: `meta.EndOfTrack`. -/
  | EndOfTrack
  /-- Go: `meta.KeySignature`. -/
  | KeySignature (Key : Nat) (IsMajor : Bool) (Num : Nat) (IsFlat : Bool)
  /-- Go: `meta.TrackInstrument`. -/
  | TrackInstrument (text : List Nat)
  /-- A meta message of one of the other known types, with its data bytes. -/
  | Meta (typ : Nat) (data : List Nat)
  /-- Go: `meta.Undefined`. -/
  | Undefined (Typ : Nat) (Data : List Nat)
  deriving DecidableEq, Repr

/-- Go's conversion of an integer to `int8`. -/
def toInt8 (n : Int) : Int := (n + 128) % 256 - 128

/-- Go's conversion of an integer to `byte`. -/
def toByte (n : Int) : Nat := (n % 256).toNat

namespace channel

/-- Modelled from the spec: `channelMessage2` is not among the sources. Spec §4.2: the high
nibble of the status byte is the opcode, the low nibble the channel; two data bytes follow. -/
def channelMessage2 (channel typ arg1 arg2 : Nat) : List Nat :=
  [(typ <<< 4) ||| channel, arg1, arg2]

/-- Modelled from the spec: `channelMessage1` is not among the sources; as `channelMessage2`
with one data byte. -/
def channelMessage1 (channel typ arg : Nat) : List Nat :=
  [(typ <<< 4) ||| channel, arg]

/-- Go: `Channel.NoteOn` (channel.go): `NoteOn{channel: c.Channel(), key: key, velocity: veloctiy}`. -/
def NoteOn (c key velocity : Nat) : Message := .NoteOn c key velocity

/-- Go: `Channel.NoteOff` (channel.go): `NoteOff{channel: c.Channel(), key: key}`. -/
def NoteOff (c key : Nat) : Message := .NoteOff c key

/-- Go: `Channel.NoteOffVelocity` (channel.go). -/
def NoteOffVelocity (c key velocity : Nat) : Message := .NoteOffVelocity c key velocity

/-- Go: `Channel.ControlChange` (channel.go). -/
def ControlChange (c controller value : Nat) : Message := .ControlChange c controller value

end channel

namespace meta

/-- Go: the constant `byteEndOfTrack` of reader.go. -/
def byteEndOfTrack : Nat := 0x2F
/-- Go: the constant `byteSequenceNumber`. -/
def byteSequenceNumber : Nat := 0x00
/-- Go: the constant `byteText`. -/
def byteText : Nat := 0x01
/-- Go: the constant `byteCopyright`. -/
def byteCopyright : Nat := 0x02
/-- Go: the constant `byteSequence`. -/
def byteSequence : Nat := 0x03
/-- Go: the constant `byteTrackInstrument`. -/
def byteTrackInstrument : Nat := 0x04
/-- Go: the constant `byteLyric`. -/
def byteLyric : Nat := 0x05
/-- Go: the constant `byteMarker`. -/
def byteMarker : Nat := 0x06
/-- Go: the constant `byteCuePoint`. -/
def byteCuePoint : Nat := 0x07
/-- Go: the constant `byteMIDIChannel`. -/
def byteMIDIChannel : Nat := 0x20
/-- Go: the constant `byteDevicePort`. -/
def byteDevicePort : Nat := 0x9
/-- Go: the constant `byteMIDIPort`. -/
def byteMIDIPort : Nat := 0x21
/-- Go: the constant `byteTempo`. -/
def byteTempo : Nat := 0x51
/-- Go: the constant `byteTimeSignature`. -/
def byteTimeSignature : Nat := 0x58
/-- Go: the constant `byteKeySignature`. -/
def byteKeySignature : Nat := 0x59
/-- Go: the constant `byteSequencerSpecificInfo`. -/
def byteSequencerSpecificInfo : Nat := 0x7F

/-- Modelled from the spec: `metaMessage.Bytes` is not among the sources. Spec §4.2: meta
messages are uniformly framed as `0xFF | type | length:VLQ | data`. -/
def metaMessageBytes (Typ : Nat) (Data : List Nat) : List Nat :=
  [0xFF, Typ] ++ vlq.Encode Data.length ++ Data

end meta

/-- Modelled from the spec: the method `Raw` of the message types, of which only
`ControlChange.Raw` (controlchange.go), `KeySignature.Raw` (keysignature.go) and
`TrackInstrument.Raw` (trackinstrument.go) are among the sources; these three cases are
embedded from there. The other channel messages follow spec §4.2 (opcode in the high nibble,
`PitchBend` biased by 8192 and sent least significant 7 bits first), `NoteOff` is the note-on
of velocity 0 that the doc comment of `Channel.NoteOff` and the live writer tests describe,
and the meta messages use the uniform meta framing (`EndOfTrack` is `FF 2F 00`). -/
def Message.Raw : Message → List Nat
  | .NoteOn c k v => channel.channelMessage2 c 9 k v
  | .NoteOff c k => channel.channelMessage2 c 9 k 0
  | .NoteOffVelocity c k v => channel.channelMessage2 c 8 k v
  | .PolyphonicAfterTouch c k p => channel.channelMessage2 c 10 k p
  | .ControlChange c ctl v => channel.channelMessage2 c 11 ctl v
  | .ProgramChange c p => channel.channelMessage1 c 12 p
  | .AfterTouch c p => channel.channelMessage1 c 13 p
  | .PitchBend c v =>
    let r := (v + 8192).toNat
    channel.channelMessage2 c 14 (r % 128) (r / 128 % 128)
  | .SysEx start data => start :: data
  | .EndOfTrack => meta.metaMessageBytes meta.byteEndOfTrack []
  | .KeySignature _ IsMajor Num IsFlat =>
    let mi : Int := if !IsMajor then 1 else 0
    let sf : Int := toInt8 Num
    let sf : Int := if IsFlat then toInt8 (sf * (-1)) else sf
    meta.metaMessageBytes meta.byteKeySignature [toByte sf, toByte mi]
  | .TrackInstrument text => meta.metaMessageBytes meta.byteTrackInstrument text
  | .Meta typ data => meta.metaMessageBytes typ data
  | .Undefined typ data => meta.metaMessageBytes typ data

namespace runningstatus

/-- Modelled from the spec: the running-status tracker of a reader (Go: the interface
`runningstatus.Reader`, whose package is not among the sources). Spec §4.3: one slot holding
the last channel status; 0 stands for none. -/
structure Reader where
  /-- The stored status byte, 0 for none. -/
  status : Nat
  deriving DecidableEq, Repr

/-- Modelled from the spec: `runningstatus.NewSMFReader()` is not among the sources; the slot
of a new tracker is empty. -/
def NewSMFReader : Reader := { status := 0 }

/-- Modelled from the spec: the implementation of `runningstatus.Reader` is not among the
sources. Spec §4.3, reader rules: a channel status `0x80..0xEF` is stored and applies; a
status in `0xF0..0xF7` clears the slot; a byte in `0xF8..0xFF` does not affect the slot; for
a data byte (below `0x80`) the stored status applies. The reported status is 0 for every
canary from `0xF0` on: `_readEvent` treats a reported status 0 as "no channel status" and
then switches on the canary (`0xF0`, `0xF7`, `0xFF`). The second result tells whether the
canary was a status byte. -/
def Reader.Read (r : Reader) (canary : Nat) : (Nat × Bool) × Reader :=
  if 0x80 ≤ canary ∧ canary ≤ 0xEF then ((canary, true), { status := canary })
  else if 0xF0 ≤ canary ∧ canary ≤ 0xF7 then ((0, true), { status := 0 })
  else if 0xF8 ≤ canary then ((0, true), r)
  else ((r.status, false), r)

/-- Modelled from the spec: the running-status tracker of the SMF writer (Go:
`runningstatus.SMFWriter`, not among the sources), one slot as for the reader. -/
structure SMFWriter where
  /-- The status byte written last, 0 for none. -/
  status : Nat
  deriving DecidableEq, Repr

/-- Modelled from the spec: `runningstatus.NewSMFWriter()` is not among the sources; the slot
of a new tracker is empty. -/
def NewSMFWriter : SMFWriter := { status := 0 }

/-- Modelled from the spec: `SMFWriter.ResetStatus()` is not among the sources; it clears the
slot. -/
def SMFWriter.ResetStatus (_w : SMFWriter) : SMFWriter := { status := 0 }

/-- Modelled from the spec: the writer side of the running-status tracker is not among the
sources. Spec §4.3, writer rules, on the raw bytes of a message: a channel message whose
status equals the stored one is emitted as its data bytes only; otherwise the status is
emitted and stored; a status in `0xF0..0xF7` clears the slot; a status from `0xF8` on
bypasses the tracker. Used by both the SMF writer and the live writer. -/
def writeRaw (status : Nat) (raw : List Nat) : List Nat × Nat :=
  match raw with
  | [] => ([], status)
  | b :: data =>
    if 0x80 ≤ b ∧ b ≤ 0xEF then
      if b = status then (data, status) else (b :: data, b)
    else if 0xF0 ≤ b ∧ b ≤ 0xF7 then (b :: data, 0)
    else (b :: data, status)

/-- Modelled from the spec: `SMFWriter.Write(msg)` is not among the sources; it applies the
writer rules to the raw bytes of `msg` and yields the bytes to append and the updated
tracker. -/
def SMFWriter.Write (w : SMFWriter) (msg : Message) : List Nat × SMFWriter :=
  let r := writeRaw w.status msg.Raw
  (r.1, { status := r.2 })

end runningstatus

namespace channel

/-- Modelled from the spec: the check of a data byte of a channel message, part of the
channel reader that is not among the sources. Spec §3: data bytes are `0..=127`, any
deviation triggers `MalformedData`. -/
def dataByte (b : Nat) : Except Err Nat :=
  if b < 128 then .ok b else .error .MalformedData

/-- Modelled from the spec: the channel reader (`channel.NewReader(input, status, ...).Read()`)
is not among the sources. It receives the byte source and the status byte only. Spec §4.2 and
§4.4: the high nibble of the status is the opcode, the low nibble the channel; program change
and channel aftertouch read one data byte from the source, the other channel messages two.
A message of opcode 8 and a note-on of velocity 0 are both returned as `NoteOff`; with the
option `ReadNoteOffPedantic` the latter kind is told apart and returned with its velocity,
as the doc comment of that option in reader.go says. `PitchBend` removes the bias 8192. -/
def Read (input : Input) (status : Nat) (readNoteOffPedantic : Bool) :
    Except Err Message × Input :=
  let typ := status >>> 4
  let ch := status &&& 0x0F
  if typ = 0xC ∨ typ = 0xD then
    match lib.ReadByte input with
    | (.error e, rest) => (.error e, rest)
    | (.ok b, rest) =>
      match dataByte b with
      | .error e => (.error e, rest)
      | .ok arg => (.ok (if typ = 0xC then .ProgramChange ch arg else .AfterTouch ch arg), rest)
  else
    match lib.ReadNBytes 2 input with
    | (.error e, rest) => (.error e, rest)
    | (.ok bt, rest) =>
      match dataByte (bt.getD 0 0), dataByte (bt.getD 1 0) with
      | .error e, _ => (.error e, rest)
      | .ok _, .error e => (.error e, rest)
      | .ok arg1, .ok arg2 =>
        if typ = 0x8 then (.ok (.NoteOff ch arg1), rest)
        else if typ = 0x9 then
          (.ok (if arg2 = 0 then
                  (if readNoteOffPedantic then .NoteOffVelocity ch arg1 arg2 else .NoteOff ch arg1)
                else .NoteOn ch arg1 arg2), rest)
        else if typ = 0xA then (.ok (.PolyphonicAfterTouch ch arg1 arg2), rest)
        else if typ = 0xB then (.ok (.ControlChange ch arg1 arg2), rest)
        else if typ = 0xE then (.ok (.PitchBend ch (Int.ofNat (arg2 * 128 + arg1) - 8192)), rest)
        else (.error .MalformedData, rest)

end channel

namespace sysex

/-- Modelled from the spec: `sysex.ReadSMF` is not among the sources. Spec §4.2: in an SMF a
system exclusive event is `0xF0 | length:VLQ | data` (or the same after `0xF7`), the
trailing `0xF7` being part of the data. -/
def ReadSMF (canary : Nat) (input : Input) : Except Err Message × Input :=
  match lib.ReadVarLength input with
  | (.error e, rest) => (.error e, rest)
  | (.ok length, rest) =>
    match lib.ReadNBytes length rest with
    | (.error e, rest) => (.error e, rest)
    | (.ok data, rest) => (.ok (.SysEx canary data), rest)

end sysex

namespace meta

/-- Go: the constant `majorMode` of keysignature.go. -/
def majorMode : Nat := 0
/-- Go: the constant `minorMode` of keysignature.go. -/
def minorMode : Nat := 1

/-- The loop `for tmp < 0 { tmp += 12 }` of `keyFromSharpsOrFlats`. -/
def clampToOctave (tmp : Int) : Int :=
  if tmp < 0 then clampToOctave (tmp + 12) else tmp
termination_by (-tmp).toNat
decreasing_by omega

/-- Go: `keyFromSharpsOrFlats` (keysignature.go). The product `sharpsOrFlats * 7` is computed
in `int8` before it is widened to `int`. -/
def keyFromSharpsOrFlats (sharpsOrFlats : Int) (mode : Nat) : Nat :=
  let tmp : Int := toInt8 (sharpsOrFlats * 7)
  let tmp : Int := if mode = minorMode then tmp - 3 else tmp
  let tmp : Int := clampToOctave tmp
  toByte (tmp % 12)

/-- Go: `KeySignature.readFrom` (keysignature.go). -/
def KeySignature.readFrom (rd : Input) : Except Err Message × Input :=
  match lib.ReadVarLength rd with
  | (.error e, rd) => (.error e, rd)
  | (.ok length, rd) =>
    if length ≠ 2 then (.error .UnexpectedMessageLengthError, rd)
    else
      match lib.ReadByte rd with
      | (.error e, rd) => (.error e, rd)
      | (.ok b, rd) =>
        let sharpsOrFlats : Int := toInt8 b
        match lib.ReadByte rd with
        | (.error e, rd) => (.error e, rd)
        | (.ok mode, rd) =>
          let num : Int := if sharpsOrFlats < 0 then toInt8 (sharpsOrFlats * (-1)) else sharpsOrFlats
          let key := keyFromSharpsOrFlats sharpsOrFlats mode
          (.ok (.KeySignature key (mode == majorMode) (toByte num) (decide (sharpsOrFlats < 0))), rd)

/-- Go: `TrackInstrument.readFrom` (trackinstrument.go). -/
def TrackInstrument.readFrom (rd : Input) : Except Err Message × Input :=
  match lib.ReadText rd with
  | (.error e, rd) => (.error e, rd)
  | (.ok text, rd) => (.ok (.TrackInstrument text), rd)

/-- Modelled from the spec: `EndOfTrack.readFrom` is not among the sources. Spec §4.2:
`EndOfTrack` is `FF 2F 00`, so the declared length has to be 0 (spec §7: a meta length that
mismatches the declared expectation is an error). -/
def EndOfTrack.readFrom (rd : Input) : Except Err Message × Input :=
  match lib.ReadVarLength rd with
  | (.error e, rd) => (.error e, rd)
  | (.ok length, rd) =>
    if length ≠ 0 then (.error .UnexpectedMessageLengthError, rd) else (.ok .EndOfTrack, rd)

/-- Modelled from the spec: the `readFrom` methods of the remaining meta types and of
`Undefined` are not among the sources. They read the uniform framing `length:VLQ | data`
(spec §4.2) and `wrap` the data into the message. -/
def data_readFrom (wrap : List Nat → Message) (rd : Input) : Except Err Message × Input :=
  match lib.ReadText rd with
  | (.error e, rd) => (.error e, rd)
  | (.ok data, rd) => (.ok (wrap data), rd)

/-- Go: the table `metaMessages` (reader.go), from a type byte to the prototype message
whose `readFrom` parses the event; `none` is Go's `nil`, for the types that are absent and
for `byteSequencerSpecificInfo`, which the table maps to `nil`. -/
def metaMessages (typ : Nat) : Option Message :=
  if typ = byteEndOfTrack then some .EndOfTrack
  else if typ = byteSequenceNumber then some (.Meta byteSequenceNumber [])
  else if typ = byteText then some (.Meta byteText [])
  else if typ = byteCopyright then some (.Meta byteCopyright [])
  else if typ = byteSequence then some (.Meta byteSequence [])
  else if typ = byteTrackInstrument then some (.TrackInstrument [])
  else if typ = byteLyric then some (.Meta byteLyric [])
  else if typ = byteMarker then some (.Meta byteMarker [])
  else if typ = byteCuePoint then some (.Meta byteCuePoint [])
  else if typ = byteMIDIChannel then some (.Meta byteMIDIChannel [])
  else if typ = byteDevicePort then some (.Meta byteDevicePort [])
  else if typ = byteMIDIPort then some (.Meta byteMIDIPort [])
  else if typ = byteTempo then some (.Meta byteTempo [])
  else if typ = byteTimeSignature then some (.Meta byteTimeSignature [])
  else if typ = byteKeySignature then some (.KeySignature 0 false 0 false)
  else none

/-- Go: the method `readFrom` of a meta message, dispatched on the type of the receiver. A
channel or sysex message is no meta message and has no such method; it never occurs in
`metaMessages`. -/
def readFrom (m : Message) (rd : Input) : Except Err Message × Input :=
  match m with
  | .EndOfTrack => EndOfTrack.readFrom rd
  | .KeySignature _ _ _ _ => KeySignature.readFrom rd
  | .TrackInstrument _ => TrackInstrument.readFrom rd
  | .Meta typ _ => data_readFrom (.Meta typ) rd
  | .Undefined typ _ => data_readFrom (.Undefined typ) rd
  | _ => (.error .MalformedData, rd)

/-- Go: the struct `reader` of the meta package (reader.go). -/
structure reader where
  /-- The byte source. -/
  input : Input
  /-- The type byte of the meta event. -/
  typ : Nat
  /-- The flag that `Read` tests. -/
  done : Bool
  deriving DecidableEq, Repr

/-- Go: `meta.NewReader` (reader.go): `&reader{input, typ, false}`. -/
def NewReader (input : Input) (typ : Nat) : reader :=
  { input := input, typ := typ, done := false }

/-- Go: `reader.Read` of the meta package (reader.go). The result is the pair
`(Message, error)`; the receiver comes back with its source advanced. -/
def reader.Read (r : reader) : (Option Message × Option Err) × reader :=
  if r.done then ((none, some .EOF), r)
  else
    let m : Message :=
      match metaMessages r.typ with
      | some m => m
      | none => .Undefined r.typ []
    match readFrom m r.input with
    | (.error e, rest) => ((none, some e), { r with input := rest })
    | (.ok msg, rest) => ((some msg, none), { r with input := rest })

/-- Modelled from the spec: `meta.ReadFrom(typ, input)` is not among the sources; it reads
one meta message of type `typ` through a fresh `NewReader(input, typ)`. -/
def ReadFrom (typ : Nat) (input : Input) : (Option Message × Option Err) × Input :=
  let r := (NewReader input typ).Read
  (r.1, r.2.input)

end meta

namespace smf

/-- Modelled from the spec: the time formats `smf.MetricTicks` and `smf.TimeCode`, whose
declarations are not among the sources. Spec §3: ticks per quarter note, or SMPTE frames per
second with sub-frames. -/
inductive TimeFormat
  /-- Ticks per quarter note. -/
  | MetricTicks (ticks : Nat)
  /-- SMPTE frames per second and sub-frames per frame. -/
  | TimeCode (FramesPerSecond SubFrames : Nat)
  deriving DecidableEq, Repr

/-- Modelled from the spec: the format constant `smf.SMF0` (not among the sources), format
number 0. -/
def SMF0 : Nat := 0
/-- Modelled from the spec: the format constant `smf.SMF1` (not among the sources), format
number 1. -/
def SMF1 : Nat := 1
/-- Modelled from the spec: the format constant `smf.SMF2` (not among the sources), format
number 2. -/
def SMF2 : Nat := 2

/-- Modelled from the spec: the struct `smf.Header` (its declaration is not among the
sources); `newWriter` fills the fields `Format`, `NumTracks` and `TimeFormat`. -/
structure Header where
  /-- The SMF format, by its number. -/
  Format : Nat
  /-- The number of tracks, a `uint16`. -/
  NumTracks : Nat
  /-- The time format. -/
  TimeFormat : TimeFormat
  deriving DecidableEq, Repr

/-- Go standard library: `binary.Write(w, binary.BigEndian, v)` for a 16-bit `v`, two bytes,
most significant first. -/
def be16 (n : Nat) : List Nat := [n / 256 % 256, n % 256]

/-- Go standard library: a 32-bit value in `binary.BigEndian`, four bytes, most significant
first. -/
def be32 (n : Nat) : List Nat := [n / 2 ^ 24 % 256, n / 2 ^ 16 % 256, n / 2 ^ 8 % 256, n % 256]

/-- The four bytes of the chunk type "MThd". -/
def MThd : List Nat := [0x4D, 0x54, 0x68, 0x64]

/-- The four bytes of the chunk type "MTrk". -/
def MTrk : List Nat := [0x4D, 0x54, 0x72, 0x6B]

end smf

namespace smfreader

/-- Go: the type `state` of the SMF reader and its four constants. -/
inductive state
  /-- At the start of the file, the header chunk is expected. -/
  | stateExpectHeader
  /-- A chunk is expected. -/
  | stateExpectChunk
  /-- Inside a track, an event is expected. -/
  | stateExpectTrackEvent
  /-- The end has been reached. -/
  | stateDone
  deriving DecidableEq, Repr

/-- Modelled from the spec: the struct `chunkHeader` of the SMF reader (its declaration is not
among the sources); `readMThd` and `readChunk` use its fields `typ` and `length`. -/
structure chunkHeader where
  /-- The four type bytes. -/
  typ : List Nat
  /-- The declared length of the body. -/
  length : Nat
  deriving DecidableEq, Repr

/-- Modelled from the spec: `chunkHeader.readFrom` is not among the sources. Spec §3: a chunk
starts with a 4-byte type and a 4-byte big-endian length. `readChunk` expects the failure
`lib.ErrUnexpectedEOF` when the source ends here. -/
def chunkHeader.readFrom (rd : Input) : Except Err chunkHeader × Input :=
  match lib.ReadNBytes 4 rd with
  | (.error e, rd) => (.error e, rd)
  | (.ok typ, rd) =>
    match lib.ReadNBytes 4 rd with
    | (.error e, rd) => (.error e, rd)
    | (.ok l, rd) =>
      (.ok { typ := typ,
             length := l.getD 0 0 * 2 ^ 24 + l.getD 1 0 * 2 ^ 16 + l.getD 2 0 * 2 ^ 8 + l.getD 3 0 },
        rd)

/-- Modelled from the spec: the struct `mThdData` of the SMF reader, the parsed header chunk
(its declaration is not among the sources; `readEvent` uses the field `numTracks`). Spec
§3: format, number of tracks, division. -/
structure mThdData where
  /-- The SMF format, by its number. -/
  format : Nat
  /-- The declared number of tracks. -/
  numTracks : Nat
  /-- The time format decoded from the division. -/
  timeFormat : smf.TimeFormat
  deriving DecidableEq, Repr

/-- The zero value of `mThdData`, held by a reader before the header is parsed. -/
def mThdData.zero : mThdData :=
  { format := 0, numTracks := 0, timeFormat := .MetricTicks 0 }

/-- Modelled from the spec: `mThdData.readFrom` is not among the sources. Spec §3: the body
of the header chunk is `format:u16 | num_tracks:u16 | division:u16`, big-endian; a division
with bit 15 clear is `MetricTicks`, with bit 15 set it is `TimeCode` with the negated
two's-complement frame rate in the high byte and the sub-frames in the low byte. The method
gets the byte source only, not the declared length of the chunk. -/
def mThdData.readFrom (rd : Input) : Except Err mThdData × Input :=
  match lib.ReadNBytes 6 rd with
  | (.error e, rd) => (.error e, rd)
  | (.ok b, rd) =>
    let hi := b.getD 4 0
    let lo := b.getD 5 0
    (.ok { format := b.getD 0 0 * 256 + b.getD 1 0,
           numTracks := b.getD 2 0 * 256 + b.getD 3 0,
           timeFormat := if hi < 128 then .MetricTicks (hi * 256 + lo)
                         else .TimeCode (256 - hi) lo },
      rd)

/-- Go standard library: `io.CopyN(ioutil.Discard, src, n)`. It discards `n` bytes of the
source; when the source ends earlier it is drained and the error is `io.EOF`. -/
def copyNDiscard (rd : Input) (n : Nat) : Option Err × Input :=
  if n ≤ rd.length then (none, rd.drop n) else (some .EOF, [])

/-- The places where the SMF reader panics. -/
inductive Panic
  /-- Go: `panic("unreachable")` in `Read`. -/
  | unreachable
  /-- Go: `panic(fmt.Sprintf("must not happen: invalid status % X", canary))`. -/
  | invalidStatus (canary : Nat)
  /-- Go: `panic("must not happen: unknown event should be handled inside meta.Reader")`. -/
  | unknownEvent
  deriving DecidableEq, Repr

/-- What a call of `Read` yields: the returned pair `(midi.Message, error)`, where `none`
is Go's `nil`, or a panic. -/
inductive Outcome
  /-- The call returned `(m, err)`. -/
  | ret (m : Option Message) (err : Option Err)
  /-- The call panicked. -/
  | panicked (site : Panic)
  deriving DecidableEq, Repr

/-- Go: the struct `reader` of the SMF reader (reader.go). The logger is left out: `log`
only prints. -/
structure reader where
  /-- The byte source. -/
  input : Input
  /-- The state of the parser. -/
  state : state
  /-- The running-status tracker. -/
  runningStatus : runningstatus.Reader
  /-- The number of tracks whose end has been read, a `uint16`. -/
  processedTracks : Nat
  /-- The sum of the deltas of the current track, a `uint64`. -/
  absTrackTime : Nat
  /-- The delta of the last event, a `uint32`. -/
  deltatime : Nat
  /-- The parsed header. -/
  mthd : mThdData
  /-- The option to fail on chunks other than MTrk. -/
  failOnUnknownChunks : Bool
  /-- Whether `readMThd` has run. -/
  headerIsRead : Bool
  /-- The error that `readMThd` cached, `none` for `nil`. -/
  headerError : Option Err
  /-- The option `ReadNoteOffPedantic`. -/
  readNoteOffPedantic : Bool
  deriving DecidableEq, Repr

/-- Go: `smfreader.New(src)` without options. -/
def New (src : Input) : reader :=
  { input := src, state := .stateExpectHeader, runningStatus := runningstatus.NewSMFReader,
    processedTracks := 0, absTrackTime := 0, deltatime := 0, mthd := mThdData.zero,
    failOnUnknownChunks := false, headerIsRead := false, headerError := none,
    readNoteOffPedantic := false }

/-- Go: `reader.readChannelMsg` (reader.go): the channel reader gets the byte source and the
status, with the pedantic option when it is set. -/
def reader.readChannelMsg (p : reader) (status : Nat) : Except Err Message × reader :=
  let r := channel.Read p.input status p.readNoteOffPedantic
  (r.1, { p with input := r.2 })

/-- Go: `reader.Delta` (reader.go). -/
def reader.Delta (p : reader) : Nat := p.deltatime

/-- Go: `reader.Track` (reader.go). -/
def reader.Track (p : reader) : Nat := p.processedTracks

/-- Go: `reader.readMThd` (reader.go). The deferred `p.headerIsRead = true` runs on every
path that got past the first test. -/
def reader.readMThd (p : reader) : Option Err × reader :=
  if p.headerIsRead then (p.headerError, p)
  else
    match chunkHeader.readFrom p.input with
    | (.error e, rest) =>
      (some e, { p with input := rest, headerError := some e, headerIsRead := true })
    | (.ok head, rest) =>
      let p := { p with input := rest, headerError := none }
      if head.typ ≠ smf.MThd then (some .ErrExpectedMthd, { p with headerIsRead := true })
      else
        match mThdData.readFrom p.input with
        | (.error e, rest) =>
          (some e, { p with input := rest, headerError := some e, headerIsRead := true })
        | (.ok mthd, rest) =>
          (none, { p with input := rest, mthd := mthd, headerError := none,
                          state := .stateExpectChunk, headerIsRead := true })

/-- Go: `reader.ReadHeader` (reader.go): `err := p.readMThd(); return p.mthd, err`. -/
def reader.ReadHeader (p : reader) : (mThdData × Option Err) × reader :=
  let r := p.readMThd
  ((r.2.mthd, r.1), r.2)

/-- Go: `reader.readChunk` (reader.go). -/
def reader.readChunk (p : reader) : Option Err × reader :=
  match chunkHeader.readFrom p.input with
  | (.error e, rest) =>
    let p := { p with input := rest }
    if e = .ErrUnexpectedEOF then (some .EOF, { p with state := .stateDone })
    else (some e, p)
  | (.ok head, rest) =>
    let p := { p with input := rest }
    if head.typ = smf.MTrk then (none, { p with state := .stateExpectTrackEvent })
    else if p.failOnUnknownChunks then (some (.unknownChunk head.typ), p)
    else
      match copyNDiscard p.input head.length with
      | (some e, rest) => (some e, { p with input := rest })
      | (none, rest) => (none, { p with input := rest, state := .stateExpectChunk })

/-- The tail of `_readEvent` (reader.go), after the message `m` has been parsed without
error: the bookkeeping for `meta.EndOfTrack` and the return. -/
def reader.finishEvent (p : reader) (m : Message) : Outcome × reader :=
  if m = .EndOfTrack then
    (.ret (some m) none,
      { p with processedTracks := (p.processedTracks + 1) % 2 ^ 16, absTrackTime := 0,
               deltatime := 0, state := .stateExpectChunk })
  else (.ret (some m) none, p)

/-- Go: `reader._readEvent` (reader.go). -/
def reader._readEvent (p : reader) (canary : Nat) : Outcome × reader :=
  let rs := p.runningStatus.Read canary
  let status := rs.1.1
  let p := { p with runningStatus := rs.2 }
  if status = 0 then
    if canary = 0xF0 ∨ canary = 0xF7 then
      match sysex.ReadSMF canary p.input with
      | (.error e, rest) => (.ret none (some e), { p with input := rest })
      | (.ok m, rest) => (.ret (some m) none, { p with input := rest })
    else if canary = 0xFF then
      match lib.ReadByte p.input with
      | (.error _, rest) => (.ret none none, { p with input := rest })
      | (.ok typ, rest) =>
        match meta.ReadFrom typ rest with
        | ((_, some e), rest) => (.ret none (some e), { p with input := rest })
        | ((none, none), rest) => (.panicked .unknownEvent, { p with input := rest })
        | ((some m, none), rest) => reader.finishEvent { p with input := rest } m
    else (.panicked (.invalidStatus canary), p)
  else
    match p.readChannelMsg status with
    | (.error e, p) => (.ret none (some e), p)
    | (.ok m, p) => p.finishEvent m

/-- Go: `reader.readEvent` (reader.go). -/
def reader.readEvent (p : reader) : Outcome × reader :=
  if p.processedTracks = p.mthd.numTracks then
    (.ret none (some .EOF), { p with state := .stateDone })
  else
    match lib.ReadVarLength p.input with
    | (.error e, rest) => (.ret none (some e), { p with input := rest })
    | (.ok deltatime, rest) =>
      let p := { p with input := rest, deltatime := deltatime,
                        absTrackTime := (p.absTrackTime + deltatime) % 2 ^ 64 }
      match lib.ReadByte p.input with
      | (.error e, rest) => (.ret none (some e), { p with input := rest })
      | (.ok canary, rest) => reader._readEvent { p with input := rest } canary

/-- Go: `reader.Read` (reader.go). One unit of fuel is one turn of the `for` loop; `none`
means that the loop is still running when the fuel is used up. -/
def reader.Read : Nat → reader → Option (Outcome × reader)
  | 0, _ => none
  | fuel + 1, p =>
    match p.state with
    | .stateExpectHeader =>
      match p.readMThd with
      | (some err, p) => some (.ret none (some err), p)
      | (none, p) => reader.Read fuel p
    | .stateExpectChunk =>
      match p.readChunk with
      | (some err, p) => some (.ret none (some err), p)
      | (none, p) => reader.Read fuel p
    | .stateExpectTrackEvent => some (reader.readEvent { p with deltatime := 0 })
    | .stateDone => some (.ret none (some .EOF), p)

end smfreader

namespace smf

/-- Modelled from the spec: the struct `smf.Chunk` (not among the sources), a chunk under
construction: its type and its body. -/
structure Chunk where
  /-- The four type bytes. -/
  typ : List Nat
  /-- The body written so far. -/
  data : List Nat
  deriving DecidableEq, Repr

/-- Modelled from the spec: `Chunk.SetType` (not among the sources) sets the type. -/
def Chunk.SetType (c : Chunk) (typ : List Nat) : Chunk := { c with typ := typ }

/-- Modelled from the spec: `Chunk.Write` (not among the sources) appends to the body; spec
§4.5: the track body is buffered as bytes. -/
def Chunk.Write (c : Chunk) (b : List Nat) : Chunk := { c with data := c.data ++ b }

/-- Modelled from the spec: `Chunk.Clear` (not among the sources) empties the body; the
writer calls it to "remove the data for the next track". -/
def Chunk.Clear (c : Chunk) : Chunk := { c with data := [] }

/-- Modelled from the spec: `smf.Chunk` is not among the sources. Spec §4.5 and §6: a chunk
is emitted as its 4-byte type, the length of the body as a 4-byte big-endian integer, and
the body. These are the bytes that `Chunk.WriteTo` writes. -/
def Chunk.Bytes (c : Chunk) : List Nat := c.typ ++ be32 c.data.length ++ c.data

/-- Modelled from the spec: `MetricTicks.Ticks4th` is not among the sources. The resolution
in ticks per quarter note; `MetricTicks(0)` stands for the default, which `newWriter`
documents as 960. -/
def Ticks4th (ticks : Nat) : Nat := if ticks = 0 then 960 else ticks

end smf

namespace smfwriter

/-- Go: the struct `writer` of the SMF writer (writer.go). The output is an in-memory buffer
(a `bytes.Buffer` in the tests): `output` holds what has been written, and a write to it
never fails. -/
structure writer where
  /-- The header to write. -/
  header : smf.Header
  /-- The chunk of the current track. -/
  track : smf.Chunk
  /-- The bytes written to the destination so far. -/
  output : List Nat
  /-- Whether the header chunk has been written. -/
  headerWritten : Bool
  /-- The number of finished tracks, a `uint16`. -/
  tracksProcessed : Nat
  /-- The pending delta, a `uint32`. -/
  deltatime : Nat
  /-- The option `NoRunningStatus`. -/
  noRunningStatus : Bool
  /-- The sticky error, `none` for `nil`. -/
  error : Option Err
  /-- The running-status tracker, `none` for `nil`. -/
  runningWriter : Option runningstatus.SMFWriter
  deriving DecidableEq, Repr

/-- Modelled from the spec: the option `NoRunningStatus` is not among the sources; it sets
the flag that `newWriter` and `addMessage` test (spec §4.4: the mode flag forces full
emission). -/
def NoRunningStatus (wr : writer) : writer := { wr with noRunningStatus := true }

/-- Modelled from the spec: the option `NumTracks` is not among the sources; it sets the
number of tracks of the header. -/
def NumTracks (ntracks : Nat) (wr : writer) : writer :=
  { wr with header := { wr.header with NumTracks := ntracks % 2 ^ 16 } }

/-- Modelled from the spec: the option `TimeFormat` is not among the sources; it sets the
time format of the header. -/
def TimeFormat (tf : smf.TimeFormat) (wr : writer) : writer :=
  { wr with header := { wr.header with TimeFormat := tf } }

/-- Modelled from the spec: the option `Format` is not among the sources; it sets the format
of the header. -/
def Format (f : Nat) (wr : writer) : writer :=
  { wr with header := { wr.header with Format := f } }

/-- Go: `newWriter` (writer.go); `opts` are applied in order. The destination starts empty. -/
def newWriter (opts : List (writer → writer)) : writer :=
  let wr : writer :=
    { header := { Format := smf.SMF0, NumTracks := 1, TimeFormat := .MetricTicks 0 },
      track := { typ := smf.MTrk, data := [] },
      output := [], headerWritten := false, tracksProcessed := 0, deltatime := 0,
      noRunningStatus := false, error := none, runningWriter := none }
  let wr := opts.foldl (fun w opt => opt w) wr
  let wr := if !wr.noRunningStatus then
      { wr with runningWriter := some runningstatus.NewSMFWriter } else wr
  if wr.header.Format ≠ smf.SMF2 ∧ wr.header.NumTracks > 1 then
    { wr with header := { wr.header with Format := smf.SMF1 } }
  else wr

/-- Go: `smfwriter.New` (writer.go): `return newWriter(dest, opts...)`. -/
def New (opts : List (writer → writer)) : writer := newWriter opts

/-- Go: `writer.SetDelta` (writer.go). -/
def writer.SetDelta (wr : writer) (deltatime : Nat) : writer :=
  { wr with deltatime := deltatime }

/-- Go: `writer.writeTimeFormat` (writer.go); the two division bytes. -/
def writer.writeTimeFormat (w : writer) : List Nat :=
  match w.header.TimeFormat with
  | .MetricTicks t =>
    let ticks := smf.Ticks4th t
    let ticks := if ticks > 32767 then 32767 else ticks
    smf.be16 (ticks % 2 ^ 16)
  | .TimeCode fps subFrames => [toByte (toInt8 (toInt8 fps * (-1))), subFrames]

/-- Go: `writer.writeHeader` (writer.go); the bytes of the header chunk. -/
def writer.writeHeader (w : writer) : List Nat :=
  let ch : smf.Chunk := { typ := smf.MThd, data := [] }
  let bf := smf.be16 w.header.Format ++ smf.be16 w.header.NumTracks ++ w.writeTimeFormat
  (ch.Write bf).Bytes

/-- Go: `writer.WriteHeader` (writer.go). The result is the pair `(n, err)`. -/
def writer.WriteHeader (w : writer) : (Nat × Option Err) × writer :=
  if w.headerWritten then ((0, w.error), w)
  else
    let bytes := w.writeHeader
    ((bytes.length, none), { w with output := w.output ++ bytes, headerWritten := true })

/-- Go: `writer.appendToChunk` (writer.go). -/
def writer.appendToChunk (t : writer) (deltaTime : Nat) (b : List Nat) : writer :=
  { t with track := t.track.Write (vlq.Encode deltaTime ++ b) }

/-- Go: `writer.addMessage` (writer.go). Every message of the model has non-empty raw bytes,
so that `raw[0]` exists. The length of `raw[1:]` is converted to `uint32` before it is
encoded. -/
def writer.addMessage (t : writer) (deltaTime : Nat) (msg : Message) : writer :=
  match msg.Raw with
  | [] => t
  | raw0 :: raw1 =>
    if raw0 = 0xF0 ∨ raw0 = 0xF7 then
      let t := match t.runningWriter with
        | some rw => { t with runningWriter := some rw.ResetStatus }
        | none => t
      let b := [raw0] ++ vlq.Encode (raw1.length % 2 ^ 32)
      let b := if raw1.length ≠ 0 then b ++ raw1 else b
      t.appendToChunk deltaTime b
    else
      match t.runningWriter with
      | some rw =>
        let r := rw.Write msg
        writer.appendToChunk { t with runningWriter := some r.2 } deltaTime r.1
      | none => t.appendToChunk deltaTime msg.Raw

/-- Go: `writer.writeTrackTo` (writer.go). The result is the pair `(n, err)`. -/
def writer.writeTrackTo (t : writer) : (Nat × Option Err) × writer :=
  let bytes := t.track.Bytes
  let t := { t with output := t.output ++ bytes }
  let t := if !t.noRunningStatus then
      { t with runningWriter := some runningstatus.NewSMFWriter } else t
  let t := { t with track := t.track.Clear, deltatime := 0,
                    tracksProcessed := (t.tracksProcessed + 1) % 2 ^ 16 }
  if t.header.NumTracks = t.tracksProcessed then ((bytes.length, some .ErrFinished), t)
  else ((bytes.length, none), t)

/-- Go: `writer.Write` (writer.go). The result is the pair `(nbytes, err)`. The deferred
`wr.deltatime = 0` is registered after the test of `wr.error`. -/
def writer.Write (wr : writer) (m : Message) : (Nat × Option Err) × writer :=
  let r : Nat × writer :=
    if !wr.headerWritten then
      let h := wr.WriteHeader
      (h.1.1, { h.2 with error := h.1.2 })
    else (0, wr)
  let nbytes := r.1
  let wr := r.2
  if wr.error ≠ none then ((nbytes, wr.error), wr)
  else if wr.header.NumTracks = wr.tracksProcessed then
    ((0, some .errFinished), { wr with error := some .errFinished, deltatime := 0 })
  else if m = .EndOfTrack then
    let wr := wr.addMessage wr.deltatime m
    let t := wr.writeTrackTo
    let wr := match t.1.2 with
      | some err => { t.2 with error := some err }
      | none => t.2
    ((nbytes + t.1.1, t.1.2), { wr with deltatime := 0 })
  else
    ((nbytes, none), { wr.addMessage wr.deltatime m with deltatime := 0 })

end smfwriter

namespace midiwriter

/-- Modelled from the spec: the live writer is not among the sources (only its tests are).
Its state: the bytes written so far, the mode flag `NoRunningStatus` and the slot of the
running-status tracker (spec §4.4 and §4.3). -/
structure writer where
  /-- The bytes written to the destination so far. -/
  output : List Nat
  /-- The option `NoRunningStatus`. -/
  noRunningStatus : Bool
  /-- The status byte written last, 0 for none. -/
  status : Nat
  deriving DecidableEq, Repr

/-- Modelled from the spec: the option `NoRunningStatus` of the live writer, the mode flag
that forces full emission (spec §4.4). -/
def NoRunningStatus (w : writer) : writer := { w with noRunningStatus := true }

/-- Modelled from the spec: `midiwriter.New(dest, opts...)` on an empty destination; running
status is on unless the option says otherwise. -/
def New (opts : List (writer → writer)) : writer :=
  opts.foldl (fun w opt => opt w) { output := [], noRunningStatus := false, status := 0 }

/-- Modelled from the spec: `Write` of the live writer. Spec §4.4: `write(msg)` emits the
bytes of the message through the running-status tracker; the mode flag forces full
emission. -/
def writer.Write (w : writer) (msg : Message) : writer :=
  if w.noRunningStatus then { w with output := w.output ++ msg.Raw }
  else
    let r := runningstatus.writeRaw w.status msg.Raw
    { w with output := w.output ++ r.1, status := r.2 }

end midiwriter

namespace smfreader

/-- What a caller sees of one call of `Read`: its outcome, and the values of `Delta()` and
`Track()` right after it. -/
structure Observed where
  /-- The outcome of `Read`. -/
  outcome : Outcome
  /-- The value of `Delta()` after the call. -/
  delta : Nat
  /-- The value of `Track()` after the call. -/
  track : Nat
  deriving DecidableEq, Repr

/-- A caller that calls `Read` `n` times in a row (each call with the given fuel) and notes
`Delta()` and `Track()` after every call, as the loops of the examples and of the handler
do; `none` when a call runs out of fuel. -/
def reader.readN (fuel : Nat) : Nat → reader → Option (List Observed)
  | 0, _ => some []
  | n + 1, p =>
    match p.Read fuel with
    | none => none
    | some (o, p) =>
      match reader.readN fuel n p with
      | none => none
      | some l => some ({ outcome := o, delta := p.Delta, track := p.Track } :: l)

end smfreader

namespace midihandler

/-- Go: `mkMIDI` of the example test (example_test.go), with the channel, key, velocity and
delta as parameters and the options of the writer: the bytes that end up in the buffer after
`Write(NoteOn)`, `SetDelta`, `Write(NoteOff)`, `Write(meta.EndOfTrack)`. -/
def mkMIDI (opts : List (smfwriter.writer → smfwriter.writer)) (ch k v d : Nat) : List Nat :=
  let wr := smfwriter.New opts
  let wr := (wr.Write (channel.NoteOn ch k v)).2
  let wr := wr.SetDelta d
  let wr := (wr.Write (channel.NoteOff ch k)).2
  let wr := (wr.Write .EndOfTrack).2
  wr.output

end midihandler

namespace handler

/-- Go: the struct `Pos` (handler.go), the position of an event inside an SMF. -/
structure Pos where
  /-- The track number, a `uint16`. -/
  Track : Nat
  /-- The delta time to the previous event in the same track, a `uint32`. -/
  Delta : Nat
  /-- The absolute time from the beginning of the track, a `uint64`. -/
  AbsTime : Nat
  deriving DecidableEq, Repr

/-- Go: the struct `Handler` (handler.go). Only the field `pos` is state; the callbacks are
fixed while reading, and what they are called with is recorded as a list of `Call`s. -/
structure Handler where
  /-- The position handed to the callbacks, `none` for a `nil` pointer. -/
  pos : Option Pos
  deriving DecidableEq, Repr

/-- One dispatch of `Handler.read`: the `*Pos` and the event that `Each` and the callback of
the kind of the event are called with. -/
structure Call where
  /-- The `*Pos` argument, with the values it points to at the time of the call. -/
  pos : Option Pos
  /-- The event, `none` for `nil`. -/
  evt : Option Message
  deriving DecidableEq, Repr

/-- Go: `Handler.read` (handler.go) on an SMF reader, for which the type assertion
`rd.(smf.Reader)` holds. One unit of `fuel` is one turn of the loop, `readFuel` is the fuel
of each `rd.Read()`. The result is the error that ends the loop (or the panic of the reader)
and the dispatches made, in order. -/
def Handler.read (readFuel : Nat) :
    Nat → Handler → smfreader.reader →
      Option ((Except smfreader.Panic Err × List Call) × Handler)
  | 0, _, _ => none
  | fuel + 1, h, rd =>
    match rd.Read readFuel with
    | none => none
    | some (.panicked site, _) => some ((.error site, []), h)
    | some (.ret _ (some err), _) => some ((.ok err, []), h)
    | some (.ret evt none, rd) =>
      let h : Handler :=
        match h.pos with
        | some pos =>
          let Delta := rd.Delta
          { pos := some { Delta := Delta, AbsTime := (pos.AbsTime + Delta) % 2 ^ 64,
                          Track := rd.Track } }
        | none => h
      match Handler.read readFuel fuel h rd with
      | none => none
      | some ((res, calls), h2) => some ((res, { pos := h.pos, evt := evt } :: calls), h2)

/-- Go: `Handler.ReadSMF` (handler.go). `smf.NewReader(src)` is the SMF reader on `src`. The
header callbacks take no `*Pos` and are not recorded. The result is the returned error
(`none` for `nil`), or the panic of the reader, with the dispatches made. -/
def Handler.ReadSMF (readFuel fuel : Nat) (h : Handler) (src : Input) :
    Option ((Except smfreader.Panic (Option Err) × List Call) × Handler) :=
  let h : Handler := { h with pos := some { Track := 0, Delta := 0, AbsTime := 0 } }
  let rd := smfreader.New src
  match rd.ReadHeader with
  | ((_, some err), _) => some ((.ok (some err), []), h)
  | ((_, none), rd) =>
    match h.read readFuel fuel rd with
    | none => none
    | some ((.error site, calls), h) => some ((.error site, calls), h)
    | some ((.ok err, calls), h) =>
      if err = .EOF then some ((.ok none, calls), h) else some ((.ok (some err), calls), h)

end handler

namespace smf

/-- The bytes of a sequence of complete chunks, one after the other. -/
def chunksBytes : List Chunk → List Nat
  | [] => []
  | c :: cs => c.Bytes ++ chunksBytes cs

end smf

end midi

namespace midi

namespace smfreader

/-- An example file for the reader: a header that declares one track, the track (a lone
`EndOfTrack`), a chunk of the unknown type "XXXX" with two body bytes, and a second MTrk
chunk that the header does not account for. -/
def exampleExtraTrack : List Nat :=
  [0x4D, 0x54, 0x68, 0x64, 0, 0, 0, 6, 0, 0, 0, 1, 0, 96,
   0x4D, 0x54, 0x72, 0x6B, 0, 0, 0, 4, 0x00, 0xFF, 0x2F, 0x00,
   0x58, 0x58, 0x58, 0x58, 0, 0, 0, 2, 1, 2,
   0x4D, 0x54, 0x72, 0x6B, 0, 0, 0, 8, 0x00, 0x90, 60, 64, 0x00, 0xFF, 0x2F, 0x00]

/-- The reader on `exampleExtraTrack` right after its first `Read` has returned the
`EndOfTrack` of the declared track. -/
def exampleAfterLastTrack : reader :=
  { input := [0x58, 0x58, 0x58, 0x58, 0, 0, 0, 2, 1, 2,
              0x4D, 0x54, 0x72, 0x6B, 0, 0, 0, 8, 0x00, 0x90, 60, 64, 0x00, 0xFF, 0x2F, 0x00],
    state := .stateExpectChunk, runningStatus := { status := 0 }, processedTracks := 1,
    absTrackTime := 0, deltatime := 0,
    mthd := { format := 0, numTracks := 1, timeFormat := .MetricTicks 96 },
    failOnUnknownChunks := false, headerIsRead := true, headerError := none,
    readNoteOffPedantic := false }

/-- An example file that ends after its only track, a lone `EndOfTrack`. -/
def exampleOneTrack : List Nat :=
  [0x4D, 0x54, 0x68, 0x64, 0, 0, 0, 6, 0, 0, 0, 1, 0, 96,
   0x4D, 0x54, 0x72, 0x6B, 0, 0, 0, 4, 0x00, 0xFF, 0x2F, 0x00]

/-- The reader on `exampleOneTrack` right after its first `Read` has returned the
`EndOfTrack`: a chunk is expected and no byte is left. -/
def exampleAtEnd : reader :=
  { input := [], state := .stateExpectChunk, runningStatus := { status := 0 },
    processedTracks := 1, absTrackTime := 0, deltatime := 0,
    mthd := { format := 0, numTracks := 1, timeFormat := .MetricTicks 96 },
    failOnUnknownChunks := false, headerIsRead := true, headerError := none,
    readNoteOffPedantic := false }

end smfreader

end midi

namespace midi

namespace smfreader

/-- An input whose first chunk is no header chunk: the 8 bytes of an empty MTrk chunk. -/
def exampleNoHeader : List Nat := [0x4D, 0x54, 0x72, 0x6B, 0, 0, 0, 0]

/-- A one-track file whose track starts with a data byte: delta 0, then `40 40`, where no
status byte has been seen yet. -/
def exampleDataByteFirst : List Nat :=
  [0x4D, 0x54, 0x68, 0x64, 0, 0, 0, 6, 0, 0, 0, 1, 0, 96,
   0x4D, 0x54, 0x72, 0x6B, 0, 0, 0, 3, 0x00, 0x40, 0x40]

/-- A one-track file that uses running status: `00 90 3C 40` (note-on, channel 0, key 60,
velocity 64), then `0A` followed by the data bytes `key` and `50` under the same status
(note-on of that key with velocity 80 at delta 10), then `00 FF 2F 00`. -/
def exampleRunningStatus (key : Nat) : List Nat :=
  [0x4D, 0x54, 0x68, 0x64, 0, 0, 0, 6, 0, 0, 0, 1, 0, 96,
   0x4D, 0x54, 0x72, 0x6B, 0, 0, 0, 11,
   0x00, 0x90, 0x3C, 0x40, 0x0A, key, 0x50, 0x00, 0xFF, 0x2F, 0x00]

/-- A file of format 1 with two tracks, every event with its own status byte. Track 0 is
`d0 90 3C 40` (note-on, channel 0) and `e0 FF 2F 00`; track 1 is `d1 91 3E 40` (note-on,
channel 1) and `e1 FF 2F 00`; `d0`, `e0`, `d1`, `e1` are the one-byte deltas. -/
def exampleTwoTracks (d0 e0 d1 e1 : Nat) : List Nat :=
  [0x4D, 0x54, 0x68, 0x64, 0, 0, 0, 6, 0, 1, 0, 2, 0, 96,
   0x4D, 0x54, 0x72, 0x6B, 0, 0, 0, 8, d0, 0x90, 0x3C, 0x40, e0, 0xFF, 0x2F, 0x00,
   0x4D, 0x54, 0x72, 0x6B, 0, 0, 0, 8, d1, 0x91, 0x3E, 0x40, e1, 0xFF, 0x2F, 0x00]

end smfreader

end midi

namespace midi

namespace smfwriter

/-- An example writer in no-running-status mode: `New` with the option `NoRunningStatus`,
then `Write(NoteOn(2,65,90))` and `SetDelta(2)`. -/
def exampleNoRunningStatus : writer :=
  ((New [NoRunningStatus]).Write (channel.NoteOn 2 65 90)).2.SetDelta 2

/-- An example writer with running status (the default): `New` without options, then
`Write(NoteOn(2,65,90))` and `SetDelta(2)`. -/
def exampleRunningStatus : writer :=
  ((New []).Write (channel.NoteOn 2 65 90)).2.SetDelta 2

end smfwriter

end midi

namespace midi

namespace smfwriter

/-- A call of one of the methods of the SMF writer that change it. -/
inductive Call
  /-- The call `WriteHeader()`. -/
  | WriteHeader
  /-- The call `Write(m)`. -/
  | Write (m : Message)
  /-- The call `SetDelta(deltatime)`. -/
  | SetDelta (deltatime : Nat)
  deriving DecidableEq, Repr

/-- The writer after one call; the returned values are dropped. -/
def writer.call (wr : writer) : Call → writer
  | .WriteHeader => wr.WriteHeader.2
  | .Write m => (wr.Write m).2
  | .SetDelta deltatime => wr.SetDelta deltatime

/-- The writer after a sequence of calls, made in order. -/
def writer.calls (wr : writer) : List Call → writer
  | [] => wr
  | c :: cs => writer.calls (wr.call c) cs

/-- The number of calls `Write(meta.EndOfTrack)` in a sequence of calls. -/
def countEndOfTrack (cs : List Call) : Nat := cs.count (.Write .EndOfTrack)

end smfwriter

end midi

namespace midi

namespace midilib

/-- Modelled from the spec: `midilib.ParsePitchWheelVals` is not among the sources. Of its
two arguments the first holds the less significant 7 bits and the second the more
significant 7 bits (spec §4.2: 14-bit values are split into a 7-bit `lsb` and a 7-bit
`msb`); the absolute value is `((b2 & 0x7F) << 7) | (b1 & 0x7F)`, the relative value is the
absolute one without the bias of 8192 of a pitch bend. -/
def ParsePitchWheelVals (b1 b2 : Nat) : Int × Nat :=
  let val : Nat := ((b2 &&& 0x7F) <<< 7) ||| (b1 &&& 0x7F)
  ((val : Int) - 8192, val)

end midilib

namespace syscommon

/-- Go: `SongPositionPointer.Raw` (songpositionpointer.go), on the `uint16` that the message
is: `b[1]` holds the low 7 bits, `b[0]` the next 7 bits, and the bytes returned are
`0xF2, b[0], b[1]`. -/
def SongPositionPointer.Raw (m : Nat) : List Nat :=
  let b1 := (m &&& 0x7F) % 256
  let b0 := ((m >>> 7) &&& 0x7F) % 256
  [0xF2, b0, b1]

/-- Go: `SongPositionPointer.readFrom` (songpositionpointer.go). The message returned is the
`uint16` value `SongPositionPointer(abs)`; `midilib.ReadNBytes` is the `lib.ReadNBytes` of
the other package layout. -/
def SongPositionPointer.readFrom (rd : Input) : Except Err Nat × Input :=
  match lib.ReadNBytes 2 rd with
  | (.error e, rd) => (.error e, rd)
  | (.ok bt, rd) =>
    let abs := (midilib.ParsePitchWheelVals (bt.getD 1 0) (bt.getD 0 0)).2
    (.ok abs, rd)

end syscommon

namespace meta

/-- The mode byte that `KeySignature.Raw` writes: 0 for major, 1 for minor. -/
def modeByte (IsMajor : Bool) : Nat := if IsMajor then majorMode else minorMode

/-- The signed number of sharps or flats that `KeySignature.Raw` writes: `int8(m.Num)`,
negated in `int8` when `m.IsFlat`. -/
def sharpsOrFlatsOf (Num : Nat) (IsFlat : Bool) : Int :=
  let sf : Int := toInt8 Num
  if IsFlat then toInt8 (sf * (-1)) else sf

/-- An example input for the meta reader of type `byteEndOfTrack`: two bytes `00`, each of
which is the complete rest of an `EndOfTrack` event (`FF 2F` has been read by the caller). -/
def exampleTwoEnds : Input := [0x00, 0x00]

end meta

end midi

namespace midi

namespace smf

/-- Modelled from the spec: the interface `smf.Reader` in the shape that smf1.go calls it
(its declaration is not among the sources): `ReadHeader()` returns the error only,
`Header()` gives the header that was read, `Read()` returns the next message or an error,
`Track()` and `Delta()` give the position of the message read last. A reader is a state of
type `σ` with these methods; `Read` yields `none` when the call does not return. -/
structure Reader (σ : Type) where
  /-- The method `ReadHeader`. -/
  ReadHeader : σ → Option Err × σ
  /-- The method `Header`. -/
  Header : σ → Header
  /-- The method `Read`. -/
  Read : σ → Option (smfreader.Outcome × σ)
  /-- The method `Track`. -/
  Track : σ → Nat
  /-- The method `Delta`. -/
  Delta : σ → Nat

end smf

namespace smfreader

/-- The SMF reader of reader.go as an `smf.Reader`: `ReadHeader` drops the header that
reader.go returns with the error, `Header` gives the parsed header, and `Read` runs the loop
of `reader.Read` with `readFuel` turns at most. -/
def asReader (readFuel : Nat) : smf.Reader reader where
  ReadHeader := fun p => (p.ReadHeader.1.2, p.ReadHeader.2)
  Header := fun p =>
    { Format := p.mthd.format, NumTracks := p.mthd.numTracks, TimeFormat := p.mthd.timeFormat }
  Read := fun p => p.Read readFuel
  Track := fun p => p.Track
  Delta := fun p => p.Delta

end smfreader

namespace smftrack

/-- Modelled from the spec: an entry of a `Track` (the type is not among the sources): a
message at its absolute position in ticks; `none` is a `nil` message. -/
structure Event where
  /-- The absolute position, a `uint64`. -/
  absPos : Nat
  /-- The message. -/
  msg : Option Message
  deriving DecidableEq, Repr

/-- Modelled from the spec: the struct `Track` of the package `smftrack` (its declaration is
not among the sources): the field `Number` that `ReadFrom` sets, and the messages added to
the track. -/
structure Track where
  /-- The number of the track, a `uint16`. -/
  Number : Nat
  /-- The messages at their absolute positions, in the order they were added. -/
  events : List Event
  deriving DecidableEq, Repr

/-- Modelled from the spec: `Track.addMessage` is not among the sources; it adds the message
at the absolute position `absPos` to the track. -/
def Track.addMessage (t : Track) (absPos : Nat) (msg : Option Message) : Track :=
  { t with events := t.events ++ [{ absPos := absPos, msg := msg }] }

/-- What a call of `SMF1.ReadFrom` yields: the returned pair `(tracks, err)`, where the empty
list is Go's `nil` slice, or the panic of the reader. -/
inductive Result
  /-- The call returned `(tracks, err)`. -/
  | ret (tracks : List Track) (err : Option Err)
  /-- The call panicked. -/
  | panicked (site : smfreader.Panic)
  deriving DecidableEq, Repr

/-- Go: the `for` loop of `SMF1.ReadFrom` (smf1.go). One unit of fuel is one turn; `none`
means that the loop is still running when the fuel is used up, or that a `Read` did not
return. `matchNos` is the key set of the map `match`, `found` the one of the map `found`.
The loop has no `break`: it is left only by `return nil, err`. -/
def SMF1.ReadFrom.loop {σ : Type} (rd : smf.Reader σ) (matchAll : Bool)
    (matchNos : List Nat) :
    Nat → σ → List Track → List Nat → Nat → Track → Option Result
  | 0, _, _, _, _, _ => none
  | fuel + 1, s, tracks, found, absPos, currentTr =>
    match rd.Read s with
    | none => none
    | some (.panicked site, _) => some (.panicked site)
    | some (.ret _ (some err), _) => some (.ret [] (some err))
    | some (.ret msg none, s) =>
      if matchAll || matchNos.contains (rd.Track s % 2 ^ 16) then
        let currentTr := { currentTr with Number := rd.Track s % 2 ^ 16 }
        let found := (rd.Track s % 2 ^ 16) :: found
        if msg = some .EndOfTrack then
          SMF1.ReadFrom.loop rd matchAll matchNos fuel s (tracks ++ [currentTr]) found 0
            { Number := 0, events := [] }
        else
          let absPos := (absPos + rd.Delta s) % 2 ^ 64
          SMF1.ReadFrom.loop rd matchAll matchNos fuel s tracks found absPos
            (currentTr.addMessage absPos msg)
      else SMF1.ReadFrom.loop rd matchAll matchNos fuel s tracks found absPos currentTr

/-- Go: `SMF1.ReadFrom` (smf1.go). The statements behind the `for` loop (the test for track
numbers that were not found, and the final `return`) cannot be reached, since the loop has
no `break`; they have no counterpart here. -/
def SMF1.ReadFrom {σ : Type} (rd : smf.Reader σ) (fuel : Nat) (s : σ)
    (tracknos : List Nat) : Option Result :=
  match rd.ReadHeader s with
  | (some err, _) => some (.ret [] (some err))
  | (none, s) =>
    if (rd.Header s).Format = smf.SMF0 then some (.ret [] (some .cantGetTracksFromSMF0))
    else
      let matchAll : Bool := tracknos.length == 0
      SMF1.ReadFrom.loop rd matchAll tracknos fuel s [] [] 0 { Number := 0, events := [] }

end smftrack

namespace handler

/-- Modelled from the spec: the interface `midi.Reader` (its declaration is not among the
sources) for a reader that is no `smf.Reader`, as the live reader is that `ReadLive` makes
with `midi.NewReader(src, realtimeStream)`: a state of type `σ` with the method `Read`,
which returns a message or an error. Realtime messages go to the realtime stream and are
not returned by `Read`. -/
structure LiveReader (σ : Type) where
  /-- The method `Read`. -/
  Read : σ → (Option Message × Option Err) × σ

/-- A stand-in for the live reader, whose code is not among the sources: its state is the
list of the messages that the source still holds, `Read` returns them one by one and then
`io.EOF`. -/
def listReader : LiveReader (List Message) where
  Read := fun s =>
    match s with
    | [] => ((none, some .EOF), [])
    | m :: rest => ((some m, none), rest)

/-- Go: `Handler.read` (handler.go) on a reader for which the type assertion
`rd.(smf.Reader)` fails, so that the position is not updated. One unit of `fuel` is one turn
of the loop. The result is the error that ends the loop and the dispatches made, in order;
`h.pos` is what `Each` and the callbacks are called with. -/
def Handler.readLive {σ : Type} (rd : LiveReader σ) :
    Nat → Handler → σ → Option ((Err × List Call) × Handler)
  | 0, _, _ => none
  | fuel + 1, h, s =>
    match rd.Read s with
    | ((_, some err), _) => some ((err, []), h)
    | ((evt, none), s) =>
      match Handler.readLive rd fuel h s with
      | none => none
      | some ((err, calls), h2) => some ((err, { pos := h.pos, evt := evt } :: calls), h2)

/-- Go: `Handler.ReadLive` (handler.go). The goroutine that serves the realtime stream calls
callbacks without a `*Pos` only and is left out. The result is the returned error (`none`
for `nil`) with the dispatches made. -/
def Handler.ReadLive {σ : Type} (rd : LiveReader σ) (fuel : Nat) (h : Handler) (src : σ) :
    Option ((Option Err × List Call) × Handler) :=
  match h.readLive rd fuel src with
  | none => none
  | some ((err, calls), h) =>
    if err = .EOF then some ((none, calls), h) else some ((some err, calls), h)

/-- Go: `handler.New` (handler.go): `&Handler{logger: logfunc(printf)}`; the field `pos` is
`nil`. -/
def New : Handler := { pos := none }

end handler

namespace smf

end smf

end midi

namespace midi

namespace handler

/-- The handler after `New().ReadSMF(src)` on the one-track file `exampleOneTrack`: `ReadSMF`
has set `pos`, and the `EndOfTrack` of the track has left it at track 1, delta 0, absolute
time 0. -/
def exampleAfterReadSMF : Handler := { pos := some { Track := 1, Delta := 0, AbsTime := 0 } }

end handler

end midi

namespace midi

namespace meta

/-- Go: the constant `degreeC` of keysignature.go. -/
def degreeC : Nat := 0
/-- Go: the constant `degreeCs`. -/
def degreeCs : Nat := 1
/-- Go: the constant `degreeD`. -/
def degreeD : Nat := 2
/-- Go: the constant `degreeDs`. -/
def degreeDs : Nat := 3
/-- Go: the constant `degreeE`. -/
def degreeE : Nat := 4
/-- Go: the constant `degreeF`. -/
def degreeF : Nat := 5
/-- Go: the constant `degreeFs`. -/
def degreeFs : Nat := 6
/-- Go: the constant `degreeG`. -/
def degreeG : Nat := 7
/-- Go: the constant `degreeGs`. -/
def degreeGs : Nat := 8
/-- Go: the constant `degreeA`. -/
def degreeA : Nat := 9
/-- Go: the constant `degreeAs`. -/
def degreeAs : Nat := 10
/-- Go: the constant `degreeB`. -/
def degreeB : Nat := 11

/-- Go: `KeySignature.Note` (keysignature.go), on the fields `Key` and `IsFlat` that it
reads; the cases are in the order of the `switch`, and `none` is the `panic("unreachable")`
of the `default` branch. -/
def KeySignature.Note (Key : Nat) (IsFlat : Bool) : Option String :=
  if Key = degreeC then some "C"
  else if Key = degreeD then some "D"
  else if Key = degreeE then some "E"
  else if Key = degreeF then some "F"
  else if Key = degreeG then some "G"
  else if Key = degreeA then some "A"
  else if Key = degreeB then some "B"
  else if Key = degreeCs then some (if IsFlat then "D♭" else "C♯")
  else if Key = degreeDs then some (if IsFlat then "E♭" else "D♯")
  else if Key = degreeFs then some (if IsFlat then "G♭" else "F♯")
  else if Key = degreeGs then some (if IsFlat then "A♭" else "G♯")
  else if Key = degreeAs then some (if IsFlat then "B♭" else "A♯")
  else none

end meta

namespace smfreader

/-- A file whose header declares one track and whose second chunk has the unknown type "XXXX" and declares 5 body
bytes, of which only 2 are there: the input ends inside the chunk that is skipped. -/
def exampleCutUnknownChunk : List Nat :=
  [0x4D, 0x54, 0x68, 0x64, 0, 0, 0, 6, 0, 0, 0, 1, 0, 96,
   0x58, 0x58, 0x58, 0x58, 0, 0, 0, 5, 1, 2]

/-- The reader on a one-track file inside its track, where the rest of the input is the
delta `00` and the canary `FF`: the input ends right behind the canary of a meta event. -/
def exampleCutMeta : reader :=
  { input := [0x00, 0xFF], state := .stateExpectTrackEvent, runningStatus := { status := 0 },
    processedTracks := 0, absTrackTime := 0, deltatime := 0,
    mthd := { format := 0, numTracks := 1, timeFormat := .MetricTicks 96 },
    failOnUnknownChunks := false, headerIsRead := true, headerError := none,
    readNoteOffPedantic := false }

/-- Modelled from the spec: the reader of the version that smf1.go is written against signals
the end of the tracks with `smfreader.ErrFinished`, which reader.go of the sources does not
declare: there the end is `io.EOF`. This is the reader of reader.go with the one error in
the place of the other. -/
def asReaderFinished (readFuel : Nat) : smf.Reader reader where
  ReadHeader := fun p => (p.ReadHeader.1.2, p.ReadHeader.2)
  Header := fun p =>
    { Format := p.mthd.format, NumTracks := p.mthd.numTracks, TimeFormat := p.mthd.timeFormat }
  Read := fun p =>
    match p.Read readFuel with
    | some (.ret m (some .EOF), p) => some (.ret m (some .readerErrFinished), p)
    | r => r
  Track := fun p => p.Track
  Delta := fun p => p.Delta

end smfreader

namespace smftrack

/-- What a call of `SMF1.Remove` yields: the returned error (`none` for `nil`), or a panic:
that of the reader, or the one of `msg.Raw()` in the writer when `rd.Read()` returned a `nil`
message without an error. -/
inductive RemoveResult
  /-- The call returned `err`. -/
  | ret (err : Option Err)
  /-- The reader panicked. -/
  | panicked (site : smfreader.Panic)
  /-- The writer was handed a `nil` message. -/
  | nilMessage
  deriving DecidableEq, Repr

/-- Go: the `for` loop of `SMF1.Remove` (smf1.go) with the statements that follow it. One
unit of fuel is one turn; `none` means that the loop is still running when the fuel is used
up, or that a `Read` did not return. `shouldSkip` is the key set of the map `shouldSkip`,
`found` the one of the map `found`. When the loop is left by `break`, the track numbers that
were not found are collected and `err` is set, and then the function ends with
`return nil`. The writer comes back with the result. -/
def SMF1.Remove.loop {σ : Type} (rd : smf.Reader σ) (shouldSkip : List Nat) :
    Nat → σ → smfwriter.writer → List Nat → Option (RemoveResult × smfwriter.writer)
  | 0, _, _, _ => none
  | fuel + 1, s, w, found =>
    match rd.Read s with
    | none => none
    | some (.panicked site, _) => some (.panicked site, w)
    | some (.ret _ (some err), s) =>
      if err = .readerErrFinished then
        let notFound := shouldSkip.eraseDups.filter fun tn => !found.contains tn
        let _err : Option Err :=
          if notFound.length > 0 then
            some (.couldNotFindTracks notFound (rd.Header s).NumTracks)
          else none
        some (.ret none, w)
      else some (.ret (some err), w)
    | some (.ret msg none, s) =>
      if shouldSkip.contains (rd.Track s % 2 ^ 16) then
        SMF1.Remove.loop rd shouldSkip fuel s w ((rd.Track s % 2 ^ 16) :: found)
      else
        let w := w.SetDelta (rd.Delta s)
        match msg with
        | none => some (.nilMessage, w)
        | some m =>
          match w.Write m with
          | ((_, some err), w) => some (.ret (some err), w)
          | ((_, none), w) => SMF1.Remove.loop rd shouldSkip fuel s w found

/-- Go: `SMF1.Remove` (smf1.go). The destination `wr` is the output of the writer that comes
back with the result (`none` for it when the function returns before the writer is made).
The number of tracks handed to the writer is the `uint16` difference
`rd.Header().NumTracks - uint16(len(tracknos))`. -/
def SMF1.Remove {σ : Type} (rd : smf.Reader σ) (fuel : Nat) (s : σ) (tracknos : List Nat) :
    Option (RemoveResult × Option smfwriter.writer) :=
  match rd.ReadHeader s with
  | (some err, _) => some (.ret (some err), none)
  | (none, s) =>
    if (rd.Header s).Format = smf.SMF0 then some (.ret (some .cantRemoveFromSMF0), none)
    else
      let w := smfwriter.New
        [smfwriter.Format (rd.Header s).Format,
         smfwriter.TimeFormat (rd.Header s).TimeFormat,
         smfwriter.NumTracks
           (((rd.Header s).NumTracks + 2 ^ 16 - tracknos.length % 2 ^ 16) % 2 ^ 16)]
      match w.WriteHeader with
      | ((_, some err), w) => some (.ret (some err), some w)
      | ((_, none), w) =>
        match SMF1.Remove.loop rd tracknos fuel s w [] with
        | none => none
        | some (r, w) => some (r, some w)

end smftrack

end midi

/-! ## Theorems

Helper lemmas first, then the theorems of the claims in their order. -/

namespace midi

/-! ### Helper lemmas -/

/-- Every message has at least one raw byte, so that `raw[0]` in `addMessage` exists. -/
theorem Message.Raw_ne_nil (m : Message) : m.Raw ≠ [] := by
  cases m <;> simp [Message.Raw, channel.channelMessage2, channel.channelMessage1,
    meta.metaMessageBytes]

/-- Once `Read` has produced its result, more fuel does not change it. -/
theorem smfreader.reader.Read_fuel_mono (fuel k : Nat) (p : smfreader.reader)
    (r : smfreader.Outcome × smfreader.reader) (h : p.Read fuel = some r) :
    p.Read (fuel + k) = some r := by
  induction fuel generalizing p with
  | zero => simp [smfreader.reader.Read] at h
  | succ n ih =>
    have hk : n + 1 + k = (n + k) + 1 := by omega
    rw [hk]
    unfold smfreader.reader.Read at h ⊢
    cases hs : p.state with
    | stateExpectHeader =>
      simp only [hs] at h ⊢
      rcases hm : p.readMThd with ⟨_ | e, q⟩
      · simp only [hm] at h ⊢
        exact ih q h
      · simp only [hm] at h ⊢
        exact h
    | stateExpectChunk =>
      simp only [hs] at h ⊢
      rcases hm : p.readChunk with ⟨_ | e, q⟩
      · simp only [hm] at h ⊢
        exact ih q h
      · simp only [hm] at h ⊢
        exact h
    | stateExpectTrackEvent =>
      simp only [hs] at h ⊢
      exact h
    | stateDone =>
      simp only [hs] at h ⊢
      exact h

/-- The status byte of a note-on on a channel `c ≤ 15` is a channel status. -/
theorem channel.noteOn_status_bounds (c : Nat) (hc : c ≤ 15) :
    (9 <<< 4) ||| c = 0x90 ||| c ∧ 0x80 ≤ 0x90 ||| c ∧ 0x90 ||| c ≤ 0xEF := by
  interval_cases c <;> decide

/-- Reading as many bytes as a prefix holds returns the prefix and leaves the rest. -/
theorem lib.ReadNBytes_append (l rest : List Nat) :
    lib.ReadNBytes l.length (l ++ rest) = (.ok l, rest) := by
  simp [lib.ReadNBytes]

/-- A complete chunk header is read as its type and its declared length. -/
theorem smfreader.chunkHeader.readFrom_append (typ rest : List Nat) (n : Nat)
    (htyp : typ.length = 4) (hn : n < 2 ^ 32) :
    smfreader.chunkHeader.readFrom (typ ++ smf.be32 n ++ rest)
      = (.ok { typ := typ, length := n }, rest) := by
  have h1 : lib.ReadNBytes 4 (typ ++ (smf.be32 n ++ rest)) = (.ok typ, smf.be32 n ++ rest) := by
    rw [← htyp]; exact lib.ReadNBytes_append typ _
  have h2 : lib.ReadNBytes 4 (smf.be32 n ++ rest) = (.ok (smf.be32 n), rest) :=
    lib.ReadNBytes_append (smf.be32 n) rest
  simp only [smfreader.chunkHeader.readFrom, List.append_assoc, h1, h2]
  simp only [smf.be32, List.getD_cons_zero, List.getD_cons_succ, Prod.mk.injEq,
    Except.ok.injEq, smfreader.chunkHeader.mk.injEq, true_and, and_true]
  omega

/-- On an exhausted source the chunk header read fails with `ErrUnexpectedEOF`. -/
theorem smfreader.chunkHeader.readFrom_nil :
    smfreader.chunkHeader.readFrom [] = (.error .ErrUnexpectedEOF, []) := rfl

/-- A reader in state `stateDone` answers `(nil, io.EOF)` and stays as it is. -/
theorem smfreader.reader.Read_done (q : smfreader.reader) (fuel : Nat)
    (hq : q.state = .stateDone) :
    q.Read (fuel + 1) = some (.ret none (some .EOF), q) := by
  simp [smfreader.reader.Read, hq]

/-- Skipping the body of a complete chunk leaves what follows the chunk. -/
theorem smfreader.copyNDiscard_append (body rest : List Nat) :
    smfreader.copyNDiscard (body ++ rest) body.length = (none, rest) := by
  simp [smfreader.copyNDiscard]

/-- `readChunk` on the header of a track chunk: the reader expects track events next. -/
theorem smfreader.reader.readChunk_MTrk (p : smfreader.reader) (len : Nat) (rest : List Nat)
    (hlen : len < 2 ^ 32) (hin : p.input = smf.MTrk ++ smf.be32 len ++ rest) :
    p.readChunk = (none, { p with input := rest, state := .stateExpectTrackEvent }) := by
  have h := smfreader.chunkHeader.readFrom_append smf.MTrk rest len rfl hlen
  unfold smfreader.reader.readChunk
  rw [hin, h]
  simp

/-- `readChunk` on a complete chunk of another type, when unknown chunks are skipped: the
body is consumed and the reader expects a chunk again. -/
theorem smfreader.reader.readChunk_skip (p : smfreader.reader) (c : smf.Chunk)
    (rest : List Nat) (htyp : c.typ.length = 4) (hne : c.typ ≠ smf.MTrk)
    (hlen : c.data.length < 2 ^ 32) (hfail : p.failOnUnknownChunks = false)
    (hin : p.input = c.Bytes ++ rest) :
    p.readChunk = (none, { p with input := rest, state := .stateExpectChunk }) := by
  have h := smfreader.chunkHeader.readFrom_append c.typ (c.data ++ rest) c.data.length htyp hlen
  have hin2 : p.input = c.typ ++ smf.be32 c.data.length ++ (c.data ++ rest) := by
    simp [hin, smf.Chunk.Bytes]
  unfold smfreader.reader.readChunk
  rw [hin2, h]
  simp [hne, hfail, smfreader.copyNDiscard_append]

/-- A data byte as canary while no status is stored: `_readEvent` panics, whatever the state
of the reader. -/
theorem smfreader.reader._readEvent_data_byte_no_status (p : smfreader.reader) (b : Nat)
    (hb : b < 0x80) (hs : p.runningStatus.status = 0) :
    p._readEvent b = (.panicked (.invalidStatus b), p) := by
  have h1 : ¬ (0x80 ≤ b ∧ b ≤ 0xEF) := by omega
  have h2 : ¬ (0xF0 ≤ b ∧ b ≤ 0xF7) := by omega
  have h3 : ¬ (0xF8 ≤ b) := by omega
  have h4 : ¬ (b = 0xF0 ∨ b = 0xF7) := by omega
  have h5 : ¬ (b = 0xFF) := by omega
  simp only [smfreader.reader._readEvent, runningstatus.Reader.Read, h1, h2, h3, h4, h5, hs,
    if_false, if_true]

/-- A data byte as canary under a stored status: the outcome of `_readEvent` is that of the
channel reader on the input after the canary; the canary itself does not occur in it. -/
theorem smfreader.reader._readEvent_data_byte_status (p : smfreader.reader) (b : Nat)
    (hb : b < 0x80) (hs : p.runningStatus.status ≠ 0) :
    p._readEvent b =
      match p.readChannelMsg p.runningStatus.status with
      | (.error e, q) => (.ret none (some e), q)
      | (.ok m, q) => q.finishEvent m := by
  have h1 : ¬ (0x80 ≤ b ∧ b ≤ 0xEF) := by omega
  have h2 : ¬ (0xF0 ≤ b ∧ b ≤ 0xF7) := by omega
  have h3 : ¬ (0xF8 ≤ b) := by omega
  simp only [smfreader.reader._readEvent, runningstatus.Reader.Read, h1, h2, h3, hs,
    if_false, if_true]

/-- When the tail of `_readEvent` returns `meta.EndOfTrack`, it has reset the delta, advanced
the track counter and set the state to `stateExpectChunk`. -/
theorem smfreader.reader.finishEvent_EndOfTrack (p q : smfreader.reader) (m : Message)
    (h : p.finishEvent m = (.ret (some .EndOfTrack) none, q)) :
    q.deltatime = 0 ∧ q.processedTracks = (p.processedTracks + 1) % 2 ^ 16 ∧
      q.state = .stateExpectChunk := by
  unfold smfreader.reader.finishEvent at h
  split at h
  · simp only [Prod.mk.injEq] at h
    obtain ⟨_, rfl⟩ := h
    exact ⟨rfl, rfl, rfl⟩
  · rename_i hne
    simp only [Prod.mk.injEq, smfreader.Outcome.ret.injEq, Option.some.injEq, and_true,
      true_and] at h
    exact absurd h.1 hne

/-- When `_readEvent` returns `meta.EndOfTrack`, it has reset the delta, advanced the track
counter and set the state to `stateExpectChunk`. -/
theorem smfreader.reader._readEvent_EndOfTrack (p q : smfreader.reader) (canary : Nat)
    (h : p._readEvent canary = (.ret (some .EndOfTrack) none, q)) :
    q.deltatime = 0 ∧ q.processedTracks = (p.processedTracks + 1) % 2 ^ 16 ∧
      q.state = .stateExpectChunk := by
  unfold smfreader.reader._readEvent at h
  simp only at h
  split at h
  · split at h
    · split at h
      · simp at h
      · rename_i msg rest heq
        simp only [Prod.mk.injEq, smfreader.Outcome.ret.injEq, Option.some.injEq, and_true,
          true_and] at h
        obtain ⟨rfl, _⟩ := h
        unfold sysex.ReadSMF at heq
        split at heq
        · simp at heq
        · split at heq <;> simp at heq
    · split at h
      · split at h
        · simp at h
        · split at h
          · simp at h
          · simp at h
          · have := smfreader.reader.finishEvent_EndOfTrack _ q _ h
            simpa using this
      · simp at h
  · unfold smfreader.reader.readChannelMsg at h
    split at h
    · simp at h
    · rename_i m p2 heq
      simp only [Prod.mk.injEq] at heq
      obtain ⟨_, rfl⟩ := heq
      have := smfreader.reader.finishEvent_EndOfTrack _ q _ h
      simpa using this

/-- When `readEvent` returns `meta.EndOfTrack`, the delta it leaves is 0, the track counter
is advanced and the state is `stateExpectChunk`. -/
theorem smfreader.reader.readEvent_EndOfTrack (p q : smfreader.reader)
    (h : p.readEvent = (.ret (some .EndOfTrack) none, q)) :
    q.deltatime = 0 ∧ q.processedTracks = (p.processedTracks + 1) % 2 ^ 16 ∧
      q.state = .stateExpectChunk := by
  unfold smfreader.reader.readEvent at h
  split at h
  · simp at h
  · split at h
    · simp at h
    · simp only at h
      split at h
      · simp at h
      · have := smfreader.reader._readEvent_EndOfTrack _ q _ h
        simpa using this

/-- `readMThd` does not touch the track counter. -/
theorem smfreader.reader.readMThd_processedTracks (p : smfreader.reader) :
    p.readMThd.2.processedTracks = p.processedTracks := by
  unfold smfreader.reader.readMThd
  split
  · rfl
  · split
    · rfl
    · simp only
      split
      · rfl
      · split <;> rfl

/-- `readChunk` does not touch the track counter. -/
theorem smfreader.reader.readChunk_processedTracks (p : smfreader.reader) :
    p.readChunk.2.processedTracks = p.processedTracks := by
  unfold smfreader.reader.readChunk
  split
  · simp only
    split <;> rfl
  · simp only
    split
    · rfl
    · split
      · rfl
      · split <;> rfl

/-- What `Read` leaves behind whenever it returns `meta.EndOfTrack`, from any state and with
any fuel: `Delta()` is 0, `Track()` is one more than before the call (as a `uint16`), and the
reader expects a chunk. -/
theorem smfreader.reader.Read_EndOfTrack (fuel : Nat) (p q : smfreader.reader)
    (h : p.Read fuel = some (.ret (some .EndOfTrack) none, q)) :
    q.Delta = 0 ∧ q.Track = (p.Track + 1) % 2 ^ 16 ∧ q.state = .stateExpectChunk := by
  induction fuel generalizing p with
  | zero => simp [smfreader.reader.Read] at h
  | succ n ih =>
    unfold smfreader.reader.Read at h
    cases hs : p.state with
    | stateExpectHeader =>
      simp only [hs] at h
      rcases hm : p.readMThd with ⟨_ | e, p2⟩
      · simp only [hm] at h
        have h2 := ih p2 h
        have h3 := smfreader.reader.readMThd_processedTracks p
        rw [hm] at h3
        simp only [smfreader.reader.Track] at h2 ⊢
        rw [← h3]
        exact h2
      · simp [hm] at h
    | stateExpectChunk =>
      simp only [hs] at h
      rcases hm : p.readChunk with ⟨_ | e, p2⟩
      · simp only [hm] at h
        have h2 := ih p2 h
        have h3 := smfreader.reader.readChunk_processedTracks p
        rw [hm] at h3
        simp only [smfreader.reader.Track] at h2 ⊢
        rw [← h3]
        exact h2
      · simp [hm] at h
    | stateExpectTrackEvent =>
      simp only [hs, Option.some.injEq] at h
      have := smfreader.reader.readEvent_EndOfTrack _ q h
      simpa [smfreader.reader.Delta, smfreader.reader.Track] using this
    | stateDone =>
      simp [hs] at h

/-- `readMThd` on a complete chunk header of a type other than "MThd": the call returns
`ErrExpectedMthd` but leaves `headerError` at `nil` and marks the header as read, so that the
next call returns `nil` and changes nothing. -/
theorem smfreader.reader.readMThd_wrong_type (p : smfreader.reader) (typ rest : List Nat)
    (n : Nat) (hread : p.headerIsRead = false) (htyp : typ.length = 4) (hne : typ ≠ smf.MThd)
    (hn : n < 2 ^ 32) (hin : p.input = typ ++ smf.be32 n ++ rest) :
    p.readMThd
      = (some .ErrExpectedMthd,
          { p with input := rest, headerError := none, headerIsRead := true }) ∧
    smfreader.reader.readMThd { p with input := rest, headerError := none, headerIsRead := true }
      = (none, { p with input := rest, headerError := none, headerIsRead := true }) := by
  have h := smfreader.chunkHeader.readFrom_append typ rest n htyp hn
  constructor
  · unfold smfreader.reader.readMThd
    rw [hin, h]
    simp [hread, hne]
  · simp [smfreader.reader.readMThd]

/-- The loop of `keyFromSharpsOrFlats` ends with a value that is not negative, below 12 when
it started from a negative one, unchanged when it started from a non-negative one, and
always congruent modulo 12 to the start value. -/
theorem meta.clampToOctave_spec (tmp : Int) :
    0 ≤ meta.clampToOctave tmp ∧ (tmp < 0 → meta.clampToOctave tmp < 12) ∧
      (0 ≤ tmp → meta.clampToOctave tmp = tmp) ∧ meta.clampToOctave tmp % 12 = tmp % 12 := by
  induction tmp using meta.clampToOctave.induct with
  | case1 tmp hneg ih =>
    rw [meta.clampToOctave, if_pos hneg]
    obtain ⟨h1, h2, h3, h4⟩ := ih
    refine ⟨h1, ?_, ?_, ?_⟩
    · intro _
      by_cases h : tmp + 12 < 0
      · exact h2 h
      · rw [h3 (by omega)]; omega
    · intro h; omega
    · rw [h4]; omega
  | case2 tmp hpos =>
    rw [meta.clampToOctave, if_neg hpos]
    exact ⟨by omega, fun h => by omega, fun _ => rfl, rfl⟩

/-- The raw bytes of `meta.EndOfTrack` are `FF 2F 00`. -/
theorem Message.Raw_EndOfTrack : Message.Raw .EndOfTrack = [0xFF, 0x2F, 0x00] := by
  decide

/-- A message whose raw bytes do not start with `0xF0` or `0xF7`, added to a writer without
running-status tracker: the track body grows by the encoded delta and the raw bytes; nothing
else changes. -/
theorem smfwriter.writer.addMessage_plain (t : smfwriter.writer) (d : Nat) (m : Message)
    (hmode : t.runningWriter = none)
    (hsysex : m.Raw.head? ≠ some 0xF0 ∧ m.Raw.head? ≠ some 0xF7) :
    t.addMessage d m
      = { t with track := { t.track with data := t.track.data ++ (vlq.Encode d ++ m.Raw) } } := by
  unfold smfwriter.writer.addMessage
  cases hr : m.Raw with
  | nil => exact absurd hr (Message.Raw_ne_nil m)
  | cons b rest =>
    rw [hr] at hsysex
    simp only [List.head?_cons, ne_eq, Option.some.injEq] at hsysex
    simp [hsysex.1, hsysex.2, hmode, smfwriter.writer.appendToChunk, smf.Chunk.Write]

/-- A message whose raw bytes start with `0xF0` or `0xF7`, added to a writer: the track body
grows by the encoded delta, the first raw byte, the encoded length of the remaining raw bytes
and those bytes; a running-status tracker, if there is one, is reset. -/
theorem smfwriter.writer.addMessage_sysex (t : smfwriter.writer) (d : Nat) (m : Message)
    (r0 : Nat) (r1 : List Nat) (hraw : m.Raw = r0 :: r1) (h0 : r0 = 0xF0 ∨ r0 = 0xF7) :
    t.addMessage d m
      = { t with
            runningWriter := t.runningWriter.map fun rw => rw.ResetStatus,
            track := { t.track with
              data := t.track.data
                ++ (vlq.Encode d ++ ([r0] ++ vlq.Encode (r1.length % 2 ^ 32) ++ r1)) } } := by
  unfold smfwriter.writer.addMessage
  rw [hraw]
  simp only [h0, if_true]
  cases hrw : t.runningWriter with
  | none =>
    cases r1 <;> simp [smfwriter.writer.appendToChunk, smf.Chunk.Write, hrw]
  | some rw =>
    cases r1 <;> simp [smfwriter.writer.appendToChunk, smf.Chunk.Write, hrw]

/-- `meta.EndOfTrack` added to a writer: the track body grows by the encoded delta and
`FF 2F 00`, with or without running-status tracker; nothing else changes. -/
theorem smfwriter.writer.addMessage_EndOfTrack (t : smfwriter.writer) (d : Nat) :
    t.addMessage d .EndOfTrack
      = { t with track := { t.track with
            data := t.track.data ++ (vlq.Encode d ++ [0xFF, 0x2F, 0x00]) } } := by
  unfold smfwriter.writer.addMessage
  rw [Message.Raw_EndOfTrack]
  cases hrw : t.runningWriter with
  | none => simp [smfwriter.writer.appendToChunk, smf.Chunk.Write, hrw]
  | some rw =>
    simp [smfwriter.writer.appendToChunk, smf.Chunk.Write, hrw, runningstatus.SMFWriter.Write,
      runningstatus.writeRaw, Message.Raw_EndOfTrack]

/-- `writeTrackTo` in closed form: the chunk of the track goes to the output, the tracker is
renewed unless running status is off, the body and the delta are cleared, the track counter
advances, and the error is `ErrFinished` exactly when the counter has reached `NumTracks`. -/
theorem smfwriter.writer.writeTrackTo_eq (t : smfwriter.writer) :
    t.writeTrackTo
      = ((t.track.Bytes.length,
          if t.header.NumTracks = (t.tracksProcessed + 1) % 2 ^ 16 then some .ErrFinished
          else none),
         { t with
            output := t.output ++ t.track.Bytes,
            runningWriter :=
              if t.noRunningStatus then t.runningWriter else some runningstatus.NewSMFWriter,
            track := { t.track with data := [] },
            deltatime := 0,
            tracksProcessed := (t.tracksProcessed + 1) % 2 ^ 16 }) := by
  unfold smfwriter.writer.writeTrackTo
  cases hnr : t.noRunningStatus <;>
    by_cases hfin : t.header.NumTracks = (t.tracksProcessed + 1) % 65536 <;>
    simp [hfin, smf.Chunk.Clear]

/-- `Write(meta.EndOfTrack)` on a writer without sticky error that has tracks left, in closed
form: the header chunk is written first if it has not been written yet, then the chunk of
the track; the returned error and the sticky error are `ErrFinished` exactly when this was
the last track. -/
theorem smfwriter.writer.Write_EndOfTrack_eq (wr : smfwriter.writer)
    (herr : wr.error = none) (hne : wr.header.NumTracks ≠ wr.tracksProcessed) :
    wr.Write .EndOfTrack
      = (((if wr.headerWritten then 0 else wr.writeHeader.length)
            + (wr.track.typ
                ++ smf.be32 (wr.track.data ++ (vlq.Encode wr.deltatime ++ [0xFF, 0x2F, 0x00])).length
                ++ (wr.track.data ++ (vlq.Encode wr.deltatime ++ [0xFF, 0x2F, 0x00]))).length,
          if wr.header.NumTracks = (wr.tracksProcessed + 1) % 2 ^ 16 then some .ErrFinished
          else none),
         { wr with
            output := wr.output ++ (if wr.headerWritten then [] else wr.writeHeader)
              ++ (wr.track.typ
                ++ smf.be32 (wr.track.data ++ (vlq.Encode wr.deltatime ++ [0xFF, 0x2F, 0x00])).length
                ++ (wr.track.data ++ (vlq.Encode wr.deltatime ++ [0xFF, 0x2F, 0x00]))),
            headerWritten := true,
            runningWriter :=
              if wr.noRunningStatus then wr.runningWriter else some runningstatus.NewSMFWriter,
            track := { wr.track with data := [] },
            deltatime := 0,
            tracksProcessed := (wr.tracksProcessed + 1) % 2 ^ 16,
            error := if wr.header.NumTracks = (wr.tracksProcessed + 1) % 2 ^ 16
              then some .ErrFinished else none }) := by
  unfold smfwriter.writer.Write
  cases hh : wr.headerWritten with
  | true =>
    simp only [hh, Bool.not_true, Bool.false_eq_true, if_false, herr, ne_eq,
      not_true_eq_false, hne, if_true, smfwriter.writer.addMessage_EndOfTrack,
      smfwriter.writer.writeTrackTo_eq, smf.Chunk.Bytes]
    by_cases hfin : wr.header.NumTracks = (wr.tracksProcessed + 1) % 65536 <;>
      simp [hfin, hh]
  | false =>
    simp only [hh, Bool.not_false, if_true, smfwriter.writer.WriteHeader,
      Bool.false_eq_true, if_false, ne_eq, not_true_eq_false, hne,
      smfwriter.writer.addMessage_EndOfTrack,
      smfwriter.writer.writeTrackTo_eq, smf.Chunk.Bytes]
    by_cases hfin : wr.header.NumTracks = (wr.tracksProcessed + 1) % 65536 <;>
      simp [hfin, hh, herr]

/-- `addMessage` touches only the track body and the running-status tracker. -/
theorem smfwriter.writer.addMessage_fields (t : smfwriter.writer) (d : Nat) (m : Message) :
    (t.addMessage d m).header = t.header ∧ (t.addMessage d m).output = t.output ∧
    (t.addMessage d m).headerWritten = t.headerWritten ∧
    (t.addMessage d m).tracksProcessed = t.tracksProcessed ∧
    (t.addMessage d m).error = t.error ∧ (t.addMessage d m).track.typ = t.track.typ ∧
    (t.addMessage d m).noRunningStatus = t.noRunningStatus := by
  unfold smfwriter.writer.addMessage
  cases hr : m.Raw with
  | nil => simp
  | cons b rest =>
    simp only
    split
    · cases t.runningWriter <;> simp [smfwriter.writer.appendToChunk, smf.Chunk.Write]
    · cases t.runningWriter <;> simp [smfwriter.writer.appendToChunk, smf.Chunk.Write]

/-- `Write` on a writer whose header is written and whose sticky error is set: the error is
returned with 0 bytes and the writer is left as it is. -/
theorem smfwriter.writer.Write_sticky (wr : smfwriter.writer) (m : Message) (e : Err)
    (hh : wr.headerWritten = true) (herr : wr.error = some e) :
    wr.Write m = ((0, some e), wr) := by
  simp [smfwriter.writer.Write, hh, herr]

/-- `Write` of a message other than `meta.EndOfTrack` on a writer whose header is written,
without sticky error and with tracks left: the message is added and the delta reset. -/
theorem smfwriter.writer.Write_message (wr : smfwriter.writer) (m : Message)
    (hh : wr.headerWritten = true) (herr : wr.error = none)
    (hne : wr.header.NumTracks ≠ wr.tracksProcessed) (hm : m ≠ .EndOfTrack) :
    wr.Write m = ((0, none), { wr.addMessage wr.deltatime m with deltatime := 0 }) := by
  simp [smfwriter.writer.Write, hh, herr, hne, hm]

/-- `Write` on a writer whose header is written, without sticky error, whose track counter
equals `NumTracks`: the error `errFinished` is set and returned with 0 bytes. -/
theorem smfwriter.writer.Write_finished (wr : smfwriter.writer) (m : Message)
    (hh : wr.headerWritten = true) (herr : wr.error = none)
    (hfin : wr.header.NumTracks = wr.tracksProcessed) :
    wr.Write m
      = ((0, some .errFinished), { wr with error := some .errFinished, deltatime := 0 }) := by
  simp [smfwriter.writer.Write, hh, herr, hfin]

/-- `Write` on a writer whose header is not written yet leaves the same writer as `Write` on
the writer right after the header chunk has been written. -/
theorem smfwriter.writer.Write_unwritten (wr : smfwriter.writer) (m : Message)
    (hh : wr.headerWritten = false) :
    (wr.Write m).2
      = (smfwriter.writer.Write
          { wr with output := wr.output ++ wr.writeHeader, headerWritten := true,
                    error := none } m).2 := by
  by_cases hfin : wr.header.NumTracks = wr.tracksProcessed <;>
    by_cases heot : m = .EndOfTrack <;>
    simp [smfwriter.writer.Write, hh, smfwriter.writer.WriteHeader, hfin, heot]

/-- A writer whose header is written and whose sticky error is `ErrFinished` stays so under
every call. -/
theorem smfwriter.writer.call_finished (w : smfwriter.writer) (c : smfwriter.Call)
    (hh : w.headerWritten = true) (herr : w.error = some .ErrFinished) :
    (w.call c).headerWritten = true ∧ (w.call c).error = some .ErrFinished := by
  cases c with
  | WriteHeader => simp [smfwriter.writer.call, smfwriter.writer.WriteHeader, hh, herr]
  | Write m =>
    simp [smfwriter.writer.call, smfwriter.writer.Write_sticky w m .ErrFinished hh herr, hh, herr]
  | SetDelta d => simp [smfwriter.writer.call, smfwriter.writer.SetDelta, hh, herr]

/-- A writer whose header is written and whose sticky error is `ErrFinished` stays so under
every sequence of calls. -/
theorem smfwriter.writer.calls_finished (w : smfwriter.writer) (cs : List smfwriter.Call)
    (hh : w.headerWritten = true) (herr : w.error = some .ErrFinished) :
    (w.calls cs).headerWritten = true ∧ (w.calls cs).error = some .ErrFinished := by
  induction cs generalizing w with
  | nil => exact ⟨hh, herr⟩
  | cons c cs ih =>
    obtain ⟨h1, h2⟩ := smfwriter.writer.call_finished w c hh herr
    exact ih (w.call c) h1 h2

/-- One call on a writer without sticky error that has tracks left: the header of the file
is kept; a call other than `Write(meta.EndOfTrack)` keeps the track counter and leaves no
error; `Write(meta.EndOfTrack)` advances the counter, and either tracks are left and there
is no error, or the counter has reached `NumTracks`, the header is written and the sticky
error is `ErrFinished`. -/
theorem smfwriter.writer.call_live (w : smfwriter.writer) (c : smfwriter.Call)
    (herr : w.error = none) (hlt : w.tracksProcessed < w.header.NumTracks)
    (hn : w.header.NumTracks < 2 ^ 16) :
    (w.call c).header = w.header ∧
    (w.call c).tracksProcessed
      = w.tracksProcessed + smfwriter.countEndOfTrack [c] ∧
    ((w.call c).tracksProcessed < w.header.NumTracks → (w.call c).error = none) ∧
    ((w.call c).tracksProcessed = w.header.NumTracks →
      (w.call c).headerWritten = true ∧ (w.call c).error = some .ErrFinished) := by
  have hne : w.header.NumTracks ≠ w.tracksProcessed := by omega
  have hmod : (w.tracksProcessed + 1) % 2 ^ 16 = w.tracksProcessed + 1 :=
    Nat.mod_eq_of_lt (by omega)
  cases c with
  | WriteHeader =>
    have hc : smfwriter.countEndOfTrack [smfwriter.Call.WriteHeader] = 0 := by decide
    rw [hc]
    cases hh : w.headerWritten <;>
      simp [smfwriter.writer.call, smfwriter.writer.WriteHeader, hh, herr] <;> omega
  | SetDelta d =>
    have hc : smfwriter.countEndOfTrack [smfwriter.Call.SetDelta d] = 0 := by
      simp [smfwriter.countEndOfTrack]
    rw [hc]
    simp [smfwriter.writer.call, smfwriter.writer.SetDelta, herr]
    omega
  | Write m =>
    have key : ∀ wr : smfwriter.writer, wr.headerWritten = true → wr.error = none →
        wr.header = w.header → wr.tracksProcessed = w.tracksProcessed →
        (wr.Write m).2.header = w.header ∧
        (wr.Write m).2.tracksProcessed
          = w.tracksProcessed + smfwriter.countEndOfTrack [smfwriter.Call.Write m] ∧
        ((wr.Write m).2.tracksProcessed < w.header.NumTracks → (wr.Write m).2.error = none) ∧
        ((wr.Write m).2.tracksProcessed = w.header.NumTracks →
          (wr.Write m).2.headerWritten = true ∧ (wr.Write m).2.error = some .ErrFinished) := by
      intro wr hh he hhd htp
      have hne2 : wr.header.NumTracks ≠ wr.tracksProcessed := by rw [hhd, htp]; exact hne
      by_cases hm : m = .EndOfTrack
      · subst hm
        have hc : smfwriter.countEndOfTrack [smfwriter.Call.Write .EndOfTrack] = 1 := by decide
        rw [smfwriter.writer.Write_EndOfTrack_eq wr he hne2, hc, htp, hhd, hmod]
        refine ⟨rfl, rfl, ?_, ?_⟩
        · intro h
          have : ¬ (w.header.NumTracks = w.tracksProcessed + 1) := by
            simp only at h; omega
          simp [this]
        · intro h
          simp only at h
          simp [h]
      · have hc : smfwriter.countEndOfTrack [smfwriter.Call.Write m] = 0 := by
          simp [smfwriter.countEndOfTrack, List.count_cons, hm]
        obtain ⟨f1, _, f3, f4, f5, _, _⟩ := smfwriter.writer.addMessage_fields wr wr.deltatime m
        rw [smfwriter.writer.Write_message wr m hh he hne2 hm, hc]
        simp only [f1, f4, f5, f3, hhd, htp, he, hh, Nat.add_zero, true_and]
        refine ⟨fun _ => trivial, fun h => ?_⟩
        omega
    cases hh : w.headerWritten with
    | true => exact key w hh herr rfl rfl
    | false =>
      simp only [smfwriter.writer.call]
      rw [smfwriter.writer.Write_unwritten w m hh]
      exact key _ rfl rfl rfl rfl

/-- Counting `Write(meta.EndOfTrack)` calls, one call at a time. -/
theorem smfwriter.countEndOfTrack_cons (c : smfwriter.Call) (cs : List smfwriter.Call) :
    smfwriter.countEndOfTrack (c :: cs)
      = smfwriter.countEndOfTrack [c] + smfwriter.countEndOfTrack cs := by
  simp only [smfwriter.countEndOfTrack, List.count_cons, List.count_nil]
  omega

/-- One call counts as at most one `Write(meta.EndOfTrack)`. -/
theorem smfwriter.countEndOfTrack_single_le (c : smfwriter.Call) :
    smfwriter.countEndOfTrack [c] ≤ 1 := by
  simp only [smfwriter.countEndOfTrack, List.count_cons, List.count_nil]
  split <;> omega

/-- Counting `Write(meta.EndOfTrack)` calls over two histories. -/
theorem smfwriter.countEndOfTrack_append (cs ds : List smfwriter.Call) :
    smfwriter.countEndOfTrack (cs ++ ds)
      = smfwriter.countEndOfTrack cs + smfwriter.countEndOfTrack ds := by
  simp [smfwriter.countEndOfTrack, List.count_append]

/-- A writer without sticky error that has tracks left is finished (header written, sticky
error `ErrFinished`) after any history of calls that holds at least as many
`Write(meta.EndOfTrack)` calls as tracks were left. -/
theorem smfwriter.writer.calls_live (w : smfwriter.writer) (cs : List smfwriter.Call)
    (herr : w.error = none) (hlt : w.tracksProcessed < w.header.NumTracks)
    (hn : w.header.NumTracks < 2 ^ 16)
    (hcount : w.header.NumTracks ≤ w.tracksProcessed + smfwriter.countEndOfTrack cs) :
    (w.calls cs).headerWritten = true ∧ (w.calls cs).error = some .ErrFinished := by
  induction cs generalizing w with
  | nil =>
    have : smfwriter.countEndOfTrack [] = 0 := rfl
    omega
  | cons c cs ih =>
    obtain ⟨h1, h2, h3, h4⟩ := smfwriter.writer.call_live w c herr hlt hn
    have hle := smfwriter.countEndOfTrack_single_le c
    rw [smfwriter.countEndOfTrack_cons] at hcount
    show ((w.call c).calls cs).headerWritten = true ∧ _
    by_cases hfin : (w.call c).tracksProcessed = w.header.NumTracks
    · obtain ⟨a, b⟩ := h4 hfin
      exact smfwriter.writer.calls_finished (w.call c) cs a b
    · have hlt2 : (w.call c).tracksProcessed < w.header.NumTracks := by omega
      exact ih (w.call c) (h3 hlt2) (by rw [h1]; exact hlt2) (by rw [h1]; exact hn)
        (by rw [h1]; omega)

/-- The bytes of a sequence of chunks followed by one more chunk. -/
theorem smf.chunksBytes_append (cs ds : List smf.Chunk) :
    smf.chunksBytes (cs ++ ds) = smf.chunksBytes cs ++ smf.chunksBytes ds := by
  induction cs with
  | nil => rfl
  | cons c cs ih => simp [smf.chunksBytes, ih]

/-- One call on a writer whose header is written and whose output is `pfx` followed by
`MTrk` chunks: the header stays written, the track chunk keeps its type, and the output is
still `pfx` followed by `MTrk` chunks. -/
theorem smfwriter.writer.call_chunks (w : smfwriter.writer) (c : smfwriter.Call)
    (pfx : List Nat) (hh : w.headerWritten = true) (htyp : w.track.typ = smf.MTrk)
    (hout : ∃ bodies : List (List Nat), w.output
      = pfx ++ smf.chunksBytes (bodies.map fun b => { typ := smf.MTrk, data := b })) :
    (w.call c).headerWritten = true ∧ (w.call c).track.typ = smf.MTrk ∧
    ∃ bodies : List (List Nat), (w.call c).output
      = pfx ++ smf.chunksBytes (bodies.map fun b => { typ := smf.MTrk, data := b }) := by
  cases c with
  | WriteHeader =>
    have hw : w.call .WriteHeader = w := by
      simp [smfwriter.writer.call, smfwriter.writer.WriteHeader, hh]
    rw [hw]
    exact ⟨hh, htyp, hout⟩
  | SetDelta d => exact ⟨hh, htyp, hout⟩
  | Write m =>
    simp only [smfwriter.writer.call]
    cases herr : w.error with
    | some e =>
      rw [smfwriter.writer.Write_sticky w m e hh herr]
      exact ⟨hh, htyp, hout⟩
    | none =>
      by_cases hfin : w.header.NumTracks = w.tracksProcessed
      · rw [smfwriter.writer.Write_finished w m hh herr hfin]
        exact ⟨hh, htyp, hout⟩
      · by_cases hm : m = .EndOfTrack
        · subst hm
          rw [smfwriter.writer.Write_EndOfTrack_eq w herr hfin]
          obtain ⟨bodies, hb⟩ := hout
          refine ⟨rfl, htyp, bodies ++ [w.track.data ++ (vlq.Encode w.deltatime ++ [0xFF, 0x2F, 0x00])], ?_⟩
          simp [hh, hb, htyp, smf.chunksBytes_append, smf.chunksBytes, smf.Chunk.Bytes]
        · obtain ⟨_, f2, f3, _, _, f6, _⟩ := smfwriter.writer.addMessage_fields w w.deltatime m
          rw [smfwriter.writer.Write_message w m hh herr hfin hm]
          simp only [f2, f3, f6]
          exact ⟨hh, htyp, hout⟩

/-- Any sequence of calls on a writer whose header is written and whose output is `pfx`
followed by `MTrk` chunks: the header stays written and the output is still `pfx` followed
by `MTrk` chunks. -/
theorem smfwriter.writer.calls_chunks (w : smfwriter.writer) (cs : List smfwriter.Call)
    (pfx : List Nat) (hh : w.headerWritten = true) (htyp : w.track.typ = smf.MTrk)
    (hout : ∃ bodies : List (List Nat), w.output
      = pfx ++ smf.chunksBytes (bodies.map fun b => { typ := smf.MTrk, data := b })) :
    (w.calls cs).headerWritten = true ∧
    ∃ bodies : List (List Nat), (w.calls cs).output
      = pfx ++ smf.chunksBytes (bodies.map fun b => { typ := smf.MTrk, data := b }) := by
  induction cs generalizing w with
  | nil => exact ⟨hh, hout⟩
  | cons c cs ih =>
    obtain ⟨h1, h2, h3⟩ := smfwriter.writer.call_chunks w c pfx hh htyp hout
    exact ih (w.call c) h1 h2 h3

/-- The first `WriteHeader` or `Write` call on a writer whose header is not written yet
writes the header chunk first: afterwards the header is written and the output is the old
output, the header chunk and then `MTrk` chunks only. -/
theorem smfwriter.writer.call_first (w : smfwriter.writer) (c : smfwriter.Call)
    (hh : w.headerWritten = false) (htyp : w.track.typ = smf.MTrk)
    (hc : c = .WriteHeader ∨ ∃ m, c = .Write m) :
    (w.call c).headerWritten = true ∧ (w.call c).track.typ = smf.MTrk ∧
    ∃ bodies : List (List Nat), (w.call c).output
      = (w.output ++ w.writeHeader)
        ++ smf.chunksBytes (bodies.map fun b => { typ := smf.MTrk, data := b }) := by
  rcases hc with hc | ⟨m, hc⟩
  · subst hc
    have hw : w.call .WriteHeader
        = { w with output := w.output ++ w.writeHeader, headerWritten := true } := by
      simp [smfwriter.writer.call, smfwriter.writer.WriteHeader, hh]
    rw [hw]
    exact ⟨rfl, htyp, [], by simp [smf.chunksBytes]⟩
  · subst hc
    simp only [smfwriter.writer.call]
    rw [smfwriter.writer.Write_unwritten w m hh]
    exact smfwriter.writer.call_chunks
      { w with output := w.output ++ w.writeHeader, headerWritten := true, error := none }
      (.Write m) (w.output ++ w.writeHeader) rfl htyp ⟨[], by simp [smf.chunksBytes]⟩

/-- The key that `keyFromSharpsOrFlats` returns, without the loop: the remainder modulo 12
of `int8(sharpsOrFlats * 7)`, less 3 in minor mode. -/
theorem meta.keyFromSharpsOrFlats_eq (sharpsOrFlats : Int) (mode : Nat) :
    meta.keyFromSharpsOrFlats sharpsOrFlats mode
      = toByte ((if mode = meta.minorMode then toInt8 (sharpsOrFlats * 7) - 3
          else toInt8 (sharpsOrFlats * 7)) % 12) := by
  unfold meta.keyFromSharpsOrFlats
  simp only []
  rw [(meta.clampToOctave_spec _).2.2.2]

/-- `KeySignature.readFrom` on the declared length 2 and two data bytes, in closed form. -/
theorem meta.KeySignature.readFrom_two (b mode : Nat) (rest : List Nat) :
    meta.KeySignature.readFrom (2 :: b :: mode :: rest)
      = (.ok (.KeySignature (meta.keyFromSharpsOrFlats (toInt8 b) mode) (mode == meta.majorMode)
          (toByte (if toInt8 b < 0 then toInt8 (toInt8 b * (-1)) else toInt8 b))
          (decide (toInt8 b < 0))), rest) := by
  rfl

/-- The meta reader on a key signature event: `FF 59` has been read, the reader of type
`byteKeySignature` parses the declared length 2 and the two data bytes. -/
theorem meta.ReadFrom_KeySignature (b mode : Nat) (rest : List Nat) :
    meta.ReadFrom meta.byteKeySignature (2 :: b :: mode :: rest)
      = ((some (.KeySignature (meta.keyFromSharpsOrFlats (toInt8 b) mode)
            (mode == meta.majorMode)
            (toByte (if toInt8 b < 0 then toInt8 (toInt8 b * (-1)) else toInt8 b))
            (decide (toInt8 b < 0))), none), rest) := by
  rfl

/-- The raw bytes of a key signature: `FF 59 02 sf mi`; the field `Key` is not encoded. -/
theorem Message.Raw_KeySignature (Key Num : Nat) (IsMajor IsFlat : Bool) :
    (Message.KeySignature Key IsMajor Num IsFlat).Raw
      = [0xFF, 0x59, 0x02, toByte (meta.sharpsOrFlatsOf Num IsFlat),
          meta.modeByte IsMajor] := by
  cases IsMajor <;> cases IsFlat <;> rfl

set_option maxRecDepth 100000 in
/-- What the decoder makes of the byte `sf` that `KeySignature.Raw` wrote for `Num` and
`IsFlat`: the signed number read back is the one written, and the fields `Num` and `IsFlat`
derived from it are the ones of the message exactly when `Num` is at most 127 with sharps,
and between 1 and 128 with flats. -/
theorem meta.sharpsOrFlatsOf_decoded :
    ∀ Num < 256, ∀ IsFlat : Bool,
      toInt8 (toByte (meta.sharpsOrFlatsOf Num IsFlat)) = meta.sharpsOrFlatsOf Num IsFlat ∧
      ((toByte (if meta.sharpsOrFlatsOf Num IsFlat < 0
            then toInt8 (meta.sharpsOrFlatsOf Num IsFlat * (-1))
            else meta.sharpsOrFlatsOf Num IsFlat) = Num ∧
          decide (meta.sharpsOrFlatsOf Num IsFlat < 0) = IsFlat) ↔
        (if IsFlat then 1 ≤ Num ∧ Num ≤ 128 else Num ≤ 127)) := by
  decide

/-- A value converted to `byte` is below 256. -/
theorem toByte_lt (n : Int) : toByte n < 256 := by
  unfold toByte
  have h1 : 0 ≤ n % 256 := Int.emod_nonneg n (by decide)
  have h2 : n % 256 < 256 := Int.emod_lt_of_pos n (by decide)
  omega

/-- The two data bytes of `SongPositionPointer.Raw` in arithmetic: the bits 7 to 13 of the
value first, its low 7 bits second. -/
theorem syscommon.SongPositionPointer.Raw_eq (m : Nat) :
    syscommon.SongPositionPointer.Raw m = [0xF2, m / 128 % 128, m % 128] := by
  have h1 : m &&& 0x7F = m % 128 := Nat.and_pow_two_sub_one_eq_mod m 7
  have h2 : (m >>> 7) &&& 0x7F = m / 128 % 128 := by
    rw [show (0x7F : Nat) = 2 ^ 7 - 1 by rfl, Nat.and_pow_two_sub_one_eq_mod,
      Nat.shiftRight_eq_div_pow]
  unfold syscommon.SongPositionPointer.Raw
  simp only [h1, h2]
  have h3 : m % 128 % 256 = m % 128 := Nat.mod_eq_of_lt (by omega)
  have h4 : m / 128 % 128 % 256 = m / 128 % 128 := Nat.mod_eq_of_lt (by omega)
  rw [h3, h4]

/-- The absolute value that `ParsePitchWheelVals` returns, in arithmetic. -/
theorem midilib.ParsePitchWheelVals_abs (b1 b2 : Nat) :
    (midilib.ParsePitchWheelVals b1 b2).2 = b2 % 128 * 128 + b1 % 128 := by
  have h1 : b1 &&& 0x7F = b1 % 128 := Nat.and_pow_two_sub_one_eq_mod b1 7
  have h2 : b2 &&& 0x7F = b2 % 128 := Nat.and_pow_two_sub_one_eq_mod b2 7
  unfold midilib.ParsePitchWheelVals
  simp only [h1, h2]
  rw [Nat.shiftLeft_eq, Nat.mul_comm (b2 % 128) (2 ^ 7),
    ← Nat.mul_add_lt_is_or (by omega : b1 % 128 < 2 ^ 7)]

/-- The meta reader's `Read` never sets the flag `done`: it keeps the flag and the type
byte, whatever it returns. -/
theorem meta.reader.Read_keeps_done (r : meta.reader) :
    r.Read.2.done = r.done ∧ r.Read.2.typ = r.typ := by
  unfold meta.reader.Read
  cases hd : r.done with
  | true => simp [hd]
  | false =>
    simp only [Bool.false_eq_true, if_false]
    split <;> simp [hd]

/-- The loop of `SMF1.ReadFrom` returns only through `return nil, err`: whenever it returns,
the tracks are `nil` and the error is not `nil`. -/
theorem smftrack.SMF1.ReadFrom.loop_returns_error {σ : Type} (rd : smf.Reader σ)
    (matchAll : Bool) (matchNos : List Nat) (fuel : Nat) :
    ∀ (s : σ) (tracks : List smftrack.Track) (found : List Nat) (absPos : Nat)
      (currentTr : smftrack.Track) (res : List smftrack.Track) (err : Option Err),
      smftrack.SMF1.ReadFrom.loop rd matchAll matchNos fuel s tracks found absPos currentTr
        = some (.ret res err) → res = [] ∧ err ≠ none := by
  induction fuel with
  | zero =>
    intro s tracks found absPos currentTr res err h
    simp [smftrack.SMF1.ReadFrom.loop] at h
  | succ fuel ih =>
    intro s tracks found absPos currentTr res err h
    unfold smftrack.SMF1.ReadFrom.loop at h
    split at h
    · simp at h
    · simp at h
    · simp only [Option.some.injEq, smftrack.Result.ret.injEq] at h
      obtain ⟨h1, h2⟩ := h
      exact ⟨h1.symm, by rw [← h2]; simp⟩
    · split at h
      · split at h
        · exact ih _ _ _ _ _ _ _ h
        · exact ih _ _ _ _ _ _ _ h
      · exact ih _ _ _ _ _ _ _ h

/-- `Handler.read` on a reader that is no `smf.Reader` hands `h.pos` to every dispatch as it
found it, and leaves the handler as it is. -/
theorem handler.Handler.readLive_pos {σ : Type} (rd : handler.LiveReader σ) (fuel : Nat) :
    ∀ (h : handler.Handler) (s : σ) (err : Err) (calls : List handler.Call)
      (h2 : handler.Handler),
      h.readLive rd fuel s = some ((err, calls), h2) →
        h2 = h ∧ ∀ c ∈ calls, c.pos = h.pos := by
  induction fuel with
  | zero =>
    intro h s err calls h2 hr
    simp [handler.Handler.readLive] at hr
  | succ fuel ih =>
    intro h s err calls h2 hr
    unfold handler.Handler.readLive at hr
    split at hr
    · simp only [Option.some.injEq, Prod.mk.injEq] at hr
      obtain ⟨⟨_, hc⟩, hh⟩ := hr
      subst hc
      exact ⟨hh.symm, by simp⟩
    · split at hr
      · simp at hr
      · rename_i hrec
        simp only [Option.some.injEq, Prod.mk.injEq] at hr
        obtain ⟨⟨_, hc⟩, hh⟩ := hr
        obtain ⟨i1, i2⟩ := ih h _ _ _ _ hrec
        subst hc
        refine ⟨by rw [← hh, i1], ?_⟩
        intro c hc
        rcases List.mem_cons.1 hc with hc | hc
        · rw [hc]
        · exact i2 c hc

/-- A reader that expects the header although `readMThd` has run and cached no error never
leaves the loop of `Read`: `readMThd` returns the cached `nil` and changes nothing. -/
theorem smfreader.reader.Read_stuck (p : smfreader.reader)
    (hs : p.state = .stateExpectHeader) (hh : p.headerIsRead = true)
    (he : p.headerError = none) (fuel : Nat) : p.Read fuel = none := by
  induction fuel with
  | zero => rfl
  | succ fuel ih =>
    have hm : p.readMThd = (none, p) := by simp [smfreader.reader.readMThd, hh, he]
    simp [smfreader.reader.Read, hs, hm, ih]

/-- The key that `keyFromSharpsOrFlats` returns is at most 11, whatever the arguments. -/
theorem meta.keyFromSharpsOrFlats_le (sharpsOrFlats : Int) (mode : Nat) :
    meta.keyFromSharpsOrFlats sharpsOrFlats mode ≤ 11 := by
  rw [meta.keyFromSharpsOrFlats_eq]
  generalize (if mode = meta.minorMode then toInt8 (sharpsOrFlats * 7) - 3
    else toInt8 (sharpsOrFlats * 7)) = x
  unfold toByte
  have h1 : 0 ≤ x % 12 := Int.emod_nonneg x (by decide)
  have h2 : x % 12 < 12 := Int.emod_lt_of_pos x (by decide)
  have h3 : x % 12 % 256 = x % 12 := Int.emod_eq_of_lt h1 (by omega)
  rw [h3]
  omega

/-- `KeySignature.Note` does not panic on a key of at most 11. -/
theorem meta.KeySignature.Note_isSome (Key : Nat) (IsFlat : Bool) (h : Key ≤ 11) :
    (meta.KeySignature.Note Key IsFlat).isSome = true := by
  interval_cases Key <;> cases IsFlat <;> decide

/-- The division that `writeTimeFormat` writes is two bytes long, for both time formats. -/
theorem smfwriter.writer.writeTimeFormat_length (w : smfwriter.writer) :
    w.writeTimeFormat.length = 2 := by
  unfold smfwriter.writer.writeTimeFormat
  split <;> rfl

/-- The header chunk that `writeHeader` produces: the type "MThd", the length 6 as a 4-byte
big-endian integer, then the format, the number of tracks and the division. -/
theorem smfwriter.writer.writeHeader_bytes (w : smfwriter.writer) :
    w.writeHeader
      = [0x4D, 0x54, 0x68, 0x64, 0x00, 0x00, 0x00, 0x06]
        ++ (smf.be16 w.header.Format ++ smf.be16 w.header.NumTracks ++ w.writeTimeFormat) := by
  have hlen := smfwriter.writer.writeTimeFormat_length w
  simp [smfwriter.writer.writeHeader, smf.Chunk.Write, smf.Chunk.Bytes, smf.MThd, smf.be16,
    smf.be32, hlen]

/-- The bytes of `SongPositionPointer.Raw` for every `n` in 0..16383: the status byte, then
the more significant 7 bits `(n >> 7) & 0x7F = n / 128`, then the less significant 7 bits
`n & 0x7F = n mod 128`. -/
theorem syscommon.songPositionPointer_raw_msb_first (n : Nat) (hn : n ≤ 16383) :
    syscommon.SongPositionPointer.Raw n = [0xF2, (n >>> 7) &&& 0x7F, n &&& 0x7F] ∧
    (n >>> 7) &&& 0x7F = n / 128 ∧ n &&& 0x7F = n % 128 ∧ n / 128 < 128 := by
  have h1 : n &&& 0x7F = n % 128 := Nat.and_pow_two_sub_one_eq_mod n 7
  have h2 : (n >>> 7) &&& 0x7F = n / 128 % 128 := by
    rw [show (0x7F : Nat) = 2 ^ 7 - 1 by rfl, Nat.and_pow_two_sub_one_eq_mod,
      Nat.shiftRight_eq_div_pow]
  have h3 : n / 128 < 128 := by omega
  have h4 : n / 128 % 128 = n / 128 := Nat.mod_eq_of_lt h3
  rw [syscommon.SongPositionPointer.Raw_eq, h1, h2, h4]
  exact ⟨rfl, rfl, rfl, h3⟩

/-! ### Claims -/

/-- C1 (code_bug): the scenario of the example test, `NoteOn(ch=2,k=65,v=90)`, delta 2
`NoteOff(ch=2,k=65)`, `EndOfTrack`, written with the default SMF writer and read back with
the SMF reader, does not yield the three events. The default writer elides the status of the
note-off, and the reader then returns `NoteOff(2, 0)` (the key byte 65 is dropped) and fails
with `ErrUnexpectedEOF` on the third `Read`. With the option `NoRunningStatus` the three
events come back with deltas 0, 2, 0, but `Track()` is 1 after `EndOfTrack`, not 0. -/
theorem midihandler.example_roundtrip_fails :
    midihandler.mkMIDI [] 2 65 90 2 =
      [0x4D, 0x54, 0x68, 0x64, 0, 0, 0, 6, 0, 0, 0, 1, 0x03, 0xC0,
       0x4D, 0x54, 0x72, 0x6B, 0, 0, 0, 11,
       0x00, 0x92, 65, 90, 0x02, 65, 0, 0x00, 0xFF, 0x2F, 0x00] ∧
    (smfreader.New (midihandler.mkMIDI [] 2 65 90 2)).readN 10 4 =
      some [⟨.ret (some (.NoteOn 2 65 90)) none, 0, 0⟩,
            ⟨.ret (some (.NoteOff 2 0)) none, 2, 0⟩,
            ⟨.ret none (some .ErrUnexpectedEOF), 16303, 0⟩,
            ⟨.ret none (some .ErrUnexpectedEOF), 0, 0⟩] ∧
    (smfreader.New (midihandler.mkMIDI [smfwriter.NoRunningStatus] 2 65 90 2)).readN 10 4 =
      some [⟨.ret (some (.NoteOn 2 65 90)) none, 0, 0⟩,
            ⟨.ret (some (.NoteOff 2 65)) none, 2, 0⟩,
            ⟨.ret (some .EndOfTrack) none, 0, 1⟩,
            ⟨.ret none (some .EOF), 0, 1⟩] := by
  refine ⟨?_, ?_, ?_⟩ <;> decide

/-- C2: for a channel `c` in 0..15, a key `k` in 0..127 and a velocity `v` in 1..127,
writing `NoteOn(c,k,v)` and then `NoteOff(c,k)` with the live writer produces exactly the
bytes `[0x90|c, k, v, k, 0]` with running status on (the default), and exactly
`[0x90|c, k, v, 0x90|c, k, 0]` with the option `NoRunningStatus`. -/
theorem midiwriter.noteOn_noteOff_bytes (c k v : Nat) (hc : c ≤ 15) (_hk : k ≤ 127)
    (_hv1 : 1 ≤ v) (_hv : v ≤ 127) :
    (((midiwriter.New []).Write (channel.NoteOn c k v)).Write (channel.NoteOff c k)).output
      = [0x90 ||| c, k, v, k, 0x00] ∧
    (((midiwriter.New [midiwriter.NoRunningStatus]).Write (channel.NoteOn c k v)).Write
        (channel.NoteOff c k)).output
      = [0x90 ||| c, k, v, 0x90 ||| c, k, 0x00] := by
  obtain ⟨h1, h2, h3⟩ := channel.noteOn_status_bounds c hc
  have h0 : ¬ (0x90 ||| c = 0) := by omega
  simp [midiwriter.New, midiwriter.NoRunningStatus, midiwriter.writer.Write,
    runningstatus.writeRaw, Message.Raw, channel.channelMessage2, channel.NoteOn,
    channel.NoteOff, h1, h2, h3, h0]

/-- C2, at the input of the tests `TestRunningStatus` and `TestNoRunningStatus`: channel 0,
key 50, velocity 33 give `90 32 21 32 00` and `90 32 21 90 32 00`. -/
theorem midiwriter.noteOn_noteOff_bytes_witness :
    (0 ≤ 15 ∧ 50 ≤ 127 ∧ 1 ≤ 33 ∧ 33 ≤ 127) ∧
    ((((midiwriter.New []).Write (channel.NoteOn 0 50 33)).Write (channel.NoteOff 0 50)).output
      = [0x90 ||| 0, 50, 33, 50, 0x00] ∧
    (((midiwriter.New [midiwriter.NoRunningStatus]).Write (channel.NoteOn 0 50 33)).Write
        (channel.NoteOff 0 50)).output
      = [0x90 ||| 0, 50, 33, 0x90 ||| 0, 50, 0x00]) :=
  ⟨by decide, midiwriter.noteOn_noteOff_bytes 0 50 33 (by decide) (by decide) (by decide)
    (by decide)⟩

/-- C3 (code_bug): on an input whose first chunk is not "MThd", the first `ReadHeader`
returns the error `ErrExpectedMthd`, and the second call on the same reader returns the
same (zero) header with a `nil` error: `readMThd` caches `headerError` only for the errors
of the two reads, not for the wrong chunk type. -/
theorem smfreader.readHeader_second_call_differs :
    (smfreader.New smfreader.exampleNoHeader).ReadHeader.1
      = (smfreader.mThdData.zero, some .ErrExpectedMthd) ∧
    (smfreader.New smfreader.exampleNoHeader).ReadHeader.2.ReadHeader.1
      = (smfreader.mThdData.zero, none) := by
  decide

/-- C4 (code_bug): when the first event of a track starts with a data byte (`0x40`) while
the running-status tracker holds no status, `Read` does not return an error: it runs into
`panic("must not happen: invalid status ...")`. -/
theorem smfreader.read_data_byte_without_status_panics :
    ((smfreader.New smfreader.exampleDataByteFirst).Read 10).map Prod.fst
      = some (.panicked (.invalidStatus 0x40)) := by
  decide

/-- C5 (code_bug): on `exampleRunningStatus 0x3E` the second event is read under the stored
status `0x90` with the canary `0x3E`. The message returned is `NoteOff(0, 80)`, not the
note-on of key `0x3E` and velocity `0x50`: the canary is dropped, the two data bytes are
taken from the input after it (`50 00`, the second being the delta of the next event), and
the third `Read` fails. The same messages come back when the canary is `0x3F`. -/
theorem smfreader.running_status_drops_canary :
    (smfreader.New (smfreader.exampleRunningStatus 0x3E)).readN 10 3
      = some [⟨.ret (some (.NoteOn 0 60 64)) none, 0, 0⟩,
              ⟨.ret (some (.NoteOff 0 80)) none, 10, 0⟩,
              ⟨.ret none (some .ErrUnexpectedEOF), 16303, 0⟩] ∧
    (smfreader.New (smfreader.exampleRunningStatus 0x3F)).readN 10 3
      = (smfreader.New (smfreader.exampleRunningStatus 0x3E)).readN 10 3 ∧
    (∃ p1 p2 : smfreader.reader,
      (smfreader.New (smfreader.exampleRunningStatus 0x3E)).Read 10
        = some (.ret (some (.NoteOn 0 60 64)) none, p1) ∧
      p1.input = [0x0A, 0x3E, 0x50, 0x00, 0xFF, 0x2F, 0x00] ∧
      p1.runningStatus.status = 0x90 ∧
      p1.Read 10 = some (.ret (some (.NoteOff 0 80)) none, p2) ∧
      p2.input = [0xFF, 0x2F, 0x00]) := by
  refine ⟨by decide, by decide, _, _, rfl, rfl, rfl, rfl, rfl⟩

/-- C6 (code_bug): on a file with two tracks, `Track()` right after the `Read` that returns
the `EndOfTrack` of track 0 is 1, and after the `EndOfTrack` of track 1 it is 2: the counter
`processedTracks` is advanced before `Read` returns. For the note-on events `Track()` is the
index of their track. -/
theorem smfreader.track_after_endOfTrack_is_next :
    (smfreader.New (smfreader.exampleTwoTracks 0 0 0 0)).readN 10 5
      = some [⟨.ret (some (.NoteOn 0 60 64)) none, 0, 0⟩,
              ⟨.ret (some .EndOfTrack) none, 0, 1⟩,
              ⟨.ret (some (.NoteOn 1 62 64)) none, 0, 1⟩,
              ⟨.ret (some .EndOfTrack) none, 0, 2⟩,
              ⟨.ret none (some .EOF), 0, 2⟩] := by
  decide

/-- C7 (code_bug): on a file whose `EndOfTrack` events are encoded with the deltas 5 and 7,
`Delta()` right after the `Read` that returns such an `EndOfTrack` is 0: `_readEvent` resets
`deltatime` before `Read` returns. For the note-on events `Delta()` is the encoded delta (3
and 4). -/
theorem smfreader.delta_after_endOfTrack_is_zero :
    ((smfreader.New (smfreader.exampleTwoTracks 3 5 4 7)).readN 10 4).map
        (List.map fun o => (o.outcome, o.delta))
      = some [(.ret (some (.NoteOn 0 60 64)) none, 3),
              (.ret (some .EndOfTrack) none, 0),
              (.ret (some (.NoteOn 1 62 64)) none, 4),
              (.ret (some .EndOfTrack) none, 0)] := by
  decide

/-- C8 (code_bug): `ReadSMF` on a file with two tracks, whose note-on events have the deltas
3 (track 0) and 4 (track 1) and whose `EndOfTrack` events have delta 0. The note-on of
track 1 is dispatched with `AbsTime` 7, the sum over both tracks, not with 4: `read` never
resets `AbsTime` at a track boundary. -/
theorem handler.absTime_accumulates_across_tracks :
    (handler.Handler.ReadSMF 10 10 { pos := none } (smfreader.exampleTwoTracks 3 0 4 0)).map
        Prod.fst
      = some (.ok none,
          [⟨some { Track := 0, Delta := 3, AbsTime := 3 }, some (.NoteOn 0 60 64)⟩,
           ⟨some { Track := 1, Delta := 0, AbsTime := 3 }, some .EndOfTrack⟩,
           ⟨some { Track := 1, Delta := 4, AbsTime := 7 }, some (.NoteOn 1 62 64)⟩,
           ⟨some { Track := 2, Delta := 0, AbsTime := 7 }, some .EndOfTrack⟩]) := by
  rfl

/-- C9: the reader expects a chunk and has processed as many tracks as the header declares
(the state right after the last declared `EndOfTrack` has been returned), and the rest of
the file holds a further MTrk chunk, possibly after complete chunks of other types that the
reader skips. Then the next `Read` returns `io.EOF`, the reader is in state `stateDone`
with the body of that MTrk chunk unread, and every later `Read` returns `(nil, io.EOF)`
again without touching the reader: no event of a later MTrk chunk is ever returned. -/
theorem smfreader.extra_tracks_ignored (p : smfreader.reader) (cs : List smf.Chunk)
    (len : Nat) (rest : List Nat) (fuel f : Nat)
    (hstate : p.state = .stateExpectChunk)
    (hn : p.processedTracks = p.mthd.numTracks)
    (hcs : ∀ c ∈ cs, c.typ.length = 4 ∧ c.typ ≠ smf.MTrk ∧ c.data.length < 2 ^ 32)
    (hskip : p.failOnUnknownChunks = false ∨ cs = [])
    (hlen : len < 2 ^ 32)
    (hin : p.input = smf.chunksBytes cs ++ (smf.MTrk ++ smf.be32 len ++ rest)) :
    p.Read (fuel + cs.length + 2)
      = some (.ret none (some .EOF),
          { p with input := rest, deltatime := 0, state := .stateDone }) ∧
    smfreader.reader.Read (f + 1) { p with input := rest, deltatime := 0, state := .stateDone }
      = some (.ret none (some .EOF),
          { p with input := rest, deltatime := 0, state := .stateDone }) := by
  refine ⟨?_, smfreader.reader.Read_done _ f rfl⟩
  induction cs generalizing p with
  | nil =>
    have hin2 : p.input = smf.MTrk ++ smf.be32 len ++ rest := by simpa [smf.chunksBytes] using hin
    have h := smfreader.reader.readChunk_MTrk p len rest hlen hin2
    simp [smfreader.reader.Read, hstate, h, smfreader.reader.readEvent, hn]
  | cons c cs ih =>
    obtain ⟨htyp, hne, hclen⟩ := hcs c (List.mem_cons_self c cs)
    have hfail : p.failOnUnknownChunks = false := by
      rcases hskip with h | h
      · exact h
      · exact absurd h (List.cons_ne_nil c cs)
    have hin2 : p.input = c.Bytes ++ (smf.chunksBytes cs ++ (smf.MTrk ++ smf.be32 len ++ rest)) := by
      simp [hin, smf.chunksBytes]
    have h := smfreader.reader.readChunk_skip p c _ htyp hne hclen hfail hin2
    have hfuel : fuel + (c :: cs).length + 2 = (fuel + cs.length + 2) + 1 := by
      simp only [List.length_cons]; omega
    rw [hfuel]
    have ih2 := ih { p with input := smf.chunksBytes cs ++ (smf.MTrk ++ smf.be32 len ++ rest),
                            state := .stateExpectChunk } rfl hn
      (fun c hc => hcs c (List.mem_cons_of_mem _ hc)) (Or.inl hfail) rfl
    simp only [smfreader.reader.Read, hstate, h]
    exact ih2

/-- C9, on `exampleExtraTrack`: the first `Read` returns the `EndOfTrack` of the one declared
track and leaves the reader in `exampleAfterLastTrack`; from there, over the unknown chunk
and the header of the extra MTrk chunk, the next `Read` returns `io.EOF` in state
`stateDone` and the events of the extra chunk stay unread. -/
theorem smfreader.extra_tracks_ignored_witness :
    (smfreader.New smfreader.exampleExtraTrack).Read 10
      = some (.ret (some .EndOfTrack) none, smfreader.exampleAfterLastTrack) ∧
    smfreader.exampleAfterLastTrack.processedTracks
      = smfreader.exampleAfterLastTrack.mthd.numTracks ∧
    smfreader.exampleAfterLastTrack.input
      = smf.chunksBytes [{ typ := [0x58, 0x58, 0x58, 0x58], data := [1, 2] }]
          ++ (smf.MTrk ++ smf.be32 8 ++ [0x00, 0x90, 60, 64, 0x00, 0xFF, 0x2F, 0x00]) ∧
    (smfreader.exampleAfterLastTrack.Read (0 + 1 + 2)
      = some (.ret none (some .EOF),
          { smfreader.exampleAfterLastTrack with
              input := [0x00, 0x90, 60, 64, 0x00, 0xFF, 0x2F, 0x00],
              deltatime := 0, state := .stateDone }) ∧
     smfreader.reader.Read (0 + 1)
        { smfreader.exampleAfterLastTrack with
            input := [0x00, 0x90, 60, 64, 0x00, 0xFF, 0x2F, 0x00],
            deltatime := 0, state := .stateDone }
      = some (.ret none (some .EOF),
          { smfreader.exampleAfterLastTrack with
              input := [0x00, 0x90, 60, 64, 0x00, 0xFF, 0x2F, 0x00],
              deltatime := 0, state := .stateDone })) :=
  ⟨by decide, by decide, by decide,
    smfreader.extra_tracks_ignored smfreader.exampleAfterLastTrack
      [{ typ := [0x58, 0x58, 0x58, 0x58], data := [1, 2] }] 8
      [0x00, 0x90, 60, 64, 0x00, 0xFF, 0x2F, 0x00] 0 0 (by decide) (by decide) (by decide)
      (Or.inl (by decide)) (by decide) (by decide)⟩

/-- C10: when the reader expects a chunk and the input has no bytes left, `Read` returns
`(nil, io.EOF)` and the reader enters `stateDone`; and a reader `q` in `stateDone` (such as
the one just reached, and again after each such call) answers `Read` with `(nil, io.EOF)`
and is left unchanged, so that nothing is read from the input. -/
theorem smfreader.read_at_end_of_input (p q : smfreader.reader) (fuel : Nat)
    (hp : p.state = .stateExpectChunk) (hin : p.input = []) (hq : q.state = .stateDone) :
    p.Read (fuel + 1) = some (.ret none (some .EOF), { p with state := .stateDone }) ∧
    q.Read (fuel + 1) = some (.ret none (some .EOF), q) := by
  refine ⟨?_, smfreader.reader.Read_done q fuel hq⟩
  have h : p.readChunk = (some .EOF, { p with state := .stateDone }) := by
    unfold smfreader.reader.readChunk
    rw [hin, smfreader.chunkHeader.readFrom_nil]
    simp [← hin]
  simp [smfreader.reader.Read, hp, h]

/-- C10, on `exampleOneTrack`: the first `Read` returns the `EndOfTrack` and leaves the
reader in `exampleAtEnd`, expecting a chunk with no byte left; the `Read` after it returns
`io.EOF` and enters `stateDone`, and the `Read` after that one returns `io.EOF` again and
changes nothing. -/
theorem smfreader.read_at_end_of_input_witness :
    ((smfreader.New smfreader.exampleOneTrack).Read 10
        = some (.ret (some .EndOfTrack) none, smfreader.exampleAtEnd) ∧
      smfreader.exampleAtEnd.state = .stateExpectChunk ∧ smfreader.exampleAtEnd.input = []) ∧
    (smfreader.exampleAtEnd.Read (0 + 1)
      = some (.ret none (some .EOF), { smfreader.exampleAtEnd with state := .stateDone }) ∧
     smfreader.reader.Read (0 + 1) { smfreader.exampleAtEnd with state := .stateDone }
      = some (.ret none (some .EOF), { smfreader.exampleAtEnd with state := .stateDone })) :=
  ⟨by decide, smfreader.read_at_end_of_input smfreader.exampleAtEnd
    { smfreader.exampleAtEnd with state := .stateDone } 0 (by decide) (by decide) (by decide)⟩

/-- C11: the reader expects a chunk and its input starts with a complete chunk `c` of a type
other than "MTrk" (header with the declared length `L = c.data.length`, then the `L` body
bytes), followed by `rest`. With fail-on-unknown-chunks off, `readChunk` consumes exactly the
header and the `L` body bytes and returns no error, and `Read` returns no event for the
chunk: it goes on as a `Read` of the reader that expects a chunk at `rest`. With
fail-on-unknown-chunks on, `Read` returns the unknown-chunk error and the body is still
unread. -/
theorem smfreader.unknown_chunk_skipped_or_refused (p : smfreader.reader) (c : smf.Chunk)
    (rest : List Nat) (fuel : Nat)
    (hstate : p.state = .stateExpectChunk) (htyp : c.typ.length = 4) (hne : c.typ ≠ smf.MTrk)
    (hlen : c.data.length < 2 ^ 32) (hin : p.input = c.Bytes ++ rest) :
    (p.failOnUnknownChunks = false →
      p.readChunk = (none, { p with input := rest }) ∧
      p.Read (fuel + 1) = smfreader.reader.Read fuel { p with input := rest }) ∧
    (p.failOnUnknownChunks = true →
      p.Read (fuel + 1)
        = some (.ret none (some (.unknownChunk c.typ)), { p with input := c.data ++ rest })) := by
  constructor
  · intro hfail
    have h := smfreader.reader.readChunk_skip p c rest htyp hne hlen hfail hin
    have hp : { p with input := rest, state := .stateExpectChunk } = { p with input := rest } := by
      rw [← hstate]
    rw [hp] at h
    refine ⟨h, ?_⟩
    simp [smfreader.reader.Read, hstate, h]
  · intro hfail
    have h := smfreader.chunkHeader.readFrom_append c.typ (c.data ++ rest) c.data.length htyp hlen
    have hin2 : p.input = c.typ ++ smf.be32 c.data.length ++ (c.data ++ rest) := by
      simp [hin, smf.Chunk.Bytes]
    have h2 : p.readChunk = (some (.unknownChunk c.typ), { p with input := c.data ++ rest }) := by
      unfold smfreader.reader.readChunk
      rw [hin2, h]
      simp [hne, hfail]
    simp [smfreader.reader.Read, hstate, h2]

/-- C11, on the reader `exampleAfterLastTrack`, whose input starts with the chunk "XXXX" of
length 2: with the option off the two body bytes are consumed and `Read` goes on at the MTrk
chunk behind them; with the option on `Read` returns the error and the body `01 02` is the
next input. -/
theorem smfreader.unknown_chunk_skipped_or_refused_witness :
    (smfreader.exampleAfterLastTrack.readChunk
        = (none, { smfreader.exampleAfterLastTrack with
            input := [0x4D, 0x54, 0x72, 0x6B, 0, 0, 0, 8, 0x00, 0x90, 60, 64, 0x00, 0xFF, 0x2F,
              0x00] }) ∧
      smfreader.exampleAfterLastTrack.Read (2 + 1)
        = smfreader.reader.Read 2 { smfreader.exampleAfterLastTrack with
            input := [0x4D, 0x54, 0x72, 0x6B, 0, 0, 0, 8, 0x00, 0x90, 60, 64, 0x00, 0xFF, 0x2F,
              0x00] }) ∧
    smfreader.reader.Read (2 + 1) { smfreader.exampleAfterLastTrack with
        failOnUnknownChunks := true }
      = some (.ret none (some (.unknownChunk [0x58, 0x58, 0x58, 0x58])),
          { smfreader.exampleAfterLastTrack with
              failOnUnknownChunks := true,
              input := [1, 2] ++ [0x4D, 0x54, 0x72, 0x6B, 0, 0, 0, 8, 0x00, 0x90, 60, 64, 0x00,
                0xFF, 0x2F, 0x00] }) :=
  ⟨(smfreader.unknown_chunk_skipped_or_refused smfreader.exampleAfterLastTrack
      { typ := [0x58, 0x58, 0x58, 0x58], data := [1, 2] }
      [0x4D, 0x54, 0x72, 0x6B, 0, 0, 0, 8, 0x00, 0x90, 60, 64, 0x00, 0xFF, 0x2F, 0x00] 2
      (by decide) (by decide) (by decide) (by decide) (by decide)).1 (by decide),
   (smfreader.unknown_chunk_skipped_or_refused
      { smfreader.exampleAfterLastTrack with failOnUnknownChunks := true }
      { typ := [0x58, 0x58, 0x58, 0x58], data := [1, 2] }
      [0x4D, 0x54, 0x72, 0x6B, 0, 0, 0, 8, 0x00, 0x90, 60, 64, 0x00, 0xFF, 0x2F, 0x00] 2
      (by decide) (by decide) (by decide) (by decide) (by decide)).2 (by decide)⟩

/-- C12: on a fresh SMF writer (no sticky error, no track processed yet), once a history of
`WriteHeader`, `Write` and `SetDelta` calls holds `NumTracks` calls of `Write(meta.EndOfTrack)`,
the last of them being the one that completes the count, then after any further calls every
`Write` of any message returns the finished error `ErrFinished` with a byte count of 0 and
leaves the writer as it is: nothing is written to the output and nothing is appended to the
track buffer. -/
theorem smfwriter.write_after_last_track_is_finished (w0 : smfwriter.writer)
    (pre post : List smfwriter.Call) (m : Message)
    (h0err : w0.error = none) (h0tp : w0.tracksProcessed = 0)
    (hn : w0.header.NumTracks < 2 ^ 16)
    (hcount : smfwriter.countEndOfTrack (pre ++ [.Write .EndOfTrack]) = w0.header.NumTracks) :
    (w0.calls (pre ++ [.Write .EndOfTrack] ++ post)).Write m
        = ((0, some .ErrFinished), w0.calls (pre ++ [.Write .EndOfTrack] ++ post)) ∧
    ((w0.calls (pre ++ [.Write .EndOfTrack] ++ post)).Write m).2.output
        = (w0.calls (pre ++ [.Write .EndOfTrack] ++ post)).output ∧
    ((w0.calls (pre ++ [.Write .EndOfTrack] ++ post)).Write m).2.track
        = (w0.calls (pre ++ [.Write .EndOfTrack] ++ post)).track := by
  have h1 : smfwriter.countEndOfTrack [smfwriter.Call.Write .EndOfTrack] = 1 := by decide
  have hc := hcount
  rw [smfwriter.countEndOfTrack_append, h1] at hc
  have hfin := smfwriter.writer.calls_live w0 (pre ++ [.Write .EndOfTrack] ++ post) h0err
    (by omega) hn (by
      rw [smfwriter.countEndOfTrack_append, hcount]
      omega)
  have hw := smfwriter.writer.Write_sticky _ m .ErrFinished hfin.1 hfin.2
  rw [hw]
  exact ⟨rfl, rfl, rfl⟩

/-- C12 at a concrete input: a one-track writer after a note, `EndOfTrack` and a further
`SetDelta` answers a `Write` with `ErrFinished` and 0 bytes and stays as it is. -/
theorem smfwriter.write_after_last_track_is_finished_witness :
    (smfwriter.New []).error = none ∧ (smfwriter.New []).tracksProcessed = 0 ∧
    (smfwriter.New []).header.NumTracks < 2 ^ 16 ∧
    smfwriter.countEndOfTrack
        ([.Write (channel.NoteOn 2 65 90)] ++ [.Write .EndOfTrack])
      = (smfwriter.New []).header.NumTracks ∧
    (((smfwriter.New []).calls
        ([.Write (channel.NoteOn 2 65 90)] ++ [.Write .EndOfTrack] ++ [.SetDelta 4])).Write
        (channel.NoteOff 2 65)
      = ((0, some .ErrFinished), (smfwriter.New []).calls
        ([.Write (channel.NoteOn 2 65 90)] ++ [.Write .EndOfTrack] ++ [.SetDelta 4])) ∧
    (((smfwriter.New []).calls
        ([.Write (channel.NoteOn 2 65 90)] ++ [.Write .EndOfTrack] ++ [.SetDelta 4])).Write
        (channel.NoteOff 2 65)).2.output
      = ((smfwriter.New []).calls
        ([.Write (channel.NoteOn 2 65 90)] ++ [.Write .EndOfTrack] ++ [.SetDelta 4])).output ∧
    (((smfwriter.New []).calls
        ([.Write (channel.NoteOn 2 65 90)] ++ [.Write .EndOfTrack] ++ [.SetDelta 4])).Write
        (channel.NoteOff 2 65)).2.track
      = ((smfwriter.New []).calls
        ([.Write (channel.NoteOn 2 65 90)] ++ [.Write .EndOfTrack] ++ [.SetDelta 4])).track) :=
  ⟨by decide, by decide, by decide, by decide,
    smfwriter.write_after_last_track_is_finished (smfwriter.New [])
      [.Write (channel.NoteOn 2 65 90)] [.SetDelta 4] (channel.NoteOff 2 65)
      (by decide) (by decide) (by decide) (by decide)⟩

/-- C13 (code_bug): when `smfwriter.New` returns, nothing has been written to the
destination and `headerWritten` is false, with or without options; the header chunk appears
only with the first `WriteHeader` (or `Write`). The doc comment of `New` says that the header
has already been written. -/
theorem smfwriter.New_writes_no_header :
    (smfwriter.New []).output = [] ∧ (smfwriter.New []).headerWritten = false ∧
    (smfwriter.New [smfwriter.NoRunningStatus, smfwriter.NumTracks 2]).output = [] ∧
    (smfwriter.New [smfwriter.NoRunningStatus, smfwriter.NumTracks 2]).headerWritten = false ∧
    (smfwriter.New []).WriteHeader.2.output
      = [0x4D, 0x54, 0x68, 0x64, 0, 0, 0, 6, 0, 0, 0, 1, 0x03, 0xC0] := by
  decide

/-- C14: on an SMF writer whose header is not yet written, take any first call that is a
`WriteHeader` or a `Write` and any later sequence of calls (`WriteHeader`, `Write`,
`SetDelta`). The header chunk is the 14 bytes "MThd" (`4D 54 68 64`), the length
`00 00 00 06`, the format, the number of tracks and the two division bytes. The first call
alone already leaves the output as the old output followed by this header chunk and then
`MTrk` chunks only; after all the calls the output is still the old output, the header
chunk once, and then `MTrk` chunks only; and a `WriteHeader` call made then returns 0 bytes
and leaves the writer, hence the output, as it is. -/
theorem smfwriter.header_written_once_and_first (w0 : smfwriter.writer)
    (c : smfwriter.Call) (cs : List smfwriter.Call)
    (hh : w0.headerWritten = false) (htyp : w0.track.typ = smf.MTrk)
    (hc : c = .WriteHeader ∨ ∃ m, c = .Write m) :
    (∃ division : List Nat, division.length = 2 ∧
      w0.writeHeader
        = [0x4D, 0x54, 0x68, 0x64, 0x00, 0x00, 0x00, 0x06]
          ++ (smf.be16 w0.header.Format ++ smf.be16 w0.header.NumTracks ++ division)) ∧
    w0.writeHeader.length = 14 ∧
    (∃ bodies : List (List Nat), (w0.call c).output
      = w0.output
        ++ ([0x4D, 0x54, 0x68, 0x64, 0x00, 0x00, 0x00, 0x06]
          ++ (smf.be16 w0.header.Format ++ smf.be16 w0.header.NumTracks
            ++ w0.writeTimeFormat))
        ++ smf.chunksBytes (bodies.map fun b => { typ := smf.MTrk, data := b })) ∧
    (∃ bodies : List (List Nat), (w0.calls (c :: cs)).output
      = w0.output
        ++ ([0x4D, 0x54, 0x68, 0x64, 0x00, 0x00, 0x00, 0x06]
          ++ (smf.be16 w0.header.Format ++ smf.be16 w0.header.NumTracks
            ++ w0.writeTimeFormat))
        ++ smf.chunksBytes (bodies.map fun b => { typ := smf.MTrk, data := b })) ∧
    (∃ bodies : List (List Nat), (w0.call c).output
      = w0.output ++ w0.writeHeader
        ++ smf.chunksBytes (bodies.map fun b => { typ := smf.MTrk, data := b })) ∧
    (∃ bodies : List (List Nat), (w0.calls (c :: cs)).output
      = w0.output ++ w0.writeHeader
        ++ smf.chunksBytes (bodies.map fun b => { typ := smf.MTrk, data := b })) ∧
    (w0.calls (c :: cs)).WriteHeader.1.1 = 0 ∧
    (w0.calls (c :: cs)).WriteHeader.2 = w0.calls (c :: cs) := by
  obtain ⟨h1, h2, h3⟩ := smfwriter.writer.call_first w0 c hh htyp hc
  obtain ⟨h4, h5⟩ := smfwriter.writer.calls_chunks (w0.call c) cs _ h1 h2 h3
  have h4b : (w0.calls (c :: cs)).headerWritten = true := h4
  have hbytes := smfwriter.writer.writeHeader_bytes w0
  have hlen := smfwriter.writer.writeTimeFormat_length w0
  have h3b := h3
  have h5b := h5
  rw [hbytes] at h3b h5b
  refine ⟨⟨w0.writeTimeFormat, hlen, hbytes⟩, ?_, h3b, h5b, h3, h5, ?_, ?_⟩
  · rw [hbytes]
    simp [smf.be16, hlen]
  · simp [smfwriter.writer.WriteHeader, h4b]
  · simp [smfwriter.writer.WriteHeader, h4b]

/-- C14 at a concrete input: a two-track writer that gets a note, `EndOfTrack`, a
`WriteHeader`, and `EndOfTrack` again. The header chunk is
`4D 54 68 64 00 00 00 06 00 01 00 02 03 C0`; it is written by the first call, and after all
the calls the output is this header chunk, once, followed by the two track chunks
`MTrk 00 00 00 08 00 92 41 5A 00 FF 2F 00` and `MTrk 00 00 00 04 00 FF 2F 00`; a further
`WriteHeader` writes nothing. -/
theorem smfwriter.header_written_once_and_first_witness :
    (smfwriter.New [smfwriter.NumTracks 2]).headerWritten = false ∧
    (smfwriter.New [smfwriter.NumTracks 2]).track.typ = smf.MTrk ∧
    (smfwriter.New [smfwriter.NumTracks 2]).writeHeader
      = [0x4D, 0x54, 0x68, 0x64, 0, 0, 0, 6, 0, 1, 0, 2, 0x03, 0xC0] ∧
    ((smfwriter.New [smfwriter.NumTracks 2]).call (.Write (channel.NoteOn 2 65 90))).output
      = [0x4D, 0x54, 0x68, 0x64, 0, 0, 0, 6, 0, 1, 0, 2, 0x03, 0xC0] ∧
    ((smfwriter.New [smfwriter.NumTracks 2]).calls
        (.Write (channel.NoteOn 2 65 90)
          :: [.Write .EndOfTrack, .WriteHeader, .Write .EndOfTrack])).output
      = [0x4D, 0x54, 0x68, 0x64, 0, 0, 0, 6, 0, 1, 0, 2, 0x03, 0xC0,
         0x4D, 0x54, 0x72, 0x6B, 0, 0, 0, 8, 0x00, 0x92, 0x41, 0x5A, 0x00, 0xFF, 0x2F, 0x00,
         0x4D, 0x54, 0x72, 0x6B, 0, 0, 0, 4, 0x00, 0xFF, 0x2F, 0x00] ∧
    ((∃ division : List Nat, division.length = 2 ∧
      (smfwriter.New [smfwriter.NumTracks 2]).writeHeader
        = [0x4D, 0x54, 0x68, 0x64, 0x00, 0x00, 0x00, 0x06]
          ++ (smf.be16 (smfwriter.New [smfwriter.NumTracks 2]).header.Format
            ++ smf.be16 (smfwriter.New [smfwriter.NumTracks 2]).header.NumTracks
            ++ division)) ∧
    (smfwriter.New [smfwriter.NumTracks 2]).writeHeader.length = 14 ∧
    (∃ bodies : List (List Nat),
        ((smfwriter.New [smfwriter.NumTracks 2]).call (.Write (channel.NoteOn 2 65 90))).output
      = (smfwriter.New [smfwriter.NumTracks 2]).output
        ++ ([0x4D, 0x54, 0x68, 0x64, 0x00, 0x00, 0x00, 0x06]
          ++ (smf.be16 (smfwriter.New [smfwriter.NumTracks 2]).header.Format
            ++ smf.be16 (smfwriter.New [smfwriter.NumTracks 2]).header.NumTracks
            ++ (smfwriter.New [smfwriter.NumTracks 2]).writeTimeFormat))
        ++ smf.chunksBytes (bodies.map fun b => { typ := smf.MTrk, data := b })) ∧
    (∃ bodies : List (List Nat),
        ((smfwriter.New [smfwriter.NumTracks 2]).calls
          (.Write (channel.NoteOn 2 65 90)
            :: [.Write .EndOfTrack, .WriteHeader, .Write .EndOfTrack])).output
      = (smfwriter.New [smfwriter.NumTracks 2]).output
        ++ ([0x4D, 0x54, 0x68, 0x64, 0x00, 0x00, 0x00, 0x06]
          ++ (smf.be16 (smfwriter.New [smfwriter.NumTracks 2]).header.Format
            ++ smf.be16 (smfwriter.New [smfwriter.NumTracks 2]).header.NumTracks
            ++ (smfwriter.New [smfwriter.NumTracks 2]).writeTimeFormat))
        ++ smf.chunksBytes (bodies.map fun b => { typ := smf.MTrk, data := b })) ∧
    (∃ bodies : List (List Nat),
        ((smfwriter.New [smfwriter.NumTracks 2]).call (.Write (channel.NoteOn 2 65 90))).output
      = (smfwriter.New [smfwriter.NumTracks 2]).output
        ++ (smfwriter.New [smfwriter.NumTracks 2]).writeHeader
        ++ smf.chunksBytes (bodies.map fun b => { typ := smf.MTrk, data := b })) ∧
    (∃ bodies : List (List Nat),
        ((smfwriter.New [smfwriter.NumTracks 2]).calls
          (.Write (channel.NoteOn 2 65 90)
            :: [.Write .EndOfTrack, .WriteHeader, .Write .EndOfTrack])).output
      = (smfwriter.New [smfwriter.NumTracks 2]).output
        ++ (smfwriter.New [smfwriter.NumTracks 2]).writeHeader
        ++ smf.chunksBytes (bodies.map fun b => { typ := smf.MTrk, data := b })) ∧
    ((smfwriter.New [smfwriter.NumTracks 2]).calls
          (.Write (channel.NoteOn 2 65 90)
            :: [.Write .EndOfTrack, .WriteHeader, .Write .EndOfTrack])).WriteHeader.1.1 = 0 ∧
    ((smfwriter.New [smfwriter.NumTracks 2]).calls
          (.Write (channel.NoteOn 2 65 90)
            :: [.Write .EndOfTrack, .WriteHeader, .Write .EndOfTrack])).WriteHeader.2
      = (smfwriter.New [smfwriter.NumTracks 2]).calls
          (.Write (channel.NoteOn 2 65 90)
            :: [.Write .EndOfTrack, .WriteHeader, .Write .EndOfTrack])) :=
  ⟨by decide, by decide, by decide, by decide, by decide,
    smfwriter.header_written_once_and_first (smfwriter.New [smfwriter.NumTracks 2])
      (.Write (channel.NoteOn 2 65 90)) [.Write .EndOfTrack, .WriteHeader, .Write .EndOfTrack]
      (by decide) (by decide) (Or.inr ⟨_, rfl⟩)⟩

/-- C15: a writer in no-running-status mode (its running-status tracker is `nil`) with the
pending delta `d < 2^28`, and a message `m` that is not `EndOfTrack` and whose raw bytes do
not start with `0xF0` or `0xF7`. When `Write(m)` succeeds (returns a `nil` error), the track
body has grown by exactly `VLQ(d) ++ m.Raw()`, the output has received no track bytes (only
the header chunk, if it had not been written yet), the pending delta is 0 and no track has
been finished. -/
theorem smfwriter.write_appends_delta_and_raw (wr : smfwriter.writer) (m : Message) (d : Nat)
    (hmode : wr.runningWriter = none) (hd : wr.deltatime = d) (_hd28 : d < 2 ^ 28)
    (hsysex : m.Raw.head? ≠ some 0xF0 ∧ m.Raw.head? ≠ some 0xF7) (heot : m ≠ .EndOfTrack)
    (hok : (wr.Write m).1.2 = none) :
    (wr.Write m).2.track.data = wr.track.data ++ (vlq.Encode d ++ m.Raw) ∧
    (wr.Write m).2.output = wr.output ++ (if wr.headerWritten then [] else wr.writeHeader) ∧
    (wr.Write m).2.deltatime = 0 ∧
    (wr.Write m).2.tracksProcessed = wr.tracksProcessed := by
  subst hd
  unfold smfwriter.writer.Write at hok ⊢
  cases hh : wr.headerWritten with
  | true =>
    simp only [hh, Bool.not_true, Bool.false_eq_true, if_false] at hok ⊢
    split at hok
    · rename_i he; exact absurd hok he
    · rename_i he
      have he2 : ¬ (wr.error ≠ none) := he
      simp only [he2, if_false] at hok ⊢
      split at hok
      · simp at hok
      · rename_i hn
        simp only [hn, heot, if_false]
        rw [smfwriter.writer.addMessage_plain wr _ m hmode hsysex]
        simp
  | false =>
    simp only [hh, Bool.not_false, if_true, smfwriter.writer.WriteHeader,
      Bool.false_eq_true, if_false] at hok ⊢
    simp only [ne_eq, not_true_eq_false, if_false] at hok ⊢
    split at hok
    · simp at hok
    · rename_i hn
      simp only [hn, heot, if_false]
      rw [smfwriter.writer.addMessage_plain
        { wr with output := wr.output ++ wr.writeHeader, headerWritten := true, error := none }
        wr.deltatime m hmode hsysex]
      simp

/-- C15, on `exampleNoRunningStatus` (a writer with the option `NoRunningStatus` after
`Write(NoteOn(2,65,90))` and `SetDelta(2)`) and the message `NoteOff(2,65)`: the body grows
from `00 92 41 5A` by `02 92 41 00`, the output keeps the 14 header bytes, the delta is 0. -/
theorem smfwriter.write_appends_delta_and_raw_witness :
    (smfwriter.exampleNoRunningStatus.runningWriter = none ∧
      smfwriter.exampleNoRunningStatus.deltatime = 2 ∧
      (smfwriter.exampleNoRunningStatus.Write (channel.NoteOff 2 65)).1.2 = none) ∧
    (smfwriter.exampleNoRunningStatus.Write (channel.NoteOff 2 65)).2.track.data
      = [0x00, 0x92, 65, 90, 0x02, 0x92, 65, 0] ∧
    ((smfwriter.exampleNoRunningStatus.Write (channel.NoteOff 2 65)).2.track.data
        = smfwriter.exampleNoRunningStatus.track.data
            ++ (vlq.Encode 2 ++ (channel.NoteOff 2 65).Raw) ∧
      (smfwriter.exampleNoRunningStatus.Write (channel.NoteOff 2 65)).2.output
        = smfwriter.exampleNoRunningStatus.output
            ++ (if smfwriter.exampleNoRunningStatus.headerWritten then []
                else smfwriter.exampleNoRunningStatus.writeHeader) ∧
      (smfwriter.exampleNoRunningStatus.Write (channel.NoteOff 2 65)).2.deltatime = 0 ∧
      (smfwriter.exampleNoRunningStatus.Write (channel.NoteOff 2 65)).2.tracksProcessed
        = smfwriter.exampleNoRunningStatus.tracksProcessed) :=
  ⟨by decide, by decide,
    smfwriter.write_appends_delta_and_raw smfwriter.exampleNoRunningStatus
      (channel.NoteOff 2 65) 2 (by decide) (by decide) (by decide) (by decide) (by decide)
      (by decide)⟩

/-- C16: for a message whose raw bytes are `r0 :: r1` with `r0` one of `0xF0`, `0xF7` (and
a length that fits the `uint32` handed to the VLQ encoder), `addMessage` appends to the track
body exactly `VLQ(delta) ++ [r0] ++ VLQ(len(r1)) ++ r1`, where `len(r1) = len(r) - 1`, and
leaves a running-status tracker, if there is one, reset; the same holds for a successful
`Write` with the pending delta. For a sysex `F0 d1..dn F7` the encoded length is thus `n+1`
and the trailing `F7` is part of the data. -/
theorem smfwriter.sysex_framing (wr : smfwriter.writer) (m : Message) (r0 : Nat)
    (r1 : List Nat) (delta : Nat) (hraw : m.Raw = r0 :: r1) (h0 : r0 = 0xF0 ∨ r0 = 0xF7)
    (hlen : r1.length < 2 ^ 32) :
    ((wr.addMessage delta m).track.data
        = wr.track.data ++ (vlq.Encode delta ++ [r0] ++ vlq.Encode r1.length ++ r1) ∧
      ∀ rw, (wr.addMessage delta m).runningWriter = some rw → rw.status = 0) ∧
    ((wr.Write m).1.2 = none →
      (wr.Write m).2.track.data
        = wr.track.data ++ (vlq.Encode wr.deltatime ++ [r0] ++ vlq.Encode r1.length ++ r1) ∧
      ∀ rw, (wr.Write m).2.runningWriter = some rw → rw.status = 0) := by
  have hmod : r1.length % 2 ^ 32 = r1.length := Nat.mod_eq_of_lt hlen
  have hadd := fun (t : smfwriter.writer) (d : Nat) =>
    smfwriter.writer.addMessage_sysex t d m r0 r1 hraw h0
  have hreset : ∀ (o : Option runningstatus.SMFWriter) (rw : runningstatus.SMFWriter),
      (o.map fun rw => rw.ResetStatus) = some rw → rw.status = 0 := by
    intro o rw h
    cases o with
    | none => simp at h
    | some x =>
      simp only [Option.map_some', Option.some.injEq] at h
      rw [← h]; rfl
  have heot : m ≠ .EndOfTrack := by
    intro h
    rw [h, Message.Raw_EndOfTrack] at hraw
    simp only [List.cons.injEq] at hraw
    omega
  constructor
  · rw [hadd wr delta, hmod]
    exact ⟨by simp, fun rw h => hreset _ rw h⟩
  · intro hok
    unfold smfwriter.writer.Write at hok ⊢
    cases hh : wr.headerWritten with
    | true =>
      simp only [hh, Bool.not_true, Bool.false_eq_true, if_false] at hok ⊢
      split at hok
      · rename_i he; exact absurd hok he
      · rename_i he
        have he2 : ¬ (wr.error ≠ none) := he
        simp only [he2, if_false] at hok ⊢
        split at hok
        · simp at hok
        · rename_i hn
          simp only [hn, heot, if_false]
          rw [hadd wr wr.deltatime, hmod]
          exact ⟨by simp, fun rw h => hreset _ rw h⟩
    | false =>
      simp only [hh, Bool.not_false, if_true, smfwriter.writer.WriteHeader,
        Bool.false_eq_true, if_false] at hok ⊢
      simp only [ne_eq, not_true_eq_false, if_false] at hok ⊢
      split at hok
      · simp at hok
      · rename_i hn
        simp only [hn, heot, if_false]
        rw [hadd { wr with output := wr.output ++ wr.writeHeader, headerWritten := true,
                           error := none } wr.deltatime, hmod]
        exact ⟨by simp, fun rw h => hreset _ rw h⟩

/-- C16, on `exampleRunningStatus` (stored status `0x92`, pending delta 2) and the sysex
`F0 01 02 03 F7`: the body grows by `02 F0 04 01 02 03 F7` (declared length 3 + 1) and the
tracker is reset. -/
theorem smfwriter.sysex_framing_witness :
    ((Message.SysEx 0xF0 [1, 2, 3, 0xF7]).Raw = 0xF0 :: [1, 2, 3, 0xF7] ∧
      smfwriter.exampleRunningStatus.runningWriter = some { status := 0x92 } ∧
      (smfwriter.exampleRunningStatus.Write (.SysEx 0xF0 [1, 2, 3, 0xF7])).1.2 = none) ∧
    ((smfwriter.exampleRunningStatus.Write (.SysEx 0xF0 [1, 2, 3, 0xF7])).2.track.data
        = [0x00, 0x92, 65, 90, 0x02, 0xF0, 0x04, 1, 2, 3, 0xF7] ∧
      (smfwriter.exampleRunningStatus.Write (.SysEx 0xF0 [1, 2, 3, 0xF7])).2.runningWriter
        = some { status := 0 }) ∧
    ((smfwriter.exampleRunningStatus.Write (.SysEx 0xF0 [1, 2, 3, 0xF7])).2.track.data
        = smfwriter.exampleRunningStatus.track.data
            ++ (vlq.Encode smfwriter.exampleRunningStatus.deltatime ++ [0xF0]
                ++ vlq.Encode [1, 2, 3, 0xF7].length ++ [1, 2, 3, 0xF7]) ∧
      ∀ rw, (smfwriter.exampleRunningStatus.Write (.SysEx 0xF0 [1, 2, 3, 0xF7])).2.runningWriter
          = some rw → rw.status = 0) :=
  ⟨by decide, by decide,
    (smfwriter.sysex_framing smfwriter.exampleRunningStatus (.SysEx 0xF0 [1, 2, 3, 0xF7]) 0xF0
      [1, 2, 3, 0xF7] 2 (by decide) (by decide) (by decide)).2 (by decide)⟩

/-- C17: a writer without sticky error that has processed fewer than `NumTracks` tracks
(its track chunk has the type "MTrk", and in no-running-status mode it has no tracker).
`Write(EndOfTrack)` appends `VLQ(delta) ++ FF 2F 00` to the buffered body and emits to the
output (after the header chunk, if that had not been written yet) one chunk: the 4 bytes
"MTrk", the length of the body as a 4-byte big-endian integer, and the body. Afterwards the
track buffer is empty, the running status is reset, the pending delta is 0 and
`tracksProcessed` is one more than before. -/
theorem smfwriter.write_endOfTrack_flushes (wr : smfwriter.writer)
    (herr : wr.error = none) (hlt : wr.tracksProcessed < wr.header.NumTracks)
    (hn : wr.header.NumTracks < 2 ^ 16)
    (hrs : wr.noRunningStatus = true → wr.runningWriter = none)
    (htyp : wr.track.typ = smf.MTrk) :
    (wr.Write .EndOfTrack).2.output
      = wr.output ++ (if wr.headerWritten then [] else wr.writeHeader)
          ++ (smf.MTrk
              ++ smf.be32 (wr.track.data ++ (vlq.Encode wr.deltatime ++ [0xFF, 0x2F, 0x00])).length
              ++ (wr.track.data ++ (vlq.Encode wr.deltatime ++ [0xFF, 0x2F, 0x00]))) ∧
    (wr.Write .EndOfTrack).2.track.data = [] ∧
    (∀ rw, (wr.Write .EndOfTrack).2.runningWriter = some rw → rw.status = 0) ∧
    (wr.Write .EndOfTrack).2.deltatime = 0 ∧
    (wr.Write .EndOfTrack).2.tracksProcessed = wr.tracksProcessed + 1 := by
  have hne : wr.header.NumTracks ≠ wr.tracksProcessed := by omega
  have hmod : (wr.tracksProcessed + 1) % 2 ^ 16 = wr.tracksProcessed + 1 :=
    Nat.mod_eq_of_lt (by omega)
  rw [smfwriter.writer.Write_EndOfTrack_eq wr herr hne, htyp, hmod]
  refine ⟨rfl, rfl, ?_, rfl, rfl⟩
  intro rw h
  cases hnr : wr.noRunningStatus with
  | true =>
    simp only [hnr, if_true, hrs hnr] at h
    exact absurd h (by simp)
  | false =>
    simp only [hnr, Bool.false_eq_true, if_false, Option.some.injEq] at h
    rw [← h]; rfl

/-- C17, on `exampleRunningStatus` (header written, body `00 92 41 5A`, pending delta 2, one
track to write): `Write(EndOfTrack)` emits the chunk `MTrk 00 00 00 08` with the body
`00 92 41 5A 02 FF 2F 00` after the 14 header bytes; afterwards the body is empty, the
tracker is reset, the delta is 0 and `tracksProcessed` is 1. -/
theorem smfwriter.write_endOfTrack_flushes_witness :
    (smfwriter.exampleRunningStatus.error = none ∧
      smfwriter.exampleRunningStatus.tracksProcessed
        < smfwriter.exampleRunningStatus.header.NumTracks ∧
      smfwriter.exampleRunningStatus.track.typ = smf.MTrk) ∧
    (smfwriter.exampleRunningStatus.Write .EndOfTrack).2.output
      = [0x4D, 0x54, 0x68, 0x64, 0, 0, 0, 6, 0, 0, 0, 1, 0x03, 0xC0,
         0x4D, 0x54, 0x72, 0x6B, 0, 0, 0, 8, 0x00, 0x92, 65, 90, 0x02, 0xFF, 0x2F, 0x00] ∧
    ((smfwriter.exampleRunningStatus.Write .EndOfTrack).2.output
      = smfwriter.exampleRunningStatus.output
          ++ (if smfwriter.exampleRunningStatus.headerWritten then []
              else smfwriter.exampleRunningStatus.writeHeader)
          ++ (smf.MTrk
              ++ smf.be32 (smfwriter.exampleRunningStatus.track.data
                  ++ (vlq.Encode smfwriter.exampleRunningStatus.deltatime
                      ++ [0xFF, 0x2F, 0x00])).length
              ++ (smfwriter.exampleRunningStatus.track.data
                  ++ (vlq.Encode smfwriter.exampleRunningStatus.deltatime
                      ++ [0xFF, 0x2F, 0x00]))) ∧
    (smfwriter.exampleRunningStatus.Write .EndOfTrack).2.track.data = [] ∧
    (∀ rw, (smfwriter.exampleRunningStatus.Write .EndOfTrack).2.runningWriter = some rw →
      rw.status = 0) ∧
    (smfwriter.exampleRunningStatus.Write .EndOfTrack).2.deltatime = 0 ∧
    (smfwriter.exampleRunningStatus.Write .EndOfTrack).2.tracksProcessed
      = smfwriter.exampleRunningStatus.tracksProcessed + 1) :=
  ⟨by decide, by decide,
    smfwriter.write_endOfTrack_flushes smfwriter.exampleRunningStatus (by decide) (by decide)
      (by decide) (by decide) (by decide)⟩

/-- C18: for a `MetricTicks` time format whose `Ticks4th` value is `t`, `writeTimeFormat`
writes two bytes `hi lo` with `hi < 128` (bit 15 of the division is 0), and the 16-bit
big-endian value `hi * 256 + lo` is `t` when `t ≤ 32767` and 32767 otherwise. -/
theorem smfwriter.writeTimeFormat_metricTicks (w : smfwriter.writer) (n : Nat)
    (h : w.header.TimeFormat = .MetricTicks n) :
    ∃ hi lo, w.writeTimeFormat = [hi, lo] ∧ hi < 128 ∧ lo < 256 ∧
      hi * 256 + lo = (if smf.Ticks4th n ≤ 32767 then smf.Ticks4th n else 32767) := by
  refine ⟨(if smf.Ticks4th n > 32767 then 32767 else smf.Ticks4th n) % 2 ^ 16 / 256 % 256,
    (if smf.Ticks4th n > 32767 then 32767 else smf.Ticks4th n) % 2 ^ 16 % 256, ?_, ?_, ?_, ?_⟩
  · simp [smfwriter.writer.writeTimeFormat, h, smf.be16]
  · split <;> omega
  · omega
  · split <;> split <;> omega

/-- C18, at the default resolution (`MetricTicks(0)`, whose `Ticks4th` is 960: bytes `03 C0`)
and at a resolution above the limit (40000, clamped to 32767: bytes `7F FF`). -/
theorem smfwriter.writeTimeFormat_metricTicks_witness :
    (smfwriter.New []).writeTimeFormat = [0x03, 0xC0] ∧
    (smfwriter.New [smfwriter.TimeFormat (.MetricTicks 40000)]).writeTimeFormat = [0x7F, 0xFF] ∧
    (∃ hi lo, (smfwriter.New [smfwriter.TimeFormat (.MetricTicks 40000)]).writeTimeFormat
        = [hi, lo] ∧ hi < 128 ∧ lo < 256 ∧
      hi * 256 + lo = (if smf.Ticks4th 40000 ≤ 32767 then smf.Ticks4th 40000 else 32767)) :=
  ⟨by decide, by decide,
    smfwriter.writeTimeFormat_metricTicks
      (smfwriter.New [smfwriter.TimeFormat (.MetricTicks 40000)]) 40000 (by decide)⟩

/-- C19: for a `TimeCode` time format with `fps` in {24, 25, 29, 30} and a sub-frame count
`s` in 0..255, `writeTimeFormat` writes exactly the two bytes `[256 - fps, s]`; the first
byte has its top bit set (bit 15 of the division) and is `-fps` as a signed byte. -/
theorem smfwriter.writeTimeFormat_timeCode (w : smfwriter.writer) (fps s : Nat)
    (h : w.header.TimeFormat = .TimeCode fps s)
    (hfps : fps = 24 ∨ fps = 25 ∨ fps = 29 ∨ fps = 30) (_hs : s ≤ 255) :
    w.writeTimeFormat = [256 - fps, s] ∧ 128 ≤ 256 - fps ∧
      toInt8 ((256 - fps : Nat) : Int) = -(fps : Int) := by
  rcases hfps with rfl | rfl | rfl | rfl <;>
    simp [smfwriter.writer.writeTimeFormat, h, toInt8, toByte]

/-- C19, at 30 frames per second and 80 sub-frames: the division bytes are `E2 50`. -/
theorem smfwriter.writeTimeFormat_timeCode_witness :
    (smfwriter.New [smfwriter.TimeFormat (.TimeCode 30 80)]).writeTimeFormat = [0xE2, 0x50] ∧
    ((smfwriter.New [smfwriter.TimeFormat (.TimeCode 30 80)]).writeTimeFormat = [256 - 30, 80] ∧
      128 ≤ 256 - 30 ∧ toInt8 ((256 - 30 : Nat) : Int) = -((30 : Nat) : Int)) :=
  ⟨by decide,
    smfwriter.writeTimeFormat_timeCode (smfwriter.New [smfwriter.TimeFormat (.TimeCode 30 80)])
      30 80 (by decide) (by decide) (by decide)⟩

/-- C20: for a number of sharps or flats `sf` in -7..7 and a mode in {0, 1},
`keyFromSharpsOrFlats sf mode` is `(7 * sf - 3 * mode) mod 12`, taken in 0..11. -/
theorem meta.keyFromSharpsOrFlats_formula (sf : Int) (mode : Nat)
    (hsf : -7 ≤ sf ∧ sf ≤ 7) (hmode : mode = 0 ∨ mode = 1) :
    (meta.keyFromSharpsOrFlats sf mode : Int) = (7 * sf - 3 * mode) % 12 ∧
      meta.keyFromSharpsOrFlats sf mode ≤ 11 := by
  have h8 : toInt8 (sf * 7) = sf * 7 := by unfold toInt8; omega
  rcases hmode with rfl | rfl
  · obtain ⟨_, _, _, h4⟩ := meta.clampToOctave_spec (sf * 7)
    have hk : meta.keyFromSharpsOrFlats sf 0 = (sf * 7 % 12 % 256).toNat := by
      simp [meta.keyFromSharpsOrFlats, meta.minorMode, toByte, h8, h4]
    rw [hk]
    obtain ⟨hlo, hhi⟩ := hsf
    interval_cases sf <;> decide
  · obtain ⟨_, _, _, h4⟩ := meta.clampToOctave_spec (sf * 7 - 3)
    have hk : meta.keyFromSharpsOrFlats sf 1 = ((sf * 7 - 3) % 12 % 256).toNat := by
      simp [meta.keyFromSharpsOrFlats, meta.minorMode, toByte, h8, h4]
    rw [hk]
    obtain ⟨hlo, hhi⟩ := hsf
    interval_cases sf <;> decide

/-- C20, at two sharps in minor (B minor): the key is `(14 - 3) mod 12 = 11`. -/
theorem meta.keyFromSharpsOrFlats_formula_witness :
    ((-7 : Int) ≤ 2 ∧ (2 : Int) ≤ 7) ∧ ((1 : Nat) = 0 ∨ (1 : Nat) = 1) ∧
    ((meta.keyFromSharpsOrFlats 2 1 : Int) = (7 * 2 - 3 * ((1 : Nat) : Int)) % 12 ∧
      meta.keyFromSharpsOrFlats 2 1 ≤ 11) :=
  ⟨by decide, by decide, meta.keyFromSharpsOrFlats_formula 2 1 (by decide) (by decide)⟩

/-- C21 (amended): decoding the key-signature data `02 FD 01` (`sf = -3`, `mi = 1`: three
flats, minor) with `KeySignature.readFrom` yields
`KeySignature{Key: 0, IsMajor: false, Num: 3, IsFlat: true}` and consumes the three bytes;
the meta reader of type `byteKeySignature` returns the same message. The key is
`(7 * (-3) - 3) mod 12 = 0`. -/
theorem meta.keySignature_three_flats_minor :
    meta.KeySignature.readFrom [0x02, 0xFD, 0x01]
      = (.ok (.KeySignature 0 false 3 true), []) ∧
    meta.ReadFrom meta.byteKeySignature [0x02, 0xFD, 0x01]
      = ((some (.KeySignature 0 false 3 true), none), []) := by
  rw [meta.KeySignature.readFrom_two, meta.ReadFrom_KeySignature,
    meta.keyFromSharpsOrFlats_eq]
  exact ⟨rfl, rfl⟩

/-- C21 (counterexample): decoding the key-signature data `02 FD 01` with
`KeySignature.readFrom` does not yield `KeySignature{Key: 11, IsMajor: false, Num: 3,
IsFlat: true}`: the message that comes out has the key 0. -/
theorem meta.keySignature_three_flats_minor_key_is_not_11 :
    (meta.KeySignature.readFrom [0x02, 0xFD, 0x01]).1
      = .ok (.KeySignature 0 false 3 true) ∧
    (meta.KeySignature.readFrom [0x02, 0xFD, 0x01]).1
      ≠ .ok (.KeySignature 11 false 3 true) := by
  rw [meta.KeySignature.readFrom_two, meta.keyFromSharpsOrFlats_eq]
  refine ⟨rfl, ?_⟩
  intro h
  injection h with h
  injection h with h1
  exact absurd h1 (by decide)

/-- C22 (amended): the bytes of `KeySignature{Key, IsMajor, Num, IsFlat}.Raw()` after
`FF 59`, parsed by the meta reader of type `byteKeySignature`, give back the same message
exactly when `Key` is the key that `keyFromSharpsOrFlats` derives from the encoded number of
sharps or flats and the mode, and `Num` is at most 127 with sharps (`IsFlat` false), or
between 1 and 128 with flats (`IsFlat` true). -/
theorem meta.keySignature_roundtrip_iff (Key Num : Nat) (IsMajor IsFlat : Bool) :
    meta.ReadFrom meta.byteKeySignature
        ((Message.KeySignature Key IsMajor Num IsFlat).Raw.drop 2)
      = ((some (.KeySignature Key IsMajor Num IsFlat), none), []) ↔
    (Key = meta.keyFromSharpsOrFlats (meta.sharpsOrFlatsOf Num IsFlat) (meta.modeByte IsMajor) ∧
      (if IsFlat then 1 ≤ Num ∧ Num ≤ 128 else Num ≤ 127)) := by
  rw [Message.Raw_KeySignature]
  simp only [List.drop]
  rw [meta.ReadFrom_KeySignature]
  simp only [Prod.mk.injEq, Option.some.injEq, Message.KeySignature.injEq, and_true]
  have hmode : (meta.modeByte IsMajor == meta.majorMode) = IsMajor := by
    cases IsMajor <;> rfl
  rw [hmode]
  by_cases hN : Num < 256
  · obtain ⟨h1, h2⟩ := meta.sharpsOrFlatsOf_decoded Num hN IsFlat
    rw [h1]
    constructor
    · rintro ⟨hk, _, hn, hf⟩
      exact ⟨hk.symm, h2.1 ⟨hn, hf⟩⟩
    · rintro ⟨hk, hc⟩
      obtain ⟨hn, hf⟩ := h2.2 hc
      exact ⟨hk.symm, rfl, hn, hf⟩
  · constructor
    · rintro ⟨_, _, hn, _⟩
      have := toByte_lt (if toInt8 (toByte (meta.sharpsOrFlatsOf Num IsFlat)) < 0
        then toInt8 (toInt8 (toByte (meta.sharpsOrFlatsOf Num IsFlat)) * (-1))
        else toInt8 (toByte (meta.sharpsOrFlatsOf Num IsFlat)))
      omega
    · rintro ⟨_, hc⟩
      cases IsFlat <;> simp at hc <;> omega

/-- C22 (counterexample): the key signature `KeySignature{Key: 5, IsMajor: true, Num: 0,
IsFlat: false}` has the raw bytes `FF 59 02 00 00`, and parsing the bytes after `FF 59`
gives `KeySignature{Key: 0, IsMajor: true, Num: 0, IsFlat: false}`, not the message that was
encoded: the field `Key` is not part of the encoding. -/
theorem meta.keySignature_roundtrip_loses_key :
    (Message.KeySignature 5 true 0 false).Raw = [0xFF, 0x59, 0x02, 0x00, 0x00] ∧
    meta.ReadFrom meta.byteKeySignature ((Message.KeySignature 5 true 0 false).Raw.drop 2)
      = ((some (.KeySignature 0 true 0 false), none), []) ∧
    meta.ReadFrom meta.byteKeySignature ((Message.KeySignature 5 true 0 false).Raw.drop 2)
      ≠ ((some (.KeySignature 5 true 0 false), none), []) := by
  have h : meta.ReadFrom meta.byteKeySignature
      ((Message.KeySignature 5 true 0 false).Raw.drop 2)
      = ((some (.KeySignature 0 true 0 false), none), []) := by
    rw [Message.Raw_KeySignature]
    simp only [List.drop]
    rw [meta.ReadFrom_KeySignature, meta.keyFromSharpsOrFlats_eq]
    decide
  refine ⟨by decide, h, ?_⟩
  rw [h]
  decide

/-- C23: when the declared VLQ length `L` that `KeySignature.readFrom` reads differs from 2,
it returns the unexpected-message-length error and no message, with the source right behind
the length (no data byte read); when the declared length is 2 and two data bytes follow, it
returns a `KeySignature` message with a `nil` error and has consumed the two data bytes. -/
theorem meta.keySignature_readFrom_length (rd rd2 : Input) (L : Nat)
    (hlen : lib.ReadVarLength rd = (.ok L, rd2)) :
    (L ≠ 2 → meta.KeySignature.readFrom rd = (.error .UnexpectedMessageLengthError, rd2)) ∧
    (L = 2 → ∀ b mode rest, rd2 = b :: mode :: rest →
      ∃ Key IsMajor Num IsFlat,
        meta.KeySignature.readFrom rd = (.ok (.KeySignature Key IsMajor Num IsFlat), rest)) := by
  constructor
  · intro hne
    unfold meta.KeySignature.readFrom
    rw [hlen]
    simp [hne]
  · intro h2 b mode rest hrd
    subst h2
    subst hrd
    have h : meta.KeySignature.readFrom rd
        = (.ok (.KeySignature (meta.keyFromSharpsOrFlats (toInt8 b) mode)
            (mode == meta.majorMode)
            (toByte (if toInt8 b < 0 then toInt8 (toInt8 b * (-1)) else toInt8 b))
            (decide (toInt8 b < 0))), rest) := by
      unfold meta.KeySignature.readFrom
      rw [hlen]
      rfl
    exact ⟨_, _, _, _, h⟩

/-- C23, on the data `03 01 02 03` (declared length 3: the error, with `01 02 03` unread) and
on `02 FD 01 7F` (declared length 2: a key signature, with `7F` left). -/
theorem meta.keySignature_readFrom_length_witness :
    meta.KeySignature.readFrom [0x03, 0x01, 0x02, 0x03]
      = (.error .UnexpectedMessageLengthError, [0x01, 0x02, 0x03]) ∧
    ∃ Key IsMajor Num IsFlat,
      meta.KeySignature.readFrom [0x02, 0xFD, 0x01, 0x7F]
        = (.ok (.KeySignature Key IsMajor Num IsFlat), [0x7F]) :=
  ⟨(meta.keySignature_readFrom_length [0x03, 0x01, 0x02, 0x03] [0x01, 0x02, 0x03] 3 rfl).1
      (by decide),
    (meta.keySignature_readFrom_length [0x02, 0xFD, 0x01, 0x7F] [0xFD, 0x01, 0x7F] 2 rfl).2
      rfl 0xFD 0x01 [0x7F] rfl⟩

/-- C24 (code_bug): `SongPositionPointer(1).Raw()` is `F2 00 01`, the MSB `00` before the
LSB `01`, and not the bytes `[0xF2, 1 & 0x7F, (1 >> 7) & 0x7F] = F2 01 00` of the LSB-first
order. -/
theorem syscommon.songPositionPointer_raw_not_lsb_first :
    syscommon.SongPositionPointer.Raw 1 = [0xF2, 0x00, 0x01] ∧
    syscommon.SongPositionPointer.Raw 1 ≠ [0xF2, 1 &&& 0x7F, (1 >>> 7) &&& 0x7F] := by
  decide

/-- C25: for every `n` in 0..16383, `SongPositionPointer.readFrom` on the two data bytes of
`SongPositionPointer(n).Raw()` (the bytes after the status `0xF2`), followed by any `rest`,
returns `SongPositionPointer(n)` with a `nil` error and leaves `rest`. -/
theorem syscommon.songPositionPointer_roundtrip (n : Nat) (rest : List Nat) (hn : n ≤ 16383) :
    syscommon.SongPositionPointer.readFrom ((syscommon.SongPositionPointer.Raw n).tail ++ rest)
      = (.ok n, rest) := by
  rw [syscommon.SongPositionPointer.Raw_eq]
  have h : syscommon.SongPositionPointer.readFrom ([n / 128 % 128, n % 128] ++ rest)
      = (.ok (midilib.ParsePitchWheelVals (n % 128) (n / 128 % 128)).2, rest) := by
    simp [syscommon.SongPositionPointer.readFrom, lib.ReadNBytes]
  simp only [List.tail_cons]
  rw [h, midilib.ParsePitchWheelVals_abs]
  have : n / 128 % 128 % 128 * 128 + n % 128 % 128 = n := by omega
  rw [this]

/-- C25, at `n = 300` with no byte behind the message: the data bytes `02 2C` are read back
as 300. -/
theorem syscommon.songPositionPointer_roundtrip_witness :
    300 ≤ 16383 ∧
    syscommon.SongPositionPointer.readFrom ((syscommon.SongPositionPointer.Raw 300).tail ++ [])
      = (.ok 300, []) :=
  ⟨by decide, syscommon.songPositionPointer_roundtrip 300 [] (by decide)⟩

/-- C26 (code_bug): the meta reader made by `NewReader` on the input `00 00` with the type
`byteEndOfTrack`. The first `Read` returns `EndOfTrack` and consumes one byte; the flag
`done` is still false afterwards, and the second `Read` on the same reader does not return
`(nil, io.EOF)`: it parses again, returns `EndOfTrack` with a `nil` error, and consumes the
second byte. -/
theorem meta.second_Read_parses_again :
    (meta.NewReader meta.exampleTwoEnds meta.byteEndOfTrack).Read
      = ((some .EndOfTrack, none),
          { input := [0x00], typ := meta.byteEndOfTrack, done := false }) ∧
    (meta.NewReader meta.exampleTwoEnds meta.byteEndOfTrack).Read.2.Read
      = ((some .EndOfTrack, none),
          { input := [], typ := meta.byteEndOfTrack, done := false }) ∧
    (meta.NewReader meta.exampleTwoEnds meta.byteEndOfTrack).Read.2.Read.1
      ≠ (none, some .EOF) := by
  decide

/-- C27: for every meta type byte `t` for which the dispatch table holds no message (the
types that are absent from `metaMessages`, and `byteSequencerSpecificInfo`, which it maps to
`nil`), the `Read` of the meta reader made by `NewReader(input, t)` parses the event with
`Undefined{Typ: t}`: when the length and the data can be read from the input, it returns
`Undefined{Typ: t, Data: data}` with a `nil` error; every message it returns is an
`Undefined` with `Typ = t`; and when it returns an error, that is the error of reading the
length and the data, whatever `t` is. -/
theorem meta.unknown_type_reads_as_Undefined (t : Nat) (input : Input)
    (ht : meta.metaMessages t = none) :
    (∀ data rest, lib.ReadText input = (.ok data, rest) →
      (meta.NewReader input t).Read
        = ((some (.Undefined t data), none), { input := rest, typ := t, done := false })) ∧
    (∀ m, (meta.NewReader input t).Read.1.1 = some m → ∃ data, m = .Undefined t data) ∧
    (∀ e, (meta.NewReader input t).Read.1.2 = some e →
      ∃ rest, lib.ReadText input = (.error e, rest)) := by
  have hread : (meta.NewReader input t).Read
      = match meta.data_readFrom (.Undefined t) input with
        | (.error e, rest) => ((none, some e), { input := rest, typ := t, done := false })
        | (.ok msg, rest) => ((some msg, none), { input := rest, typ := t, done := false }) := by
    simp [meta.reader.Read, meta.NewReader, ht, meta.readFrom]
  rw [hread]
  unfold meta.data_readFrom
  refine ⟨?_, ?_, ?_⟩
  · intro data rest h
    rw [h]
  · intro m h
    rcases hr : lib.ReadText input with ⟨res, rest⟩
    rw [hr] at h
    cases res with
    | error e => simp at h
    | ok data =>
      simp at h
      exact ⟨data, h.symm⟩
  · intro e h
    rcases hr : lib.ReadText input with ⟨res, rest⟩
    rw [hr] at h
    cases res with
    | error e2 =>
      simp at h
      exact ⟨rest, by rw [h]⟩
    | ok data => simp at h

/-- C27, at the type byte `0x60`, which is not in the dispatch table, on the input
`02 0A 0B 0C`: `Read` returns `Undefined{Typ: 0x60, Data: 0A 0B}` and leaves `0C`. -/
theorem meta.unknown_type_reads_as_Undefined_witness :
    meta.metaMessages 0x60 = none ∧
    (meta.NewReader [0x02, 0x0A, 0x0B, 0x0C] 0x60).Read
      = ((some (.Undefined 0x60 [0x0A, 0x0B]), none),
          { input := [0x0C], typ := 0x60, done := false }) :=
  ⟨by decide,
    (meta.unknown_type_reads_as_Undefined 0x60 [0x02, 0x0A, 0x0B, 0x0C] (by decide)).1
      [0x0A, 0x0B] [0x0C] rfl⟩

/-- C28 (code_bug): whatever the reader and the track numbers asked for, a call of
`SMF1.ReadFrom` that returns gives back no tracks and an error that is not `nil`: the read
loop is left only when `rd.Read()` fails, the end of the source included, and then by
`return nil, err`. -/
theorem smftrack.readFrom_returns_no_tracks {σ : Type} (rd : smf.Reader σ) (fuel : Nat)
    (s : σ) (tracknos : List Nat) (tracks : List smftrack.Track) (err : Option Err)
    (h : smftrack.SMF1.ReadFrom rd fuel s tracknos = some (.ret tracks err)) :
    tracks = [] ∧ err ≠ none := by
  unfold smftrack.SMF1.ReadFrom at h
  split at h
  · simp only [Option.some.injEq, smftrack.Result.ret.injEq] at h
    exact ⟨h.1.symm, by rw [← h.2]; simp⟩
  · split at h
    · simp only [Option.some.injEq, smftrack.Result.ret.injEq] at h
      exact ⟨h.1.symm, by rw [← h.2]; simp⟩
    · exact smftrack.SMF1.ReadFrom.loop_returns_error rd _ _ fuel _ _ _ _ _ _ _ h

/-- C28, on the well-formed format-1 file `exampleTwoTracks 0 2 0 0` (two tracks, each a
note-on and `EndOfTrack`), read with no track numbers: `ReadFrom` reads the four messages,
then the `Read` at the end of the source returns `io.EOF`, and `ReadFrom` returns `nil`
tracks with that error instead of the two tracks. -/
theorem smftrack.readFrom_returns_no_tracks_witness :
    smftrack.SMF1.ReadFrom (smfreader.asReader 3) 5
        (smfreader.New (smfreader.exampleTwoTracks 0 2 0 0)) []
      = some (.ret [] (some .EOF)) ∧
    (([] : List smftrack.Track) = [] ∧ (some Err.EOF) ≠ none) :=
  ⟨by decide,
    smftrack.readFrom_returns_no_tracks (smfreader.asReader 3) 5
      (smfreader.New (smfreader.exampleTwoTracks 0 2 0 0)) [] [] (some .EOF) (by decide)⟩

/-- C29 (code_bug): a handler made by `New`, after `ReadSMF` on the one-track file
`exampleOneTrack`, is `exampleAfterReadSMF`, whose `pos` is not `nil`. `ReadLive` on that
handler with a live source that holds one note-on calls `Each` and the `NoteOn` callback with
that `*Pos` (track 1, delta 0, absolute time 0), not with `nil`; on a handler fresh from
`New` the same `ReadLive` passes `nil`. -/
theorem handler.readLive_after_readSMF_passes_pos :
    (handler.New.ReadSMF 3 3 smfreader.exampleOneTrack).map (fun r => r.2)
      = some handler.exampleAfterReadSMF ∧
    handler.Handler.ReadLive handler.listReader 2 handler.exampleAfterReadSMF
        [channel.NoteOn 2 65 90]
      = some ((none, [{ pos := some { Track := 1, Delta := 0, AbsTime := 0 },
                        evt := some (channel.NoteOn 2 65 90) }]),
          handler.exampleAfterReadSMF) ∧
    handler.Handler.ReadLive handler.listReader 2 handler.New [channel.NoteOn 2 65 90]
      = some ((none, [{ pos := none, evt := some (channel.NoteOn 2 65 90) }]),
          handler.New) := by
  decide

/-- C31: for a channel `ch` in 0..15 and a controller and a value in 0..127, the raw bytes of
`Channel(ch).ControlChange(ctl, val)` are `[0xB0 | ch, ctl, val]`; the status byte is
`0xB0 + ch`, with the opcode `0xB` in the high nibble and the channel in the low nibble. -/
theorem channel.controlChange_raw (ch ctl val : Nat) (hch : ch ≤ 15) (_hctl : ctl ≤ 127)
    (_hval : val ≤ 127) :
    (channel.ControlChange ch ctl val).Raw = [0xB0 ||| ch, ctl, val] ∧
    0xB0 ||| ch = 0xB0 + ch ∧ (0xB0 ||| ch) / 16 = 0xB ∧ (0xB0 ||| ch) % 16 = ch := by
  have h : (channel.ControlChange ch ctl val).Raw = [(11 <<< 4) ||| ch, ctl, val] := rfl
  rw [h]
  interval_cases ch <;> exact ⟨rfl, by decide, by decide, by decide⟩

/-- C31, at channel 2, controller 7 (volume), value 100: the bytes are `B2 07 64`. -/
theorem channel.controlChange_raw_witness :
    (channel.ControlChange 2 7 100).Raw = [0xB0 ||| 2, 7, 100] ∧
    0xB0 ||| 2 = 0xB0 + 2 ∧ (0xB0 ||| 2) / 16 = 0xB ∧ (0xB0 ||| 2) % 16 = 2 :=
  channel.controlChange_raw 2 7 100 (by decide) (by decide) (by decide)

/-- C32 (code_bug): the reader expects a chunk, and its input is the header of a chunk of a
type other than "MTrk" that declares `L` body bytes, followed by fewer than `L` bytes, with
fail-on-unknown-chunks off. `Read` returns `io.EOF` and leaves the reader expecting a chunk
at the end of the input; this is the error that `Read` also returns at the clean end of the
file, where the input ends at a chunk boundary. -/
theorem smfreader.cut_unknown_chunk_reads_as_EOF (p : smfreader.reader) (typ body : List Nat)
    (L fuel : Nat) (hstate : p.state = .stateExpectChunk) (htyp : typ.length = 4)
    (hne : typ ≠ smf.MTrk) (hL : L < 2 ^ 32) (hcut : body.length < L)
    (hfail : p.failOnUnknownChunks = false) (hin : p.input = typ ++ smf.be32 L ++ body) :
    p.Read (fuel + 1) = some (.ret none (some .EOF), { p with input := [] }) ∧
    smfreader.reader.Read (fuel + 1) { p with input := [] }
      = some (.ret none (some .EOF), { p with input := [], state := .stateDone }) := by
  have h := smfreader.chunkHeader.readFrom_append typ body L htyp hL
  constructor
  · have h2 : p.readChunk = (some .EOF, { p with input := [] }) := by
      unfold smfreader.reader.readChunk
      rw [hin, h]
      have hc : ¬ (L ≤ body.length) := by omega
      simp [hne, hfail, smfreader.copyNDiscard, hc]
    simp [smfreader.reader.Read, hstate, h2]
  · simp [smfreader.reader.Read, hstate, smfreader.reader.readChunk,
      smfreader.chunkHeader.readFrom_nil]

/-- C32, on the reader of `exampleCutUnknownChunk` after its header: the chunk "XXXX"
declares 5 bytes and 2 are there; `Read` returns `io.EOF`, as it does at the clean end. -/
theorem smfreader.cut_unknown_chunk_reads_as_EOF_witness :
    smfreader.reader.Read (1 + 1) (smfreader.New smfreader.exampleCutUnknownChunk).readMThd.2
      = some (.ret none (some .EOF),
          { (smfreader.New smfreader.exampleCutUnknownChunk).readMThd.2 with input := [] }) ∧
    smfreader.reader.Read (1 + 1)
        { (smfreader.New smfreader.exampleCutUnknownChunk).readMThd.2 with input := [] }
      = some (.ret none (some .EOF),
          { (smfreader.New smfreader.exampleCutUnknownChunk).readMThd.2 with
              input := [], state := .stateDone }) :=
  smfreader.cut_unknown_chunk_reads_as_EOF
    (smfreader.New smfreader.exampleCutUnknownChunk).readMThd.2 [0x58, 0x58, 0x58, 0x58] [1, 2]
    5 1 (by decide) (by decide) (by decide) (by decide) (by decide) (by decide) (by decide)

/-- C33: the reader is inside a track that is not beyond the declared tracks, and its input
is a delta followed by the canary `0xFF` and nothing else, so that the meta type byte cannot
be read. `Read` returns `(nil, nil)`: no message and no error; the input is used up. -/
theorem smfreader.read_cut_after_meta_canary (p : smfreader.reader) (d fuel : Nat)
    (hstate : p.state = .stateExpectTrackEvent)
    (htracks : p.processedTracks ≠ p.mthd.numTracks)
    (hin : lib.ReadVarLength p.input = (.ok d, [0xFF])) :
    p.Read (fuel + 1)
      = some (.ret none none,
          { p with input := [], deltatime := d, absTrackTime := (p.absTrackTime + d) % 2 ^ 64,
                   runningStatus := (p.runningStatus.Read 0xFF).2 }) := by
  have hrs : (p.runningStatus.Read 0xFF).1.1 = 0 := by
    simp [runningstatus.Reader.Read]
  simp [smfreader.reader.Read, hstate, smfreader.reader.readEvent, htracks, hin,
    lib.ReadByte, smfreader.reader._readEvent, hrs]

/-- C33, on the reader `exampleCutMeta`, whose input is `00 FF`: `Read` returns
`(nil, nil)`. -/
theorem smfreader.read_cut_after_meta_canary_witness :
    smfreader.exampleCutMeta.Read (0 + 1)
      = some (.ret none none,
          { smfreader.exampleCutMeta with
              input := [], deltatime := 0,
              absTrackTime := (smfreader.exampleCutMeta.absTrackTime + 0) % 2 ^ 64,
              runningStatus := (smfreader.exampleCutMeta.runningStatus.Read 0xFF).2 }) :=
  smfreader.read_cut_after_meta_canary smfreader.exampleCutMeta 0 0 (by decide) (by decide) rfl

/-- C34 (code_bug): on the input `exampleNoHeader`, whose first chunk is not "MThd", the first
`Read` returns `ErrExpectedMthd`, and so does `ReadHeader`. The reader is then still in the
state that expects the header, with the header marked as read and no error cached; a `Read`
issued on it does not return, however many turns of its loop are run: every turn calls
`readMThd`, which returns the cached `nil`. -/
theorem smfreader.read_after_wrong_header_never_returns (fuel : Nat) :
    (smfreader.New smfreader.exampleNoHeader).Read 1
      = some (.ret none (some .ErrExpectedMthd),
          (smfreader.New smfreader.exampleNoHeader).readMThd.2) ∧
    (smfreader.New smfreader.exampleNoHeader).ReadHeader
      = ((smfreader.mThdData.zero, some .ErrExpectedMthd),
          (smfreader.New smfreader.exampleNoHeader).readMThd.2) ∧
    (smfreader.New smfreader.exampleNoHeader).readMThd.2.Read fuel = none :=
  ⟨by decide, by decide,
    smfreader.reader.Read_stuck _ (by decide) (by decide) (by decide) fuel⟩

/-- C35 (code_bug): `SMF1.Remove` on the two-track file `exampleTwoTracks 0 2 0 0`. With the
track number 5, which no track has, it returns the `ErrFinished` of the writer, as soon as
the first track is written. With the track numbers 5, 6, 7, none of which occurs, the
writer never finishes: when the reader signals the end with `smfreader.ErrFinished` the loop
is left by `break` and the function returns `nil`; with the reader of reader.go, whose end
is `io.EOF`, it returns that `io.EOF`. In no case is the error the one that names the
tracks that were not found. -/
theorem smftrack.remove_drops_not_found_error :
    (smftrack.SMF1.Remove (smfreader.asReader 3) 10
        (smfreader.New (smfreader.exampleTwoTracks 0 2 0 0)) [5]).map (fun r => r.1)
      = some (.ret (some .ErrFinished)) ∧
    (smftrack.SMF1.Remove (smfreader.asReaderFinished 3) 10
        (smfreader.New (smfreader.exampleTwoTracks 0 2 0 0)) [5, 6, 7]).map (fun r => r.1)
      = some (.ret none) ∧
    (smftrack.SMF1.Remove (smfreader.asReader 3) 10
        (smfreader.New (smfreader.exampleTwoTracks 0 2 0 0)) [5, 6, 7]).map (fun r => r.1)
      = some (.ret (some .EOF)) := by
  decide

/-- C36 (code_bug): the number of tracks in the header that `SMF1.Remove` writes for the
two-track file `exampleTwoTracks 0 2 0 0`, with the number of track chunks written. With
the track number 5, which no track has, the header says 1 (bytes `00 01`) and one track is
written. With the track numbers 1, 1 (a duplicate) the header says 0 and no track is
written. With the track numbers 5, 6, 7 the `uint16` difference wraps: the header says 65535
(bytes `FF FF`) and two tracks are written. -/
theorem smftrack.remove_header_numTracks :
    (smftrack.SMF1.Remove (smfreader.asReader 3) 10
        (smfreader.New (smfreader.exampleTwoTracks 0 2 0 0)) [5]).map
        (fun r => r.2.map fun w => (w.output.take 14, w.header.NumTracks, w.tracksProcessed))
      = some (some ([0x4D, 0x54, 0x68, 0x64, 0, 0, 0, 6, 0, 1, 0x00, 0x01, 0, 96], 1, 1)) ∧
    (smftrack.SMF1.Remove (smfreader.asReader 3) 10
        (smfreader.New (smfreader.exampleTwoTracks 0 2 0 0)) [1, 1]).map
        (fun r => r.2.map fun w => (w.output.take 14, w.header.NumTracks, w.tracksProcessed))
      = some (some ([0x4D, 0x54, 0x68, 0x64, 0, 0, 0, 6, 0, 1, 0x00, 0x00, 0, 96], 0, 0)) ∧
    (smftrack.SMF1.Remove (smfreader.asReader 3) 10
        (smfreader.New (smfreader.exampleTwoTracks 0 2 0 0)) [5, 6, 7]).map
        (fun r => r.2.map fun w => (w.output.take 14, w.header.NumTracks, w.tracksProcessed))
      = some (some ([0x4D, 0x54, 0x68, 0x64, 0, 0, 0, 6, 0, 1, 0xFF, 0xFF, 0, 96], 65535, 2)) := by
  decide

/-- C37 (amended): a writer without sticky error that has processed fewer than `NumTracks`
tracks. `Write(EndOfTrack)` writes the track chunk to the output and counts the track; it
returns a `nil` error when tracks are left after it, and it returns `ErrFinished` when it
completes the last of the `NumTracks` tracks. The error is stored, so that a `Write` issued
after that one returns `ErrFinished` as well, with 0 bytes and nothing written. -/
theorem smfwriter.write_last_endOfTrack_returns_ErrFinished (wr : smfwriter.writer)
    (m : Message) (herr : wr.error = none) (hlt : wr.tracksProcessed < wr.header.NumTracks)
    (hn : wr.header.NumTracks < 2 ^ 16) :
    (wr.Write .EndOfTrack).2.tracksProcessed = wr.tracksProcessed + 1 ∧
    (wr.Write .EndOfTrack).2.output
      = wr.output ++ (if wr.headerWritten then [] else wr.writeHeader)
          ++ (wr.track.typ
              ++ smf.be32 (wr.track.data ++ (vlq.Encode wr.deltatime ++ [0xFF, 0x2F, 0x00])).length
              ++ (wr.track.data ++ (vlq.Encode wr.deltatime ++ [0xFF, 0x2F, 0x00]))) ∧
    (wr.tracksProcessed + 1 < wr.header.NumTracks → (wr.Write .EndOfTrack).1.2 = none) ∧
    (wr.tracksProcessed + 1 = wr.header.NumTracks →
      (wr.Write .EndOfTrack).1.2 = some .ErrFinished ∧
      (wr.Write .EndOfTrack).2.Write m = ((0, some .ErrFinished), (wr.Write .EndOfTrack).2)) := by
  have hne : wr.header.NumTracks ≠ wr.tracksProcessed := by omega
  have hmod : (wr.tracksProcessed + 1) % 2 ^ 16 = wr.tracksProcessed + 1 :=
    Nat.mod_eq_of_lt (by omega)
  rw [smfwriter.writer.Write_EndOfTrack_eq wr herr hne, hmod]
  refine ⟨rfl, rfl, ?_, ?_⟩
  · intro h
    have : ¬ (wr.header.NumTracks = wr.tracksProcessed + 1) := by omega
    simp [this]
  · intro h
    refine ⟨by simp [h], ?_⟩
    exact smfwriter.writer.Write_sticky _ m .ErrFinished rfl (by simp [h])

/-- C37 (amended), on `exampleRunningStatus`, a one-track writer with a note in its track:
`Write(EndOfTrack)` completes the only track and returns `ErrFinished`. -/
theorem smfwriter.write_last_endOfTrack_returns_ErrFinished_witness :
    (smfwriter.exampleRunningStatus.tracksProcessed + 1
        = smfwriter.exampleRunningStatus.header.NumTracks) ∧
    (smfwriter.exampleRunningStatus.Write .EndOfTrack).1.2 = some .ErrFinished ∧
    (smfwriter.exampleRunningStatus.Write .EndOfTrack).2.Write (channel.NoteOff 2 65)
      = ((0, some .ErrFinished), (smfwriter.exampleRunningStatus.Write .EndOfTrack).2) :=
  ⟨by decide,
    (smfwriter.write_last_endOfTrack_returns_ErrFinished smfwriter.exampleRunningStatus
      (channel.NoteOff 2 65) (by decide) (by decide) (by decide)).2.2.2 (by decide)⟩

/-- C37 (counterexample): the writer `New()` for one track, after `Write(NoteOn)`: its
`Write(EndOfTrack)` writes the track chunk (the output ends with `FF 2F 00`) and completes
the last track, and the error it returns is `ErrFinished`, not `nil`. -/
theorem smfwriter.write_last_endOfTrack_error_is_not_nil :
    (((smfwriter.New []).calls [.Write (channel.NoteOn 2 65 90)]).Write .EndOfTrack).1.2
      = some .ErrFinished ∧
    (((smfwriter.New []).calls [.Write (channel.NoteOn 2 65 90)]).Write .EndOfTrack).2.output
      = [0x4D, 0x54, 0x68, 0x64, 0, 0, 0, 6, 0, 0, 0, 1, 0x03, 0xC0,
         0x4D, 0x54, 0x72, 0x6B, 0, 0, 0, 8, 0x00, 0x92, 0x41, 0x5A, 0x00, 0xFF, 0x2F, 0x00] ∧
    (((smfwriter.New []).calls [.Write (channel.NoteOn 2 65 90)]).Write .EndOfTrack).1.2
      ≠ none := by
  decide

/-- C38: for every signed byte `sf` and every mode byte, `keyFromSharpsOrFlats` returns a
value in 0..11 (the function is total: its loop ends). Hence for every `KeySignature` that
`KeySignature.readFrom` returns, the key is in 0..11 and `Note()` returns a note name: it
does not reach its `panic("unreachable")` branch. -/
theorem meta.key_in_octave_note_never_panics (sf : Int) (mode : Nat) (rd rest : Input)
    (Key Num : Nat) (IsMajor IsFlat : Bool)
    (_hsf : -128 ≤ sf ∧ sf ≤ 127) (_hmode : mode ≤ 255)
    (hread : meta.KeySignature.readFrom rd
      = (.ok (.KeySignature Key IsMajor Num IsFlat), rest)) :
    meta.keyFromSharpsOrFlats sf mode ≤ 11 ∧ Key ≤ 11 ∧
    (meta.KeySignature.Note Key IsFlat).isSome = true := by
  have hkey : Key ≤ 11 := by
    unfold meta.KeySignature.readFrom at hread
    split at hread
    · simp at hread
    · split at hread
      · simp at hread
      · split at hread
        · simp at hread
        · split at hread
          · simp at hread
          · simp only [Prod.mk.injEq, Except.ok.injEq, Message.KeySignature.injEq] at hread
            rw [← hread.1.1]
            exact meta.keyFromSharpsOrFlats_le _ _
  exact ⟨meta.keyFromSharpsOrFlats_le sf mode, hkey, meta.KeySignature.Note_isSome Key IsFlat hkey⟩

/-- C38, at `sf = -7`, minor mode, and the data `02 FD 01` (three flats, minor), which
`readFrom` decodes with the key 0: `Note()` is defined. -/
theorem meta.key_in_octave_note_never_panics_witness :
    meta.keyFromSharpsOrFlats (-7) 1 ≤ 11 ∧ (0 : Nat) ≤ 11 ∧
    (meta.KeySignature.Note 0 true).isSome = true :=
  meta.key_in_octave_note_never_panics (-7) 1 [0x02, 0xFD, 0x01] [] 0 3 false true
    (by decide) (by decide)
    (by rw [meta.KeySignature.readFrom_two, meta.keyFromSharpsOrFlats_eq]; rfl)

end midi
